import Mathlib

set_option maxHeartbeats 1000000
set_option maxRecDepth 100000
set_option linter.unusedVariables false

attribute [local semireducible] Rat.inv Rat.mul Rat.sub Rat.add

namespace Evolve

/-! Shallow embedding of the Evolve-Skill maintenance scripts
(`scripts/audit_sync.py` and `scripts/health_check.py`).

Documents and CSV fields are modelled as Lean `String`s (lists of unicode
characters); the regular-expression operations of the source are embedded
as specialised scanning functions that implement the semantics of the
concrete patterns appearing in the source.  Python `float` arithmetic that
only feeds rendered percentages and ranking keys is modelled over `ℚ`.
Python exceptions are modelled with `Option`. -/

/-! ## Character and string primitives -/

/-- Whitespace test for the ASCII whitespace characters recognised by
Python's `str.strip`/`str.rstrip` and by the regex class `\s` on the
inputs this tool manipulates. -/
def isWs (c : Char) : Bool :=
  c = ' ' || c = '\t' || c = '\n' || c = '\r' || c = '\x0b' || c = '\x0c'

/-- Lowercasing of a single character, modelling Python `str.lower` on the
ASCII range; non-ASCII characters (the Chinese alias keys) are fixed
points of Python lowercasing as well. -/
def lowerChar (c : Char) : Char :=
  if 65 ≤ c.toNat ∧ c.toNat ≤ 90 then Char.ofNat (c.toNat + 32) else c

/-- Model of Python `str.lower`. -/
def pyLower (s : String) : String := ⟨s.data.map lowerChar⟩

/-- Helper removing trailing whitespace from a character list. -/
def trimWsEnd (l : List Char) : List Char := (l.reverse.dropWhile isWs).reverse

/-- Model of Python `str.strip()`. -/
def pyStrip (s : String) : String := ⟨trimWsEnd (s.data.dropWhile isWs)⟩

/-- Model of Python `str.rstrip()`. -/
def pyRstrip (s : String) : String := ⟨trimWsEnd s.data⟩

/-- Model of Python `str.lstrip("\n")`. -/
def pyLstripNl (s : String) : String := ⟨s.data.dropWhile (· = '\n')⟩

/-- Decidable test that `pre` is a prefix of `l`. -/
def startsWithSeq (pre l : List Char) : Bool :=
  match pre, l with
  | [], _ => true
  | _ :: _, [] => false
  | a :: pre', b :: l' => a = b && startsWithSeq pre' l'

/-- Decidable substring test, modelling Python's `in` on strings. -/
def containsSeq (needle hay : List Char) : Bool :=
  startsWithSeq needle hay ||
    match hay with
    | [] => false
    | _ :: t => containsSeq needle t

/-- String-level wrapper for `containsSeq` (`needle in hay` in Python). -/
def strContains (hay needle : String) : Bool := containsSeq needle.data hay.data

/-- Model of Python `hay.startswith(pre)`. -/
def strStartsWith (hay pre : String) : Bool := startsWithSeq pre.data hay.data

/-- Replacement of the first occurrence of `old` (Python
`hay.replace(old, new, 1)`). -/
def replaceFirstSeq (old new hay : List Char) : List Char :=
  if startsWithSeq old hay then new ++ hay.drop old.length
  else
    match hay with
    | [] => []
    | c :: t => c :: replaceFirstSeq old new t

/-- Model of Python `str.splitlines()` for the line boundaries `\n`,
`\r\n` and `\r` (the remaining exotic boundary characters do not occur in
the documents this tool manages). -/
def splitLinesCore : List Char → List Char → List (List Char)
  | [], cur => if cur.isEmpty then [] else [cur.reverse]
  | '\r' :: '\n' :: rest, cur => cur.reverse :: splitLinesCore rest []
  | '\n' :: rest, cur => cur.reverse :: splitLinesCore rest []
  | '\r' :: rest, cur => cur.reverse :: splitLinesCore rest []
  | c :: rest, cur => splitLinesCore rest (c :: cur)

/-- Model of Python `str.splitlines()`. -/
def pySplitLines (s : String) : List String :=
  (splitLinesCore s.data []).map (fun l => ⟨l⟩)

/-- Model of Python `sep.join(items)`. -/
def joinSep (sep : String) : List String → String
  | [] => ""
  | [x] => x
  | x :: rest => x ++ sep ++ joinSep sep rest

/-- Association-list lookup modelling a Python `dict.get`. -/
def assocLookup (m : List (String × String)) (k : String) : Option String :=
  match m with
  | [] => none
  | (a, b) :: rest => if a = k then some b else assocLookup rest k

/-! ## Decimal integers -/

/-- Digit character for a value below ten. -/
def digitCh (d : Nat) : Char := Char.ofNat (48 + d)

/-- ASCII digit test (the regex class `[0-9]`, Python `str.isdigit` on
ASCII input). -/
def isDigitCh (c : Char) : Bool := 48 ≤ c.toNat ∧ c.toNat ≤ 57

/-- Numeric value of an ASCII digit character. -/
def digitVal (c : Char) : Nat := c.toNat - 48

/-- Fuel-driven worker for the decimal digit expansion; any fuel of at
least `n` gives the full expansion. -/
def natDigitsF : Nat → Nat → List Char
  | 0, n => [digitCh n]
  | fuel + 1, n =>
    if n < 10 then [digitCh n]
    else natDigitsF fuel (n / 10) ++ [digitCh (n % 10)]

/-- Decimal digit expansion, most significant first; agrees with Python
`str(n)` for natural `n`. -/
def natDigits (n : Nat) : List Char := natDigitsF n n

/-- Model of Python `str(n)` for a natural number. -/
def natToStr (n : Nat) : String := ⟨natDigits n⟩

/-- Model of Python `str(i)` for an integer. -/
def intToStr (i : Int) : String :=
  if i < 0 then ⟨'-' :: natDigits (-i).toNat⟩ else natToStr i.toNat

/-- Digit-run parser for `pyInt`, continuing an accumulated value and
accepting single underscore separators between digits as Python does. -/
def parseDigitsCore : List Char → Nat → Option Nat
  | [], acc => some acc
  | c :: rest, acc =>
    if c = '_' then
      match rest with
      | [] => none
      | c2 :: rest2 =>
        if isDigitCh c2 then parseDigitsCore rest2 (acc * 10 + digitVal c2) else none
    else if isDigitCh c then parseDigitsCore rest (acc * 10 + digitVal c) else none

/-- Unsigned decimal parser: nonempty, starts with a digit. -/
def parseUDigits : List Char → Option Nat
  | [] => none
  | c :: rest => if isDigitCh c then parseDigitsCore rest (digitVal c) else none

/-- Model of Python `int(s)` on strings: optional surrounding whitespace,
optional sign, ASCII decimal digits with optional single underscore
separators.  `none` models the `ValueError` Python raises otherwise. -/
def pyInt (s : String) : Option Int :=
  match (pyStrip s).data with
  | [] => none
  | c :: rest =>
    if c = '+' then (parseUDigits rest).map Int.ofNat
    else if c = '-' then (parseUDigits rest).map (fun n => -(Int.ofNat n))
    else (parseUDigits (c :: rest)).map Int.ofNat

/-! ## The audit record store (`audit_sync.py`) -/

/-- Constant `PLATFORM_ALL`. -/
def PLATFORM_ALL : String := "all"

/-- Constant `PLATFORM_ALIASES` (identical in both scripts). -/
def PLATFORM_ALIASES : List (String × String) :=
  [("all", "all"), ("*", "all"), ("global", "all"), ("universal", "all"),
   ("shared", "all"), ("通用", "all"), ("全局", "all"),
   ("claude", "claude"), ("gemini", "gemini"), ("codex", "codex"),
   ("cursor", "cursor"), ("agents", "codex"), ("agent", "codex")]

/-- Constant `KNOWN_PLATFORM_VALUES`. -/
def KNOWN_PLATFORM_VALUES : List String :=
  ["all", "claude", "gemini", "codex", "cursor"]

/-- Implementation of `canonical_platform`: strip and lowercase the raw
value, fall back to `all` when empty, translate known aliases, and pass
any other value through in its stripped lowercased form. -/
def canonical_platform (raw : String) : String :=
  if pyLower (pyStrip raw) = "" then PLATFORM_ALL
  else
    match assocLookup PLATFORM_ALIASES (pyLower (pyStrip raw)) with
    | some v => v
    | none => pyLower (pyStrip raw)

/-- Raw CSV record as produced by `csv.DictReader`: a column is either
present with a string value or absent.  The byte-order mark and CSV
quoting layers sit below this model; `write_audit` always emits all
thirteen columns of `CSV_HEADER`. -/
structure RawRow where
  rule_id : Option String
  platform : Option String
  scope : Option String
  title : Option String
  origin : Option String
  hit : Option String
  vio : Option String
  err : Option String
  skip : Option String
  auto_skip : Option String
  last_reviewed : Option String
  status : Option String
  evolve_slot : Option String
deriving DecidableEq

/-- Normalized audit record as produced by `read_audit` of audit_sync.py.
String columns that the reader never touches are reported here as the
empty string when the column was absent, exactly the value
`csv.DictWriter` would serialize for them. -/
@[ext]
structure Row where
  rule_id : String
  platform : String
  scope : String
  title : String
  origin : String
  hit : Int
  vio : Int
  err : Int
  skip : Int
  auto_skip : Int
  last_reviewed : String
  status : String
  evolve_slot : Int
deriving DecidableEq

/-- Implementation of `is_platform_rule` (`rule_id.startswith("S-")`). -/
def is_platform_rule (r : Row) : Bool := strStartsWith r.rule_id "S-"

/-- Scope prefix up to the first `/`, as `scope.split("/")[0]`. -/
def scopeTop (scope : String) : String := ⟨scope.data.takeWhile (· ≠ '/')⟩

/-- Implementation of `infer_legacy_platform`. -/
def infer_legacy_platform (r : Row) : String :=
  if is_platform_rule r then
    match assocLookup PLATFORM_ALIASES (pyLower (pyStrip (scopeTop r.scope))) with
    | some v => if KNOWN_PLATFORM_VALUES.contains v then v else PLATFORM_ALL
    | none => PLATFORM_ALL
  else PLATFORM_ALL

/-- Implementation of `row_platform`. -/
def row_platform (r : Row) : String := canonical_platform r.platform

/-- Numeric-field coercion of `read_audit` in audit_sync.py: an absent
column defaults to `0`, and a string that `int()` rejects is coerced to
`0` by the `try/except` of the reader. -/
def intOr0 (v : Option String) : Int :=
  match v with
  | none => 0
  | some s => (pyInt s).getD 0

/-- Field normalization of `read_audit` in audit_sync.py before the
legacy-platform fix: counter coercion, defaults, platform
canonicalization. -/
def read_row_base (r : RawRow) : Row := {
  rule_id := r.rule_id.getD ""
  platform := canonical_platform (r.platform.getD "")
  scope := r.scope.getD ""
  title := r.title.getD ""
  origin := r.origin.getD "error"
  hit := intOr0 r.hit
  vio := intOr0 r.vio
  err := intOr0 r.err
  skip := intOr0 r.skip
  auto_skip := intOr0 r.auto_skip
  last_reviewed := r.last_reviewed.getD ""
  status := r.status.getD ""
  evolve_slot := intOr0 r.evolve_slot }

/-- Legacy-platform inference step of `read_audit`: an `S-` row whose
platform canonicalized to `all` gets a platform inferred from its
scope. -/
def legacy_fix (base : Row) : Row :=
  if base.platform == PLATFORM_ALL && is_platform_rule base then
    { base with platform := infer_legacy_platform base }
  else base

/-- Row normalization of `read_audit` in audit_sync.py. -/
def read_audit_row (r : RawRow) : Row := legacy_fix (read_row_base r)

/-- Implementation of `read_audit` (audit_sync.py) at record level. -/
def read_audit (rows : List RawRow) : List Row := rows.map read_audit_row

/-- Serialization of one record by `write_audit`: every `CSV_HEADER`
column is emitted, integer counters via `str`. -/
def write_audit_row (r : Row) : RawRow := {
  rule_id := some r.rule_id
  platform := some r.platform
  scope := some r.scope
  title := some r.title
  origin := some r.origin
  hit := some (intToStr r.hit)
  vio := some (intToStr r.vio)
  err := some (intToStr r.err)
  skip := some (intToStr r.skip)
  auto_skip := some (intToStr r.auto_skip)
  last_reviewed := some r.last_reviewed
  status := some r.status
  evolve_slot := some (intToStr r.evolve_slot) }

/-- Implementation of `write_audit` at record level. -/
def write_audit (rows : List Row) : List RawRow := rows.map write_audit_row

/-! ## Derived metrics

Python computes these with `float` division; they are modelled exactly
over `ℚ`.  The thresholds compared against (`0.5`) and the counters are
dyadic, so the comparisons agree with the source. -/

/-- Implementation of `compliance_rate` (`hit / (hit + vio)`, undefined on
zero activity). -/
def compliance_rate (r : Row) : Option ℚ :=
  let total := r.hit + r.vio
  if total = 0 then none else some ((r.hit : ℚ) / (total : ℚ))

/-- Implementation of `danger_rate` (`err / vio`, undefined when `vio`
is zero). -/
def danger_rate (r : Row) : Option ℚ :=
  if r.vio = 0 then none else some ((r.err : ℚ) / (r.vio : ℚ))

/-- Implementation of `activity` (`hit + vio`). -/
def activity (r : Row) : Int := r.hit + r.vio

/-- Half-to-even rounding used by Python's format mini-language. -/
def roundHalfEven (q : ℚ) : Int :=
  let f := ⌊q⌋
  let frac := q - f
  if frac < 1/2 then f
  else if 1/2 < frac then f + 1
  else if f % 2 = 0 then f else f + 1

/-- Model of the Python format `f"{x:.0%}"`: multiply by one hundred,
round half-to-even, append a percent sign.  Python performs this on binary
floats; all percentages this development evaluates concretely are dyadic
rationals, where the two computations coincide. -/
def formatPct0 (q : ℚ) : String := intToStr (roundHalfEven (q * 100)) ++ "%"

/-- Implementation of `recommendation_score` (audit_sync.py), with the
float constants `0.2` etc. taken as the rationals they denote. -/
def recommendation_score (r : Row) : ℚ :=
  let base := (r.err : ℚ) * 8 + (r.vio : ℚ) * 3
  let s1 := match compliance_rate r with
    | some cr => base + (1 - cr) * 4
    | none => base
  let s2 := match danger_rate r with
    | some dr => s1 + dr * 3
    | none => s1
  let s3 := if r.status = "review" then s2 + 2 else s2
  s3 + min ((activity r : ℚ)) 10 * (1/5)

/-! ## Filtering and scoring (`audit_sync.py`) -/

/-- Implementation of `match_scope`: case-insensitive substring match of
any keyword inside the scope. -/
def match_scope (rowScope : String) (keywords : List String) : Bool :=
  keywords.any (fun kw => strContains (pyLower rowScope) (pyLower kw))

/-- Implementation of `match_platform`. -/
def match_platform (r : Row) (platform : Option String) (includeUniversal : Bool) : Bool :=
  match platform with
  | none => true
  | some p => if is_platform_rule r then row_platform r == p else includeUniversal

/-- Implementation of `filter_rows_for_evolve_sync`. -/
def filter_rows_for_evolve_sync (rows : List Row) (evolvePlatform : Option String) : List Row :=
  match evolvePlatform with
  | none => rows
  | some p =>
    if p = PLATFORM_ALL then rows
    else rows.filter (fun r => if is_platform_rule r then row_platform r == p else true)

/-- Generic association lookup with Python `dict` semantics. -/
def dictLookup {α : Type} (m : List (String × α)) (k : String) : Option α :=
  match m with
  | [] => none
  | (a, b) :: rest => if a = k then some b else dictLookup rest k

/-- Key upsert with Python `dict` assignment semantics (replace in place,
else append). -/
def dictUpsert {α : Type} (m : List (String × α)) (k : String) (v : α) : List (String × α) :=
  if m.any (fun p => p.1 == k) then
    m.map (fun p => if p.1 == k then (k, v) else p)
  else m ++ [(k, v)]

/-- Word-constituent test for the regex class `\w` restricted to ASCII
(the action names scored through it are ASCII words). -/
def isWordChar (c : Char) : Bool :=
  isDigitCh c || (65 ≤ c.toNat ∧ c.toNat ≤ 90) || (97 ≤ c.toNat ∧ c.toNat ≤ 122) || c = '_'

/-- Fuel-driven worker for `findPlusRuns`; fuel of at least the length
of the list gives all matches. -/
def findPlusRunsF : Nat → List Char → List (List Char)
  | _, [] => []
  | 0, _ :: _ => []
  | fuel + 1, '+' :: rest =>
    let run := rest.takeWhile isWordChar
    if run.isEmpty then findPlusRunsF fuel rest
    else run :: findPlusRunsF fuel (rest.drop run.length)
  | fuel + 1, _ :: rest => findPlusRunsF fuel rest

/-- All matches of `\+(\w+)` in a character list, in order. -/
def findPlusRuns (l : List Char) : List (List Char) := findPlusRunsF l.length l

/-- Whitespace-run split modelling Python `str.split()` with no
arguments (no empty fields). -/
def splitWsCore : List Char → List Char → List (List Char)
  | [], cur => if cur.isEmpty then [] else [cur.reverse]
  | c :: rest, cur =>
    if isWs c then
      if cur.isEmpty then splitWsCore rest [] else cur.reverse :: splitWsCore rest []
    else splitWsCore rest (c :: cur)

/-- Model of Python `str.split()`. -/
def pySplitWs (s : String) : List String :=
  (splitWsCore s.data []).map (fun l => (⟨l⟩ : String))

/-- Implementation of `parse_score_string`: whitespace-separated
`RULE:+act+act` tokens, later tokens for the same rule overwriting
earlier ones as Python dict assignment does. -/
def parse_score_string (scoreStr : String) : List (String × List String) :=
  (pySplitWs (pyStrip scoreStr)).foldl (fun acc token =>
    if strContains token ":" then
      let ruleId : String := ⟨token.data.takeWhile (· ≠ ':')⟩
      let actionsStr : List Char := (token.data.dropWhile (· ≠ ':')).drop 1
      let actions := (findPlusRuns actionsStr).map (fun l => (⟨l⟩ : String))
      let valid := actions.filter (fun a => a == "hit" || a == "vio" || a == "err" || a == "skip")
      if valid.isEmpty then acc else dictUpsert acc (pyStrip ruleId) valid
    else acc) []

/-- Separator test for the regex class `[,\s]`. -/
def isCommaWs (c : Char) : Bool := c = ',' || isWs c

/-- Fuel-driven worker for `splitRunsCore`; fuel of at least the length
of the list gives the full split. -/
def splitRunsF (p : Char → Bool) : Nat → List Char → List Char → List (List Char)
  | _, [], cur => [cur.reverse]
  | 0, _ :: _, cur => [cur.reverse]
  | fuel + 1, c :: rest, cur =>
    if p c then cur.reverse :: splitRunsF p fuel (rest.dropWhile p) []
    else splitRunsF p fuel rest (c :: cur)

/-- Split on runs of separators, modelling `re.split(r"[,\s]+", s)`
(which keeps empty fields at the boundaries). -/
def splitRunsCore (p : Char → Bool) (l cur : List Char) : List (List Char) :=
  splitRunsF p l.length l cur

/-- Implementation of `parse_selection_numbers`: comma/whitespace
separated positive decimal numbers, deduplicated keeping first
occurrences. -/
def parse_selection_numbers (raw : String) : List Nat :=
  let tokens := (splitRunsCore isCommaWs (pyStrip raw).data []).map (fun l => (⟨l⟩ : String))
  tokens.foldl (fun acc token =>
    if token.data.isEmpty then acc
    else if token.data.all isDigitCh then
      let n := token.data.foldl (fun a c => a * 10 + digitVal c) 0
      if n > 0 ∧ ¬ acc.contains n then acc ++ [n] else acc
    else acc) []

/-- Constant `MANUAL_SKIP_THRESHOLD`. -/
def MANUAL_SKIP_THRESHOLD : Int := 5

/-- Constant `AUTO_SKIP_THRESHOLD`. -/
def AUTO_SKIP_THRESHOLD : Int := 8

/-- Status-transition step of `cmd_sync` for a single row (audit_sync.py
lines 1679-1695): active rows crossing either skip threshold move to
`review` (the review tag records the reason, manual `skip` first);
otherwise an active row with `hit ≥ 8`, no violations and non-`error`
origin is reported as a low-value candidate with status untouched. -/
def sync_status_row (r : Row) : Row × Option String × Bool :=
  if r.status = "active" then
    if r.skip ≥ MANUAL_SKIP_THRESHOLD ∨ r.auto_skip ≥ AUTO_SKIP_THRESHOLD then
      let reason := if r.skip ≥ MANUAL_SKIP_THRESHOLD then "skip" else "auto_skip"
      ({ r with status := "review" }, some (r.rule_id ++ "(" ++ reason ++ ")"), false)
    else if r.hit ≥ 8 ∧ r.vio = 0 ∧ r.err = 0 ∧ r.origin ≠ "error" then
      (r, none, true)
    else (r, none, false)
  else (r, none, false)

/-- One scored action of `cmd_score`, incrementing the corresponding
counter. -/
def score_action_step (acc : Row) (a : String) : Row :=
  if a = "hit" then { acc with hit := acc.hit + 1 }
  else if a = "vio" then { acc with vio := acc.vio + 1 }
  else if a = "err" then { acc with err := acc.err + 1 }
  else if a = "skip" then { acc with skip := acc.skip + 1 }
  else acc

/-- Scoring of one explicitly scored row in `cmd_score`: apply each listed
action, stamp `last_reviewed`, reset `auto_skip`. -/
def scoreActionsApply (r : Row) (actions : List String) (today : String) : Row :=
  { actions.foldl score_action_step r with last_reviewed := today, auto_skip := 0 }

/-- Row-level filter predicate of `cmd_score` (the body of its
`matched_ids` comprehension): not archived, scope keywords match when
given, platform matches. -/
def scoreFilterHit (scopeKeywords : List String) (platform : Option String) (r : Row) : Bool :=
  !(r.status == "archived")
  && (scopeKeywords.isEmpty || match_scope r.scope scopeKeywords)
  && match_platform r platform true

/-- Row-update core of `cmd_score` (audit_sync.py lines 1589-1629),
taking the already parsed score map and filter arguments. -/
def cmd_score_rows (scores : List (String × List String)) (scopeKeywords : List String)
    (platform : Option String) (today : String) (rows : List Row) : List Row :=
  let filterActive := scopeKeywords ≠ [] ∨ platform ≠ none
  let matchedIds : List String :=
    if filterActive then
      (rows.filter (scoreFilterHit scopeKeywords platform)).map (fun r => r.rule_id)
    else []
  rows.map (fun r =>
    match dictLookup scores r.rule_id with
    | some actions => scoreActionsApply r actions today
    | none =>
      if filterActive ∧ matchedIds.contains r.rule_id then
        if r.status = "active" then
          { r with auto_skip := r.auto_skip + 1, last_reviewed := today }
        else r
      else r)

/-! ## Markdown section model

The source locates level-2 sections with the multiline patterns
`^## Heading\s*\n` and `^## (?!Heading)`.  The scanners below implement
exactly these patterns: a heading match is anchored at a line start and
consumes the greedy whitespace run up to and including the last newline
inside it; the section body extends to the next level-2 heading line (or
the end of the document). -/

/-- Index of the last `\n` inside the maximal whitespace run at the head
of `l`, modelling the backtracking of greedy `\s*` followed by `\n`. -/
def lastNlIdx (run : List Char) : Option Nat :=
  match run.reverse.findIdx? (fun c => c = '\n') with
  | none => none
  | some j => some (run.length - 1 - j)

/-- Match of `heading\s*\n` at the head of `l`, returning the consumed
length (through the newline). -/
def matchHeadingAt (heading : List Char) (l : List Char) : Option Nat :=
  if startsWithSeq heading l then
    let rest := l.drop heading.length
    match lastNlIdx (rest.takeWhile isWs) with
    | some a => some (heading.length + a + 1)
    | none => none
  else none

/-- Leftmost multiline match of a line-anchored matcher: scan positions
left to right, attempting `f` only at line starts, returning the match
span `(start, stop)`. -/
def scanLineStarts (f : List Char → Option Nat) : List Char → Bool → Nat → Option (Nat × Nat)
  | l, atStart, pos =>
    match (if atStart then f l else none) with
    | some k => some (pos, pos + k)
    | none =>
      match l with
      | [] => none
      | c :: rest => scanLineStarts f rest (c = '\n') (pos + 1)

/-- Leftmost match of `^heading\s*\n` in a document. -/
def findHeading (heading : String) (content : String) : Option (Nat × Nat) :=
  scanLineStarts (matchHeadingAt heading.data) content.data true 0

/-- Line-start match test for `^## (?!excl)`. -/
def matchNextSectionAt (excl : List Char) (l : List Char) : Bool :=
  startsWithSeq ("## ").data l && !startsWithSeq excl (l.drop 3)

/-- Leftmost match position of `^## (?!excl)` in a document slice (the
slice start counts as a line start, as for `re.search` on a sliced
string). -/
def findNextSection (excl : String) (slice : List Char) : Option Nat :=
  (scanLineStarts
    (fun l => if matchNextSectionAt excl.data l then some 0 else none)
    slice true 0).map (fun pr => pr.1)

/-- Body bounds `(start, stop)` of the section introduced by
`^heading\s*\n` and ending at `^## (?!excl)` or at the end of the
document; `none` when the heading is absent. -/
def sectionBounds (heading excl : String) (content : String) : Option (Nat × Nat) :=
  match findHeading heading content with
  | none => none
  | some (_, bodyStart) =>
    let slice := content.data.drop bodyStart
    match findNextSection excl slice with
    | none => some (bodyStart, content.data.length)
    | some rel => some (bodyStart, bodyStart + rel)

/-- Split at `\n` separators keeping empty lines, mirroring how the
multiline patterns `^...$` enumerate the lines of a slice. -/
def splitOnNl : List Char → List (List Char)
  | [] => [[]]
  | c :: rest =>
    if c = '\n' then [] :: splitOnNl rest
    else
      match splitOnNl rest with
      | h :: t => (c :: h) :: t
      | [] => [[c]]

/-- Leftmost match of `^([^\n]*needle[^\n]*)$`: the first line of `l`
containing `needle`, returned verbatim. -/
def findLineContaining (needle : List Char) (l : List Char) : Option (List Char) :=
  (splitOnNl l).find? (fun line => containsSeq needle line)

/-- Substitution of every non-overlapping leftmost match of `m` by
`repl`, modelling `re.sub`; a match consuming zero characters is treated
as no match (the patterns embedded here always consume input). -/
def subAllMatchesF (m : List Char → Option Nat) (repl : List Char) :
    Nat → List Char → List Char
  | _, [] => []
  | 0, l => l
  | fuel + 1, c :: t =>
    match m (c :: t) with
    | some (k + 1) => repl ++ subAllMatchesF m repl fuel ((c :: t).drop (k + 1))
    | _ => c :: subAllMatchesF m repl fuel t

/-- Substitution driver: fuel of at least the length of the list covers
every match. -/
def subAllMatches (m : List Char → Option Nat) (repl : List Char) (l : List Char) : List Char :=
  subAllMatchesF m repl l.length l

/-- Consume `\d+` (greedy) at the head of `l`, returning the rest; fails
on an empty run. -/
def consumeDigits (l : List Char) : Option (List Char) :=
  let run := l.takeWhile isDigitCh
  if run.isEmpty then none else some (l.drop run.length)

/-- Consume `\s+` (greedy) at the head of `l`. -/
def consumeWs1 (l : List Char) : Option (List Char) :=
  let run := l.takeWhile isWs
  if run.isEmpty then none else some (l.drop run.length)

/-- Consume a literal at the head of `l`. -/
def consumeLit (lit l : List Char) : Option (List Char) :=
  if startsWithSeq lit l then some (l.drop lit.length) else none

/-- Match of the inline-tag pattern
`\s*`\{hit:\d+\s+vio:\d+\s+err:\d+\}`` at the head of `l`, returning the
consumed length. -/
def matchStatTagAt (l : List Char) : Option Nat :=
  let run := l.takeWhile isWs
  let l1 := l.drop run.length
  match consumeLit ("`\x7bhit:").data l1 with
  | none => none
  | some l2 =>
  match consumeDigits l2 with
  | none => none
  | some l3 =>
  match consumeWs1 l3 with
  | none => none
  | some l4 =>
  match consumeLit ("vio:").data l4 with
  | none => none
  | some l5 =>
  match consumeDigits l5 with
  | none => none
  | some l6 =>
  match consumeWs1 l6 with
  | none => none
  | some l7 =>
  match consumeLit ("err:").data l7 with
  | none => none
  | some l8 =>
  match consumeDigits l8 with
  | none => none
  | some l9 =>
  match consumeLit ("\x7d`").data l9 with
  | none => none
  | some l10 => some (l.length - l10.length)

/-- Removal of every inline-tag occurrence, as the `re.sub` in
`update_rules_inline_tags` and `clean_rule_content_line`. -/
def removeStatTags (l : List Char) : List Char := subAllMatches matchStatTagAt [] l

/-- Inline audit tag `` `{hit:N vio:N err:N}` `` for a row. -/
def inline_tag (r : Row) : String :=
  "`\x7bhit:" ++ intToStr r.hit ++ " vio:" ++ intToStr r.vio ++ " err:" ++ intToStr r.err ++ "\x7d`"

/-- Implementation of `update_rules_inline_tags`: inside the `## Rules`
section, the first line mentioning `[rule_id]` of each non-archived row
has its previous inline tags removed, is right-trimmed and receives the
fresh tag; the replacement substitutes the first occurrence of the full
line text, as `str.replace(old, new, 1)` does. -/
def update_rules_inline_tags (content : String) (rows : List Row) : String :=
  match sectionBounds "## Rules" "Rules" content with
  | none => content
  | some (s, e) =>
    let rulesContent := (content.data.drop s).take (e - s)
    let final := rows.foldl (fun rc r =>
      if r.status = "archived" then rc
      else
        match findLineContaining ("[" ++ r.rule_id ++ "]").data rc with
        | none => rc
        | some line =>
          let cleaned := trimWsEnd (removeStatTags line)
          let newLine := cleaned ++ ("  " ++ inline_tag r).data
          replaceFirstSeq line newLine rc) rulesContent
    ⟨content.data.take s ++ final ++ content.data.drop e⟩

/-- Rule-id reference marker `[rule_id]` checked by `update_tldr_section`. -/
def tldrMarker (r : Row) : String := "[" ++ r.rule_id ++ "]"

/-- Templated 高频违反 (frequent violation) line of `update_tldr_section`. -/
def tldrEmphLine (r : Row) : String :=
  "- ⚠️ **高频违反** " ++ tldrMarker r ++ " [" ++ r.scope ++ "]：遵守率 "
    ++ formatPct0 ((compliance_rate r).getD 0) ++ "，请重点关注\n"

/-- Templated 高危 (high risk) line of `update_tldr_section`. -/
def tldrCriticalLine (r : Row) : String :=
  "- 🚨 **高危** " ++ tldrMarker r ++ " [" ++ r.scope ++ "]：危险度 "
    ++ formatPct0 ((danger_rate r).getD 0) ++ "，违反极易导致错误\n"

/-- Templated 需重写 (needs rewriting) line of `update_tldr_section`. -/
def tldrHardLine (r : Row) : String :=
  "- 🔧 **需重写** " ++ tldrMarker r ++ " [" ++ r.scope ++ "]：遵守率 "
    ++ formatPct0 ((compliance_rate r).getD 0) ++ "，规则重要但难以执行\n"

/-- Qualification for the frequent-violation list (`vio ≥ 3` and defined
compliance below one half). -/
def tldrEmphQualifies (r : Row) : Bool :=
  decide (3 ≤ r.vio) && (match compliance_rate r with
    | some cr => decide (cr < 1/2)
    | none => false)

/-- Qualification for the high-risk list (`err ≥ 2` and defined danger of
at least one half). -/
def tldrCriticalQualifies (r : Row) : Bool :=
  decide (2 ≤ r.err) && (match danger_rate r with
    | some dr => decide (1/2 ≤ dr)
    | none => false)

/-- Qualification for the hard-to-follow list (`hit ≥ 3` and `vio ≥ 3`). -/
def tldrHardQualifies (r : Row) : Bool :=
  decide (3 ≤ r.hit) && decide (3 ≤ r.vio)

/-- One prepend step of `update_tldr_section`: the line for `r` is
prepended unless the `[rule_id]` marker already occurs in the current
section text. -/
def tldrPrependStep (lineOf : Row → String) (st : List Char × Bool) (r : Row) : List Char × Bool :=
  if containsSeq (tldrMarker r).data st.1 then st
  else ((lineOf r).data ++ st.1, true)

/-- Implementation of `update_tldr_section` (audit_sync.py lines
358-428). -/
def update_tldr_section (content : String) (rows : List Row) : String :=
  match sectionBounds "## TL;DR" "TL;DR" content with
  | none => content
  | some (s, e) =>
    let tldr0 := (content.data.drop s).take (e - s)
    let eligible := rows.filter (fun r => r.status == "active" || r.status == "protected")
    let emphasize := eligible.filter tldrEmphQualifies
    let critical := eligible.filter tldrCriticalQualifies
    let hard := eligible.filter tldrHardQualifies
    let st1 := emphasize.foldl (tldrPrependStep tldrEmphLine) (tldr0, false)
    let st2 := critical.foldl (tldrPrependStep tldrCriticalLine) st1
    let st3 := hard.foldl (tldrPrependStep tldrHardLine) st2
    if st3.2 then ⟨content.data.take s ++ st3.1 ++ content.data.drop e⟩
    else content

/-! ## Generic text helpers used by the platform sync engine -/

/-- Decidable suffix test. -/
def endsWithSeq (suf l : List Char) : Bool := startsWithSeq suf.reverse l.reverse

/-- Python code-point comparison of strings (`<`). -/
def strLt : List Char → List Char → Bool
  | [], [] => false
  | [], _ :: _ => true
  | _ :: _, [] => false
  | x :: xs, y :: ys =>
    if x.toNat < y.toNat then true
    else if y.toNat < x.toNat then false
    else strLt xs ys

/-- Non-strict string order used as a sort predicate. -/
def strLe (a b : String) : Bool := !(strLt b.data a.data)

/-- Stable merge of two runs: ties come from the left run, as in Python's
stable sort. -/
def mergeRunsF {α : Type} (le : α → α → Bool) : Nat → List α → List α → List α
  | _, [], ys => ys
  | _, xs, [] => xs
  | 0, xs, ys => xs ++ ys
  | fuel + 1, x :: xs, y :: ys =>
    if le x y then x :: mergeRunsF le fuel xs (y :: ys)
    else y :: mergeRunsF le fuel (x :: xs) ys

/-- Left-biased merge of two runs; fuel of at least the summed lengths
completes the merge. -/
def mergeRuns {α : Type} (le : α → α → Bool) (xs ys : List α) : List α :=
  mergeRunsF le (xs.length + ys.length) xs ys

/-- Fuel-driven worker for stable merge sort; fuel of at least the
length of the list sorts it fully. -/
def msortF {α : Type} (le : α → α → Bool) : Nat → List α → List α
  | 0, l => l
  | fuel + 1, l =>
    if l.length ≤ 1 then l
    else
      mergeRuns le (msortF le fuel (l.take (l.length / 2)))
        (msortF le fuel (l.drop (l.length / 2)))

/-- Stable merge sort modelling Python `list.sort(key=...)`: splitting at
the midpoint and merging with left-biased ties preserves the relative
order of equal keys. -/
def msort {α : Type} (le : α → α → Bool) (l : List α) : List α := msortF le l.length l

/-- Comparison of integers as an `Ordering`. -/
def cmpInt (a b : Int) : Ordering := if a < b then .lt else if b < a then .gt else .eq

/-- Comparison of strings as an `Ordering` (Python code-point order). -/
def cmpStr (a b : String) : Ordering :=
  if strLt a.data b.data then .lt else if strLt b.data a.data then .gt else .eq

/-- Set-style deduplication followed by `sorted(...)` (Python
`sorted({*xs})`). -/
def sortedDedup (l : List String) : List String := msort strLe l.eraseDups

/-- Name component of a posix path (Python `Path(p).name`). -/
def pathName (p : String) : String := ⟨(p.data.reverse.takeWhile (fun c => c ≠ '/')).reverse⟩

/-- Stem of a posix path (Python `Path(p).stem`). -/
def pathStem (p : String) : String :=
  let name := (pathName p).data
  let tailPart := name.reverse.dropWhile (fun c => c ≠ '.')
  match tailPart with
  | [] => ⟨name⟩
  | _ :: stemRev => if stemRev.isEmpty then ⟨name⟩ else ⟨stemRev.reverse⟩

/-- Heading match `##\s+word\s*$` where `$` sits before a newline or at
the end of input; returns the consumed length up to the `$` position. -/
def matchSecHeadAt (word : List Char) (l : List Char) : Option Nat :=
  match consumeLit ("##").data l with
  | none => none
  | some l1 =>
  match consumeWs1 l1 with
  | none => none
  | some l2 =>
  match consumeLit word l2 with
  | none => none
  | some l3 =>
    let run := l3.takeWhile isWs
    if l3.length = run.length then some (l.length - l3.length + run.length)
    else
      match lastNlIdx run with
      | some a => some (l.length - l3.length + a)
      | none => none

/-- Line-start test for `^##\s+`. -/
def matchHashGap (l : List Char) : Option Nat :=
  if ((consumeLit ("##").data l).bind consumeWs1).isSome then some 0 else none

/-- Implementation of `extract_markdown_section`: body between
`^##\s+heading\s*$` and the next `^##\s+` line (or end of document),
stripped. -/
def extract_markdown_section (content : String) (heading : String) : String :=
  match scanLineStarts (matchSecHeadAt heading.data) content.data true 0 with
  | none => ""
  | some (_, e) =>
    let slice := content.data.drop e
    let stop :=
      match scanLineStarts matchHashGap slice true 0 with
      | none => slice.length
      | some (st, _) => st
    pyStrip ⟨slice.take stop⟩

/-- Heading match `##\s+Rule\s*$\n` (consumed through the newline), used
by the rule-detail documents. -/
def matchHeadGapNlAt (word : List Char) (l : List Char) : Option Nat :=
  match consumeLit ("##").data l with
  | none => none
  | some l1 =>
  match consumeWs1 l1 with
  | none => none
  | some l2 =>
  match consumeLit word l2 with
  | none => none
  | some l3 =>
    match lastNlIdx (l3.takeWhile isWs) with
    | some a => some (l.length - l3.length + a + 1)
    | none => none

/-- Bounds `(bodyStart, bodyStop)` of the `## Rule` section of a detail
document (`^##\s+Rule\s*$\n(.*?)(?=^##\s+|\Z)`). -/
def ruleSectionBounds (content : String) : Option (Nat × Nat) :=
  match scanLineStarts (matchHeadGapNlAt ("Rule").data) content.data true 0 with
  | none => none
  | some (_, e) =>
    let slice := content.data.drop e
    match scanLineStarts matchHashGap slice true 0 with
    | none => some (e, content.data.length)
    | some (st, _) => some (e, e + st)

/-- Iteration state of `trim_multiline`: accumulate lines until the line
or character budget is exhausted. -/
def trimMultilineGo (maxLines maxChars : Nat) : List String → List String → Nat → List String
  | [], acc, _ => acc.reverse
  | line :: rest, acc, total =>
    if maxLines ≤ acc.length then acc.reverse
    else if maxChars < total + line.length then
      let remain := maxChars - total
      if 20 < remain then (((pyRstrip ⟨line.data.take remain⟩) ++ " ...") :: acc).reverse
      else acc.reverse
    else trimMultilineGo maxLines maxChars rest (line :: acc) (total + line.length)

/-- Implementation of `trim_multiline`. -/
def trim_multiline (text : String) (maxLines maxChars : Nat) : List String :=
  if pyStrip text = "" then ["- (no data)"]
  else
    let lines := (pySplitLines text).filterMap
      (fun ln => if pyStrip ln = "" then none else some (pyRstrip ln))
    let trimmed := trimMultilineGo maxLines maxChars lines [] 0
    let trimmed := if trimmed.length < lines.length then trimmed ++ ["- ..."] else trimmed
    if trimmed.isEmpty then ["- (no data)"] else trimmed

/-- Descending ranking order of `select_high_signal_rules`
(`key=(err, vio, activity, hit, rule_id)`, `reverse=True`). -/
def highSignalGe (a b : Row) : Bool :=
  ((cmpInt a.err b.err).then ((cmpInt a.vio b.vio).then
    ((cmpInt (activity a) (activity b)).then
      ((cmpInt a.hit b.hit).then (cmpStr a.rule_id b.rule_id))))) ≠ Ordering.lt

/-- Implementation of `select_high_signal_rules`. -/
def select_high_signal_rules (rows : List Row) (limit : Nat) : List Row :=
  (msort highSignalGe rows).take limit

/-! ## SHA-1 and the platform digest

`build_platform_digest` hashes a canonical JSON payload with
`hashlib.sha1`.  SHA-1 is embedded bit-faithfully below over byte lists;
strings are brought to bytes by the UTF-8 encoding that `str.encode`
performs. -/

/-- UTF-8 encoding of one character. -/
def utf8EncodeChar (c : Char) : List Nat :=
  let n := c.toNat
  if n < 128 then [n]
  else if n < 2048 then [192 + n / 64, 128 + n % 64]
  else if n < 65536 then [224 + n / 4096, 128 + (n / 64) % 64, 128 + n % 64]
  else [240 + n / 262144, 128 + (n / 4096) % 64, 128 + (n / 64) % 64, 128 + n % 64]

/-- UTF-8 encoding of a string (`str.encode("utf-8")`). -/
def utf8Encode (s : String) : List Nat :=
  s.data.foldr (fun c acc => utf8EncodeChar c ++ acc) []

/-- Truncation to a 32-bit word. -/
def w32 (n : Nat) : Nat := n % 4294967296

/-- Left rotation of a 32-bit word by `b` bits. -/
def rotl (b n : Nat) : Nat := w32 ((n <<< b) + (n >>> (32 - b)))

/-- Big-endian byte rendering of `n` on `k` bytes. -/
def natToBytesBE (k : Nat) (n : Nat) : List Nat :=
  (List.range k).map (fun i => (n >>> (8 * (k - 1 - i))) % 256)

/-- Fuel-driven worker grouping a byte list into 64-byte chunks. -/
def chunks64F : Nat → List Nat → List (List Nat)
  | 0, _ => []
  | fuel + 1, l =>
    if l.isEmpty then []
    else l.take 64 :: chunks64F fuel (l.drop 64)

/-- Grouping of a byte list into 64-byte chunks. -/
def chunks64 (l : List Nat) : List (List Nat) := chunks64F l.length l

/-- 32-bit words from the bytes of one chunk. -/
def bytesToWords : List Nat → List Nat
  | b0 :: b1 :: b2 :: b3 :: rest => (((b0 * 256 + b1) * 256 + b2) * 256 + b3) :: bytesToWords rest
  | _ => []

/-- One extension step of the SHA-1 message schedule. -/
def schedStep (w : List Nat) : List Nat :=
  w ++ [rotl 1 ((w.getD (w.length - 3) 0) ^^^ (w.getD (w.length - 8) 0) ^^^
                (w.getD (w.length - 14) 0) ^^^ (w.getD (w.length - 16) 0))]

/-- Iterated message-schedule extension. -/
def extendSched : Nat → List Nat → List Nat
  | 0, w => w
  | k + 1, w => extendSched k (schedStep w)

/-- One SHA-1 round. -/
def sha1Round (i wi : Nat) (st : Nat × Nat × Nat × Nat × Nat) : Nat × Nat × Nat × Nat × Nat :=
  let (a, b, c, d, e) := st
  let f :=
    if i < 20 then (b &&& c) ||| ((b ^^^ 4294967295) &&& d)
    else if i < 40 then b ^^^ c ^^^ d
    else if i < 60 then (b &&& c) ||| (b &&& d) ||| (c &&& d)
    else b ^^^ c ^^^ d
  let k :=
    if i < 20 then 1518500249
    else if i < 40 then 1859775393
    else if i < 60 then 2400959708
    else 3395469782
  let temp := w32 (rotl 5 a + f + e + k + wi)
  (temp, a, rotl 30 b, c, d)

/-- Compression of one 64-byte chunk. -/
def sha1Chunk (h : Nat × Nat × Nat × Nat × Nat) (chunk : List Nat) : Nat × Nat × Nat × Nat × Nat :=
  let w := extendSched 64 (bytesToWords chunk)
  let fin := (List.range 80).foldl (fun st i => sha1Round i (w.getD i 0) st) h
  (w32 (h.1 + fin.1), w32 (h.2.1 + fin.2.1), w32 (h.2.2.1 + fin.2.2.1),
   w32 (h.2.2.2.1 + fin.2.2.2.1), w32 (h.2.2.2.2 + fin.2.2.2.2))

/-- SHA-1 of a byte list, as a 20-byte digest. -/
def sha1Bytes (msg : List Nat) : List Nat :=
  let z := (119 - msg.length % 64) % 64
  let padded := msg ++ [128] ++ List.replicate z 0 ++ natToBytesBE 8 (8 * msg.length)
  let h := (chunks64 padded).foldl sha1Chunk
    (1732584193, 4023233417, 2562383102, 271733878, 3285377520)
  natToBytesBE 4 h.1 ++ natToBytesBE 4 h.2.1 ++ natToBytesBE 4 h.2.2.1 ++
    natToBytesBE 4 h.2.2.2.1 ++ natToBytesBE 4 h.2.2.2.2

/-- Lowercase hex digit. -/
def hexDigit (n : Nat) : Char := if n < 10 then digitCh n else Char.ofNat (87 + n)

/-- Two hex digits of a byte. -/
def byteToHex (b : Nat) : List Char := [hexDigit (b / 16), hexDigit (b % 16)]

/-- Model of `hashlib.sha1(bytes).hexdigest()`. -/
def sha1Hex (msg : List Nat) : String :=
  ⟨(sha1Bytes msg).foldr (fun b acc => byteToHex b ++ acc) []⟩

/-- JSON escaping of one character under `ensure_ascii=False`. -/
def jsonEscapeChar (c : Char) : List Char :=
  if c = '"' then ['\\', '"']
  else if c = '\\' then ['\\', '\\']
  else if c = '\n' then ['\\', 'n']
  else if c = '\r' then ['\\', 'r']
  else if c = '\t' then ['\\', 't']
  else if c = '\x08' then ['\\', 'b']
  else if c = '\x0c' then ['\\', 'f']
  else if c.toNat < 32 then '\\' :: 'u' :: '0' :: '0' :: byteToHex c.toNat
  else [c]

/-- JSON string literal (`json.dumps` on a `str` with
`ensure_ascii=False`). -/
def jsonStr (s : String) : String :=
  ⟨'"' :: s.data.foldr (fun c acc => jsonEscapeChar c ++ acc) ['"']⟩

/-- JSON array of strings with the default `", "` separator. -/
def jsonStrList (l : List String) : String :=
  "[" ++ joinSep ", " (l.map jsonStr) ++ "]"

/-- One `"key": value` JSON member. -/
def jsonKv (k v : String) : String := jsonStr k ++ ": " ++ v

/-- JSON rendering of one rule snapshot of `build_platform_digest`, with
keys in the `sort_keys=True` order; the optional `content` and
`history`/`runbooks` members are present exactly when the respective map
argument was truthy in Python (a non-empty dict). -/
def digestItemJson (r : Row) (contentOpt : Option String)
    (traceOpt : Option (List String × List String)) : String :=
  let fields :=
    (match contentOpt with
      | some c => [jsonKv "content" (jsonStr c)]
      | none => [])
    ++ [jsonKv "err" (intToStr r.err)]
    ++ (match traceOpt with
      | some tr => [jsonKv "history" (jsonStrList tr.1)]
      | none => [])
    ++ [jsonKv "hit" (intToStr r.hit),
        jsonKv "platform" (jsonStr (row_platform r)),
        jsonKv "rule_id" (jsonStr r.rule_id)]
    ++ (match traceOpt with
      | some tr => [jsonKv "runbooks" (jsonStrList tr.2)]
      | none => [])
    ++ [jsonKv "scope" (jsonStr r.scope),
        jsonKv "status" (jsonStr r.status),
        jsonKv "title" (jsonStr r.title),
        jsonKv "vio" (intToStr r.vio)]
  "\x7b" ++ joinSep ", " fields ++ "\x7d"

/-- Implementation of `build_platform_digest`: the relevant rule
snapshots (active or protected, and platform-matching for `S-` rules)
sorted by `rule_id`, combined with the SHA-1 of the canonical document
into a canonical JSON payload whose SHA-1 is truncated to twelve hex
digits. -/
def build_platform_digest (platform : String) (evolveContent : String) (rows : List Row)
    (ruleContentMap : List (String × String))
    (ruleTraceMap : List (String × (List String × List String))) : String :=
  let relevant := rows.filter (fun r =>
    (r.status == "active" || r.status == "protected")
    && (!is_platform_rule r || row_platform r == platform))
  let sorted := msort (fun a b => !(strLt b.rule_id.data a.rule_id.data)) relevant
  let items := sorted.map (fun r =>
    digestItemJson r
      (if ruleContentMap.isEmpty then none
       else some ((dictLookup ruleContentMap r.rule_id).getD ""))
      (if ruleTraceMap.isEmpty then none
       else some ((dictLookup ruleTraceMap r.rule_id).getD ([], []))))
  let raw := "\x7b" ++ jsonKv "evolve_sha1" (jsonStr (sha1Hex (utf8Encode evolveContent)))
    ++ ", " ++ jsonKv "platform" (jsonStr platform)
    ++ ", " ++ jsonKv "rules" ("[" ++ joinSep ", " items ++ "]") ++ "\x7d"
  ⟨(sha1Hex (utf8Encode raw)).data.take 12⟩

/-! ## Managed-region scanners

The AUTO_SYNC and TRACE_LINKS patterns share the shape
`<!--\s*LABEL\s+key=value[^\n]*-->\n.*?<!--\s*LABEL_END\s*-->` (DOTALL).
The scanners below implement the leftmost-match semantics of `re.search`
and `re.sub(count=1)` for exactly this shape: the begin line must end
with `-->` right before its newline, and the lazy `.*?` stops at the
first end-marker match. -/

/-- Constant `AUTO_SYNC_BEGIN_PREFIX` of the source. -/
def AUTO_SYNC_BEGIN_MARK : String := "<!-- EVOLVE_SKILL:AUTO_SYNC:BEGIN"

/-- Constant `AUTO_SYNC_END`. -/
def AUTO_SYNC_END_MARK : String := "<!-- EVOLVE_SKILL:AUTO_SYNC:END -->"

/-- Constant `AUTO_SYNC_HEADER`. -/
def AUTO_SYNC_HEADER : String := "## Evolve-Skill Auto Sync"

/-- Constant `TRACE_LINKS_BEGIN_PREFIX` of the source. -/
def TRACE_LINKS_BEGIN_MARK : String := "<!-- EVOLVE_SKILL:TRACE_LINKS:BEGIN"

/-- Constant `TRACE_LINKS_END`. -/
def TRACE_LINKS_END_MARK : String := "<!-- EVOLVE_SKILL:TRACE_LINKS:END -->"

/-- Constant `RULE_SELECTION_BEGIN`. -/
def RULE_SELECTION_BEGIN_MARK : String := "<!-- EVOLVE_SKILL:RULE_SELECTION:BEGIN -->"

/-- Constant `RULE_SELECTION_END`. -/
def RULE_SELECTION_END_MARK : String := "<!-- EVOLVE_SKILL:RULE_SELECTION:END -->"

/-- Match of `<!--\s*label\s+keyval[^\n]*-->\n` at the head of `l`,
returning the consumed length (through the newline). -/
def matchBeginAt (label keyval : List Char) (l : List Char) : Option Nat :=
  match consumeLit ("<!--").data l with
  | none => none
  | some l1 =>
  match consumeLit label (l1.dropWhile isWs) with
  | none => none
  | some l3 =>
  match consumeWs1 l3 with
  | none => none
  | some l4 =>
  match consumeLit keyval l4 with
  | none => none
  | some l5 =>
    let lineRest := l5.takeWhile (fun c => c ≠ '\n')
    if l5.length = lineRest.length then none
    else if endsWithSeq ("-->").data lineRest then
      some (l.length - l5.length + lineRest.length + 1)
    else none

/-- Match of `<!--\s*endWord\s*-->` at the head of `l`, returning the
consumed length. -/
def matchEndAt (endWord : List Char) (l : List Char) : Option Nat :=
  match consumeLit ("<!--").data l with
  | none => none
  | some l1 =>
  match consumeLit endWord (l1.dropWhile isWs) with
  | none => none
  | some l3 =>
  match consumeLit ("-->").data (l3.dropWhile isWs) with
  | none => none
  | some l5 => some (l.length - l5.length)

/-- Offset just past the first end-marker match in `l` (the landing point
of the lazy `.*?`). -/
def scanEndFrom (endWord : List Char) : List Char → Option Nat
  | [] => none
  | c :: t =>
    match matchEndAt endWord (c :: t) with
    | some k => some k
    | none => (scanEndFrom endWord t).map (fun x => x + 1)

/-- Leftmost full-region match `(start, stop)`: the first position where
the begin line matches and an end marker follows. -/
def scanRegion (label keyval endWord : List Char) : List Char → Option (Nat × Nat)
  | [] => none
  | c :: t =>
    match matchBeginAt label keyval (c :: t) with
    | some j =>
      match scanEndFrom endWord ((c :: t).drop j) with
      | some e => some (0, j + e)
      | none => (scanRegion label keyval endWord t).map (fun pr => (pr.1 + 1, pr.2 + 1))
    | none => (scanRegion label keyval endWord t).map (fun pr => (pr.1 + 1, pr.2 + 1))

/-- Begin line rendered by `upsert_platform_sync_block`. -/
def autoSyncBeginLine (platform digest today : String) : String :=
  AUTO_SYNC_BEGIN_MARK ++ " platform=" ++ platform ++ " digest=" ++ digest
    ++ " updated=" ++ today ++ " -->"

/-- Full managed block rendered by `upsert_platform_sync_block`. -/
def autoSyncBlock (platform blockContent digest today : String) : String :=
  autoSyncBeginLine platform digest today ++ "\n" ++ blockContent ++ "\n" ++ AUTO_SYNC_END_MARK

/-- Implementation of `upsert_platform_sync_block` (audit_sync.py lines
1182-1198): replace the first matching managed region, or append the
block after the right-stripped document. -/
def upsert_platform_sync_block (content : String) (platform blockContent digest today : String) : String :=
  let block := autoSyncBlock platform blockContent digest today
  match scanRegion ("EVOLVE_SKILL:AUTO_SYNC:BEGIN").data ("platform=" ++ platform).data
      ("EVOLVE_SKILL:AUTO_SYNC:END").data content.data with
  | some (s, e) => ⟨content.data.take s ++ block.data ++ content.data.drop e⟩
  | none =>
    let base := pyRstrip content
    if base = "" then block ++ "\n"
    else base ++ "\n\n" ++ block ++ "\n"

/-- Implementation of `upsert_trace_links_block`: replace the matching
TRACE_LINKS region; otherwise insert the block after the `## Rule`
section, or append it at the end. -/
def upsert_trace_links_block (content : String) (ruleId : String) (blockContent : String) : String :=
  match scanRegion ("EVOLVE_SKILL:TRACE_LINKS:BEGIN").data ("rule_id=" ++ ruleId).data
      ("EVOLVE_SKILL:TRACE_LINKS:END").data content.data with
  | some (s, e) => ⟨content.data.take s ++ blockContent.data ++ content.data.drop e⟩
  | none =>
    if pyStrip content = "" then blockContent ++ "\n"
    else
      match ruleSectionBounds content with
      | some (_, stop) =>
        let before := pyRstrip ⟨content.data.take stop⟩
        let after := pyLstripNl ⟨content.data.drop stop⟩
        if after ≠ "" then before ++ "\n\n" ++ blockContent ++ "\n\n" ++ after
        else before ++ "\n\n" ++ blockContent ++ "\n"
      | none => pyRstrip content ++ "\n\n" ++ blockContent ++ "\n"

/-- First index of an occurrence of `needle` in `hay`. -/
def findSeqIdx (needle hay : List Char) : Option Nat :=
  if startsWithSeq needle hay then some 0
  else
    match hay with
    | [] => none
    | _ :: t => (findSeqIdx needle t).map (fun x => x + 1)

/-- Literal-delimited region match for the RULE_SELECTION block
(`re.escape(BEGIN) + "\n.*?" + re.escape(END)` under DOTALL): the first
begin-marker occurrence followed by an end marker. -/
def scanLitRegion (beginLit endLit : List Char) (l : List Char) : Option (Nat × Nat) :=
  match findSeqIdx (beginLit ++ ['\n']) l with
  | none => none
  | some i =>
    let afterBegin := l.drop (i + beginLit.length + 1)
    match findSeqIdx endLit afterBegin with
    | none => none
    | some j => some (i, i + beginLit.length + 1 + j + endLit.length)

/-- Implementation of `upsert_selected_rules_block`: inside the `## Rules`
section, replace the RULE_SELECTION region or append the block to the
right-stripped section body. -/
def upsert_selected_rules_block (content : String) (block : String) : String :=
  match sectionBounds "## Rules" "Rules" content with
  | none => content
  | some (s, e) =>
    let rulesContent := (content.data.drop s).take (e - s)
    let newRules :=
      match scanLitRegion RULE_SELECTION_BEGIN_MARK.data RULE_SELECTION_END_MARK.data rulesContent with
      | some (rs, re) => rulesContent.take rs ++ block.data ++ rulesContent.drop re
      | none =>
        let base := trimWsEnd rulesContent
        if base.isEmpty then block.data ++ ['\n']
        else base ++ ('\n' :: '\n' :: block.data) ++ ['\n']
    ⟨content.data.take s ++ newRules ++ content.data.drop e⟩

/-! ## Rule content and trace resolution

Directories are modelled as ordered association lists from bare file
names to contents; candidate paths are root-relative posix strings like
`evolve/history/R-001.md` (so `root_relative_posix` is the identity on
them). -/

/-- ASCII alphanumeric test, the regex class `[A-Za-z0-9]`. -/
def isAlnum (c : Char) : Bool :=
  isDigitCh c || (65 ≤ c.toNat ∧ c.toNat ≤ 90) || (97 ≤ c.toNat ∧ c.toNat ≤ 122)

/-- Case-insensitive prefix test (ASCII case folding, as the rule ids
compared are ASCII). -/
def ciStartsWith : List Char → List Char → Bool
  | [], _ => true
  | _ :: _, [] => false
  | a :: as_, b :: bs => (lowerChar a = lowerChar b) && ciStartsWith as_ bs

/-- Scanning core of `rule_reference_pattern`: a case-insensitive
occurrence of the id with no alphanumeric character on either side. -/
def wholeWordScan (rid : List Char) (prev : Option Char) : List Char → Bool
  | [] => false
  | c :: t =>
    ((match prev with | none => true | some pc => !isAlnum pc)
      && ciStartsWith rid (c :: t)
      && (match ((c :: t).drop rid.length).head? with
          | none => true
          | some nc => !isAlnum nc))
    || wholeWordScan rid (some c) t

/-- Model of `rule_reference_pattern(rule_id).search(text)` for the
non-empty ids this tool looks up. -/
def wholeWordCI (rid : String) (text : String) : Bool :=
  wholeWordScan rid.data none text.data

/-- Implementation of `find_related_markdown_paths` over candidate
`(path, contents)` pairs: related when the file stem equals the id
case-insensitively, or the id occurs whole-word in the body. -/
def find_related_markdown_paths (rid : String) (candidates : List (String × String)) : List String :=
  candidates.filterMap (fun pr =>
    if pyLower (pathStem pr.1) = pyLower rid then some pr.1
    else if wholeWordCI rid pr.2 then some pr.1
    else none)

/-- Stub document written by `ensure_trace_stub` (`kindHistory` selects
the history variant). -/
def traceStubText (kindHistory : Bool) (r : Row) (today : String) : String :=
  let ruleId := pyStrip r.rule_id
  let scope := pyStrip r.scope
  let title := if pyStrip r.title = "" then "TODO" else pyStrip r.title
  let heading := if kindHistory then "# [" ++ ruleId ++ "] History" else "# [" ++ ruleId ++ "] Runbook"
  let todo := if kindHistory then
      "- TODO: add event background, failure symptoms, and lessons learned."
    else "- TODO: add executable checklist and verification steps."
  joinSep "\n"
    [heading, "",
     "- Related Rule: `[" ++ ruleId ++ "]`",
     "- Scope: `" ++ scope ++ "`",
     "- Title: " ++ title,
     "- Created: `" ++ today ++ "`",
     "", todo, ""]

/-- Implementation of `ensure_trace_stub` over a directory map: create
the `rule_id.md` stub when absent, returning the updated directory and
the stub's root-relative path together with its on-disk contents. -/
def ensure_trace_stub (dirPath : String) (dir : List (String × String)) (kindHistory : Bool)
    (r : Row) (today : String) : List (String × String) × String × String :=
  let name := pyStrip r.rule_id ++ ".md"
  match dictLookup dir name with
  | some existing => (dir, dirPath ++ name, existing)
  | none =>
    let text := traceStubText kindHistory r today
    (dictUpsert dir name text, dirPath ++ name, text)

/-- Sorted root-relative candidate listing of a trace directory
(`sorted(dir.rglob("*.md"))`; the model keeps directories flat). -/
def traceCandidates (dirPath : String) (dir : Option (List (String × String))) : List (String × String) :=
  match dir with
  | none => []
  | some m =>
    (msort (fun a b => strLe a.1 b.1) (m.filter (fun pr => endsWithSeq (".md").data pr.1.data))).map
      (fun pr => (dirPath ++ pr.1, pr.2))

/-- Fold state of `resolve_rule_trace_map`. -/
structure TraceState where
  traceMap : List (String × (List String × List String))
  historyCands : List (String × String)
  runbookCands : List (String × String)
  historyDir : List (String × String)
  runbooksDir : List (String × String)

/-- Implementation of `resolve_rule_trace_map`: for each non-archived
row, related history and runbook documents are looked up (and stubs
created under `ensure_defaults`); the resulting path lists are
deduplicated and sorted.  Returns the map together with the possibly
extended directories. -/
def resolve_rule_trace_map (historyDir runbooksDir : Option (List (String × String)))
    (rows : List Row) (ensureDefaults : Bool) (today : String) :
    List (String × (List String × List String)) × Option (List (String × String)) × Option (List (String × String)) :=
  let hDir0 : Option (List (String × String)) :=
    if ensureDefaults then some (historyDir.getD []) else historyDir
  let rDir0 : Option (List (String × String)) :=
    if ensureDefaults then some (runbooksDir.getD []) else runbooksDir
  let st0 : TraceState := {
    traceMap := []
    historyCands := traceCandidates "evolve/history/" hDir0
    runbookCands := traceCandidates "evolve/runbooks/" rDir0
    historyDir := hDir0.getD []
    runbooksDir := rDir0.getD [] }
  let fin := rows.foldl (fun st r =>
    if r.status == "archived" then st
    else
      let rid := pyStrip r.rule_id
      if rid = "" then st
      else
        let historyPaths := find_related_markdown_paths rid st.historyCands
        let runbookPaths := find_related_markdown_paths rid st.runbookCands
        let (hPaths, hCands, hDir) :=
          if ensureDefaults ∧ historyPaths.isEmpty then
            let (d, p, text) := ensure_trace_stub "evolve/history/" st.historyDir true r today
            ([p], st.historyCands ++ [(p, text)], d)
          else (historyPaths, st.historyCands, st.historyDir)
        let (rPaths, rCands, rDir) :=
          if ensureDefaults ∧ runbookPaths.isEmpty then
            let (d, p, text) := ensure_trace_stub "evolve/runbooks/" st.runbooksDir false r today
            ([p], st.runbookCands ++ [(p, text)], d)
          else (runbookPaths, st.runbookCands, st.runbooksDir)
        { traceMap := dictUpsert st.traceMap rid (sortedDedup hPaths, sortedDedup rPaths)
          historyCands := hCands
          runbookCands := rCands
          historyDir := hDir
          runbooksDir := rDir }) st0
  (fin.traceMap,
   (match hDir0 with | none => none | some _ => some fin.historyDir),
   (match rDir0 with | none => none | some _ => some fin.runbooksDir))

/-- Leading-junk removal `re.sub(r"^[>\-*+\d.\s]+", "", line)`. -/
def stripLeadJunk (l : List Char) : List Char :=
  l.dropWhile (fun c =>
    c = '>' || c = '-' || c = '*' || c = '+' || isDigitCh c || c = '.' || isWs c)

/-- Whitespace-run collapse `re.sub(r"\s+", " ", text)`. -/
def collapseWs (l : List Char) : List Char :=
  subAllMatches (fun l => let run := l.takeWhile isWs;
    if run.isEmpty then none else some run.length) [' '] l

/-- Long-run collapse `re.sub(r"\s{2,}", " ", text)`. -/
def collapseWs2 (l : List Char) : List Char :=
  subAllMatches (fun l => let run := l.takeWhile isWs;
    if 2 ≤ run.length then some run.length else none) [' '] l

/-- Removal of every occurrence of a literal (`str.replace(old, "")`). -/
def removeAllLit (lit : List Char) (l : List Char) : List Char :=
  subAllMatches (fun l => if lit ≠ [] ∧ startsWithSeq lit l then some lit.length else none) [] l

/-- Implementation of `clean_rule_content_line`. -/
def clean_rule_content_line (line : String) (ruleId : String) : String :=
  let t1 := (pyStrip line).data
  let t2 := stripLeadJunk t1
  let t3 := removeStatTags t2
  let ridMark := ("[" ++ ruleId ++ "]").data
  let t4 := if startsWithSeq ridMark t3 then (t3.drop ridMark.length).dropWhile isWs else t3
  let t5 := removeAllLit ("**").data t4
  pyStrip ⟨collapseWs2 t5⟩

/-- Match of `\[((?:R|S)-\d+)\]` at the head of `l`, returning the
captured id. -/
def matchRidAt : List Char → Option (List Char)
  | '[' :: k :: '-' :: rest =>
    if k = 'R' ∨ k = 'S' then
      let run := rest.takeWhile isDigitCh
      if run.isEmpty then none
      else if (rest.drop run.length).head? = some ']' then some (k :: '-' :: run)
      else none
    else none
  | _ => none

/-- First rule-id reference in a line (`re.search(r"\[((?:R|S)-\d+)\]", line)`). -/
def findRuleIdRef : List Char → Option (List Char)
  | [] => none
  | c :: t =>
    match matchRidAt (c :: t) with
    | some rid => some rid
    | none => findRuleIdRef t

/-- Implementation of `extract_rule_content_map`: readable rule bodies
keyed by rule id, from the `Rules` section of the canonical document. -/
def extract_rule_content_map (evolveContent : String) : List (String × String) :=
  let rulesText := extract_markdown_section evolveContent "Rules"
  if pyStrip rulesText = "" then []
  else
    (pySplitLines rulesText).foldl (fun m rawLine =>
      let line := pyStrip rawLine
      if line = "" then m
      else if strStartsWith line "<!--" then m
      else
        match findRuleIdRef line.data with
        | none => m
        | some rid =>
          let content := clean_rule_content_line line ⟨rid⟩
          if content = "" then m else dictUpsert m ⟨rid⟩ content) []

/-- Sanitized file stem of `rule_detail_path`. -/
def ruleFileStem (ruleId : String) : String :=
  let cleaned := subAllMatches (fun l =>
      let run := l.takeWhile (fun c => !(isAlnum c || c = '.' || c = '_' || c = '-'))
      if run.isEmpty then none else some run.length) ['_'] (pyStrip ruleId).data
  if cleaned.isEmpty then "rule" else ⟨cleaned⟩

/-- Implementation of `extract_rule_content_from_detail`: flatten the
`## Rule` section (or the whole document) to one trimmed line of at most
220 characters. -/
def extract_rule_content_from_detail (detailText : String) : String :=
  let source : String :=
    match ruleSectionBounds detailText with
    | some (s, e) => ⟨(detailText.data.drop s).take (e - s)⟩
    | none => detailText
  let lines := (pySplitLines source).filterMap (fun raw =>
    let line := pyStrip raw
    if line = "" then none
    else if strStartsWith line "<!--" then none
    else if strStartsWith line "#" then none
    else if strStartsWith line "- " ∧ strContains line ":" then none
    else
      let line2 := pyStrip ⟨stripLeadJunk line.data⟩
      if line2 = "" then none else some line2)
  let text := pyStrip ⟨collapseWs (joinSep " " lines).data⟩
  if 220 < text.length then pyRstrip ⟨text.data.take 217⟩ ++ "..." else text

/-- Implementation of `load_rule_content_map_from_files` over the
`evolve/rules` directory map. -/
def load_rule_content_map_from_files (rulesDir : Option (List (String × String)))
    (rows : List Row) : List (String × String) :=
  match rulesDir with
  | none => []
  | some dir =>
    rows.foldl (fun m r =>
      if r.status == "archived" then m
      else
        let rid := pyStrip r.rule_id
        if rid = "" ∨ (dictLookup m rid).isSome then m
        else
          match dictLookup dir (ruleFileStem rid ++ ".md") with
          | none => m
          | some text =>
            let content := extract_rule_content_from_detail text
            if content = "" then m else dictUpsert m rid content) []

/-- Implementation of `resolve_rule_content_map`: the canonical-document
map updated by the per-rule detail files. -/
def resolve_rule_content_map (rulesDir : Option (List (String × String)))
    (evolveContent : String) (rows : List Row) : List (String × String) :=
  (load_rule_content_map_from_files rulesDir rows).foldl
    (fun m pr => dictUpsert m pr.1 pr.2) (extract_rule_content_map evolveContent)

/-! ## Rule detail files and trace-link blocks -/

/-- Posix path split on `/`. -/
def splitSlash (p : String) : List String :=
  (splitRunsCore (fun c => c = '/') p.data []).map (fun l => (⟨l⟩ : String))

/-- Model of `os.path.relpath(target, fromDir).as_posix()` for the
root-relative paths this tool links between. -/
def relPathFrom (fromDir target : String) : String :=
  let rec strip : List String → List String → List String × List String
    | a :: as_, b :: bs => if a = b then strip as_ bs else (a :: as_, b :: bs)
    | as_, bs => (as_, bs)
  let (fromRest, targetRest) := strip (splitSlash fromDir) (splitSlash target)
  joinSep "/" (List.replicate fromRest.length ".." ++ targetRest)

/-- Implementation of `format_trace_links_for_rule_file`. -/
def format_trace_links_for_rule_file (ruleFilePath : String) (relPaths : List String) : String :=
  if relPaths.isEmpty then "(none)"
  else
    let fromDir := joinSep "/" ((splitSlash ruleFilePath).dropLast)
    joinSep ", " (relPaths.map (fun rel =>
      "[" ++ pathName rel ++ "](" ++ relPathFrom fromDir rel ++ ")"))

/-- Implementation of `render_trace_links_block`. -/
def render_trace_links_block (ruleFilePath ruleId : String)
    (traceEntry : List String × List String) : String :=
  joinSep "\n"
    [TRACE_LINKS_BEGIN_MARK ++ " rule_id=" ++ ruleId ++ " -->",
     "## Traceability",
     "- History: " ++ format_trace_links_for_rule_file ruleFilePath traceEntry.1,
     "- Runbook: " ++ format_trace_links_for_rule_file ruleFilePath traceEntry.2,
     TRACE_LINKS_END_MARK]

/-- Implementation of `build_rule_detail_template`. -/
def build_rule_detail_template (r : Row) (seedContent : String) (today : String) : String :=
  let ruleId := pyStrip r.rule_id
  let title := pyStrip r.title
  let scope := pyStrip r.scope
  let headerSuffix := if title ≠ "" then " " ++ title else ""
  let baseRule :=
    if pyStrip seedContent ≠ "" then pyStrip seedContent
    else if title ≠ "" then title
    else "TODO: add detailed rule content."
  joinSep "\n"
    ["# [" ++ ruleId ++ "]" ++ headerSuffix, "",
     "- Scope: `" ++ scope ++ "`",
     "- Platform: `" ++ row_platform r ++ "`",
     "- Origin: `" ++ pyStrip r.origin ++ "`",
     "- Status: `" ++ pyStrip r.status ++ "`",
     "- Last Synced: `" ++ today ++ "`",
     "", "## Rule", baseRule,
     "", "## Trigger", "- TODO",
     "", "## Must", "- TODO",
     "", "## Verification", "- TODO",
     "", "## Forbidden", "- TODO"] ++ "\n"

/-- Summary lists returned by `sync_rule_detail_files`. -/
structure DetailSummary where
  targets : List String
  created : List String
  updated : List String
  existing : List String
deriving DecidableEq

/-- Implementation of `sync_rule_detail_files` over the three directory
maps: detail files are created from the template (or refreshed when the
`## Rule` heading went missing) and their trace-links block is upserted;
files whose upsert result is unchanged are not rewritten.  The `skipped`
list of the source collects only OS read errors, which the model's total
reads never produce. -/
def sync_rule_detail_files (rulesDir historyDir runbooksDir : Option (List (String × String)))
    (rows : List Row) (evolveContent today : String) :
    DetailSummary × List (String × String) × Option (List (String × String)) × Option (List (String × String)) :=
  let rules0 := rulesDir.getD []
  let evolveContentMap := extract_rule_content_map evolveContent
  let (traceMap, hDir, rDir) :=
    resolve_rule_trace_map (some (historyDir.getD [])) (some (runbooksDir.getD []))
      rows true today
  let fin := rows.foldl (fun (st : DetailSummary × List (String × String)) r =>
    let (summary, dir) := st
    if r.status == "archived" then st
    else
      let rid := pyStrip r.rule_id
      if rid = "" then st
      else
        let name := ruleFileStem rid ++ ".md"
        let pathStr := "evolve/rules/" ++ name
        let summary := { summary with targets := summary.targets ++ [pathStr] }
        let seed :=
          if (dictLookup evolveContentMap rid).getD "" ≠ "" then
            (dictLookup evolveContentMap rid).getD ""
          else pyStrip r.title
        let traceEntry := (dictLookup traceMap rid).getD ([], [])
        let block := render_trace_links_block pathStr rid traceEntry
        let existed := (dictLookup dir name).isSome
        let oldContent0 :=
          match dictLookup dir name with
          | some text => text
          | none => build_rule_detail_template r seed today
        let oldContent :=
          if existed ∧ ¬ strContains oldContent0 "## Rule" then
            build_rule_detail_template r seed today
          else oldContent0
        let newContent := upsert_trace_links_block oldContent rid block
        if newContent ≠ oldContent then
          (if existed then { summary with updated := summary.updated ++ [pathStr] }
           else { summary with created := summary.created ++ [pathStr] },
           dictUpsert dir name newContent)
        else
          (if existed then { summary with existing := summary.existing ++ [pathStr] }
           else { summary with created := summary.created ++ [pathStr] },
           dir)) ({ targets := [], created := [], updated := [], existing := [] }, rules0)
  (fin.1, fin.2, hDir, rDir)

/-! ## Selected-rules block -/

/-- Implementation of `format_trace_links_inline`. -/
def format_trace_links_inline (relPaths : List String) : String :=
  if relPaths.isEmpty then "(none)"
  else joinSep ", " (relPaths.map (fun p => "[" ++ pathName p ++ "](" ++ p ++ ")"))

/-- Implementation of `format_selected_rule_for_evolve`. -/
def format_selected_rule_for_evolve (index : Nat) (r : Row)
    (ruleContentMap : List (String × String))
    (ruleTraceMap : List (String × (List String × List String))) : String :=
  let rid := r.rule_id
  let scope := r.scope
  let content0 := pyStrip ((dictLookup ruleContentMap rid).getD "")
  let content1 := if content0 ≠ "" then content0 else pyStrip r.title
  let content2 := if content1 ≠ "" then content1 else "(no content)"
  let content :=
    if scope ≠ "" ∧ strStartsWith content2 ("[" ++ scope ++ "]") then
      pyStrip ⟨content2.data.drop (scope.length + 2)⟩
    else content2
  let line := natToStr index ++ ". [" ++ rid ++ "] [" ++ scope ++ "] " ++ content
    ++ "  " ++ inline_tag r
  let trace := (dictLookup ruleTraceMap rid).getD ([], [])
  line ++ "\n   Trace: History " ++ format_trace_links_inline trace.1
    ++ "; Runbook " ++ format_trace_links_inline trace.2

/-- Ascending selection order `key=(evolve_slot, rule_id)`. -/
def selectionLe (a b : Row) : Bool :=
  ((cmpInt a.evolve_slot b.evolve_slot).then (cmpStr a.rule_id b.rule_id)) ≠ Ordering.gt

/-- Numbering helper modelling Python `enumerate(l, start)`. -/
def numberFrom {α : Type} : Nat → List α → List (Nat × α)
  | _, [] => []
  | start, a :: l => (start, a) :: numberFrom (start + 1) l

/-- Implementation of `render_selected_rules_block` over the directory
maps backing `resolve_rule_content_map` and `resolve_rule_trace_map`. -/
def render_selected_rules_block (rulesDir historyDir runbooksDir : Option (List (String × String)))
    (rows : List Row) (today : String) : String :=
  let selected := rows.filter (fun r =>
    !(r.status == "archived") && decide (0 < r.evolve_slot))
  let selectedSorted := msort selectionLe selected
  let ruleContentMap := resolve_rule_content_map rulesDir "" rows
  let (ruleTraceMap, _, _) := resolve_rule_trace_map historyDir runbooksDir rows false today
  let lines :=
    [RULE_SELECTION_BEGIN_MARK,
     "### Audit-Selected Rules",
     "_Auto-generated from `evolve/audit.csv` `evolve_slot` ordering._"]
    ++ (if selectedSorted.isEmpty then
          ["- (no selected rules; run `audit_sync.py report` then `audit_sync.py select \"1,2\"`)"]
        else (numberFrom 1 selectedSorted).map (fun pr =>
          format_selected_rule_for_evolve pr.1 pr.2 ruleContentMap ruleTraceMap))
    ++ [RULE_SELECTION_END_MARK]
  joinSep "\n" lines

/-! ## Platform file discovery and sync -/

/-- Constant `KNOWN_PLATFORM_FILES`. -/
def KNOWN_PLATFORM_FILES : List (String × String) :=
  [("codex", "AGENTS.md"), ("claude", "CLAUDE.md"), ("gemini", "GEMINI.md"), ("cursor", "CURSOR.md")]

/-- Implementation of `load_platform_target_map` over the parsed flat
configuration map (the JSON layer — the `platform_file_map` wrapper keys
and the warn-and-ignore treatment of unreadable files — is modelled as an
optional already-parsed map of string pairs, `none` covering a missing or
malformed `evolve/platform_targets.json`). -/
def load_platform_target_map (cfg : Option (List (String × String))) : List (String × String) :=
  match cfg with
  | none => []
  | some raw =>
    raw.foldl (fun m pr =>
      let p := canonical_platform pr.1
      if p ≠ "" ∧ p ≠ PLATFORM_ALL ∧ pyStrip pr.2 ≠ "" then dictUpsert m p (pyStrip pr.2)
      else m) []

/-- Case-insensitive literal consumption (IGNORECASE literals). -/
def consumeLitCI (lit l : List Char) : Option (List Char) :=
  if ciStartsWith lit l then some (l.drop lit.length) else none

/-- Match of the marker-scan pattern
`<!--\s*EVOLVE_SKILL:AUTO_SYNC:BEGIN\s+platform=([^\s>]+)[^>]*-->`
(IGNORECASE) at the head of `l`: the capture is the greedy run of
non-space non-`>` characters, shortened as far as the closing `-->`
around the first `>` forces. -/
def matchMarkerAt (l : List Char) : Option (List Char × Nat) :=
  match consumeLitCI ("<!--").data l with
  | none => none
  | some l1 =>
  match consumeLitCI ("EVOLVE_SKILL:AUTO_SYNC:BEGIN").data (l1.dropWhile isWs) with
  | none => none
  | some l3 =>
  match consumeWs1 l3 with
  | none => none
  | some l4 =>
  match consumeLitCI ("platform=").data l4 with
  | none => none
  | some rest =>
    let run := rest.takeWhile (fun c => !(isWs c) && c ≠ '>')
    match findSeqIdx ['>'] rest with
    | none => none
    | some k =>
      if run.isEmpty ∨ k < 3 then none
      else if ((rest.drop (k - 2)).take 2) = ['-', '-'] then
        let capLen := min run.length (k - 2)
        if capLen = 0 then none
        else some (rest.take capLen, l.length - rest.length + k + 1)
      else none

/-- Fuel-driven worker listing marker captures; fuel of at least the
length of the list finds them all. -/
def markerScanF : Nat → List Char → List (List Char)
  | _, [] => []
  | 0, _ :: _ => []
  | fuel + 1, c :: t =>
    match matchMarkerAt (c :: t) with
    | some (cap, k) => cap :: markerScanF fuel (t.drop (k - 1))
    | none => markerScanF fuel t

/-- All marker captures of one document, in `finditer` order. -/
def markerScan (l : List Char) : List (List Char) := markerScanF l.length l

/-- Implementation of `extract_platform_marker_map`: scan the root-level
markdown files in order, recording the first file carrying an AUTO_SYNC
begin marker for each canonical platform other than `all`. -/
def extract_platform_marker_map (rootFiles : List (String × String)) : List (String × String) :=
  rootFiles.foldl (fun m pr =>
    if endsWithSeq (".md").data pr.1.data && !(strContains pr.1 "/") then
      (markerScan pr.2.data).foldl (fun m cap =>
        let p := canonical_platform ⟨cap⟩
        if p ≠ "" ∧ p ≠ PLATFORM_ALL ∧ (dictLookup m p).isNone then dictUpsert m p pr.1
        else m) m
    else m) []

/-- ASCII uppercase conversion (Python `str.upper` on the slug
alphabet). -/
def upperChar (c : Char) : Char :=
  if 97 ≤ c.toNat ∧ c.toNat ≤ 122 then Char.ofNat (c.toNat - 32) else c

/-- Model of Python `str.upper`. -/
def pyUpper (s : String) : String := ⟨s.data.map upperChar⟩

/-- Slug-character test (`[a-z0-9._-]` after lowering). -/
def isSlugOk (c : Char) : Bool :=
  (97 ≤ c.toNat ∧ c.toNat ≤ 122) || isDigitCh c || c = '.' || c = '_' || c = '-'

/-- Implementation of `platform_slug`. -/
def platform_slug (platform : String) : String :=
  let lowered := pyLower platform
  let subbed := subAllMatches (fun l =>
    let run := l.takeWhile (fun c => !(isSlugOk c))
    if run.isEmpty then none else some run.length) ['-'] lowered.data
  let inStrip := fun c => c = '-' || c = '_' || c = '.'
  let stripped := ((subbed.dropWhile inStrip).reverse.dropWhile inStrip).reverse
  if stripped.isEmpty then "platform" else ⟨stripped⟩

/-- Implementation of `default_platform_filename`. -/
def default_platform_filename (platform : String) : String :=
  match dictLookup KNOWN_PLATFORM_FILES platform with
  | some f => f
  | none => pyUpper (platform_slug platform) ++ ".md"

/-- Implementation of `resolve_platform_file_path` (paths are
root-relative strings, so the absolute-path branch collapses into the
configured value). -/
def resolve_platform_file_path (platform : String)
    (configMap markerMap : List (String × String)) : String :=
  match dictLookup configMap platform with
  | some fp => fp
  | none =>
    match dictLookup markerMap platform with
    | some f => f
    | none => default_platform_filename platform

/-- Implementation of `discover_sync_platforms`. -/
def discover_sync_platforms (rootFiles : List (String × String)) (rows : List Row)
    (configMap markerMap : List (String × String)) (onlyPlatform : Option String) : List String :=
  let fromConfig := (configMap.map (fun pr => pr.1)).filter (fun p => p ≠ PLATFORM_ALL)
  let fromMarkers := (markerMap.map (fun pr => pr.1)).filter (fun p => p ≠ PLATFORM_ALL)
  let fromKnown := (KNOWN_PLATFORM_FILES.filter
    (fun pr => (dictLookup rootFiles pr.2).isSome)).map (fun pr => pr.1)
  let fromRows := (rows.filter (fun r => is_platform_rule r)).map row_platform
    |>.filter (fun p => p ≠ PLATFORM_ALL)
  match onlyPlatform with
  | some p0 =>
    let p := canonical_platform p0
    if p ≠ "" ∧ p ≠ PLATFORM_ALL then [p]
    else sortedDedup (fromConfig ++ fromMarkers ++ fromKnown ++ fromRows)
  | none => sortedDedup (fromConfig ++ fromMarkers ++ fromKnown ++ fromRows)

/-- Implementation of `format_rule_line` (empty maps are the falsy
`{}`/`None` cases of the source). -/
def format_rule_line (r : Row) (ruleContentMap : List (String × String))
    (ruleTraceMap : List (String × (List String × List String))) : String :=
  let title := pyStrip r.title
  let titleSuffix := if title ≠ "" then " - " ++ title else ""
  let base := "- [" ++ r.rule_id ++ "] [" ++ r.scope ++ "]" ++ titleSuffix
    ++ " " ++ inline_tag r
  if ruleContentMap.isEmpty then base
  else
    let content := pyStrip ((dictLookup ruleContentMap r.rule_id).getD "")
    let rendered := if content = "" then base else base ++ "\n  Content: " ++ content
    if ruleTraceMap.isEmpty then rendered
    else
      let trace := (dictLookup ruleTraceMap r.rule_id).getD ([], [])
      rendered ++ "\n  Trace: History " ++ format_trace_links_inline trace.1
        ++ "; Runbook " ++ format_trace_links_inline trace.2

/-- Implementation of `render_platform_sync_block` (the `rule_content_map`
re-extraction default is not exercised: every embedded caller passes the
resolved map, as `sync_platform_files` does). -/
def render_platform_sync_block (platform evolveContent : String) (rows : List Row)
    (digest : String) (ruleContentMap : List (String × String))
    (ruleTraceMap : List (String × (List String × List String))) (today : String) : String :=
  let tldrText := extract_markdown_section evolveContent "TL;DR"
  let changelogText := extract_markdown_section evolveContent "Changelog"
  let activeRows := rows.filter (fun r => r.status == "active" || r.status == "protected")
  let platformRows := activeRows.filter (fun r => is_platform_rule r && row_platform r == platform)
  let universalRows := activeRows.filter (fun r => !is_platform_rule r)
  let selP := select_high_signal_rules platformRows 8
  let selU := select_high_signal_rules universalRows 6
  let lines :=
    [AUTO_SYNC_HEADER, "",
     "This block is auto-generated from `EVOLVE.md` and `evolve/audit.csv`.",
     "Edit `EVOLVE.md` instead of editing this block.",
     "- Platform: `" ++ platform ++ "`",
     "- Updated: `" ++ today ++ "`",
     "- Digest: `" ++ digest ++ "`",
     "", "### TL;DR Snapshot"]
    ++ trim_multiline tldrText 8 900
    ++ ["", "### Platform Rules (" ++ platform ++ ")"]
    ++ (if selP.isEmpty then ["- (no platform-specific rules found)"]
        else selP.map (fun r => format_rule_line r ruleContentMap ruleTraceMap))
    ++ ["", "### Universal High-Signal Rules"]
    ++ (if selU.isEmpty then ["- (no universal rules found)"]
        else selU.map (fun r => format_rule_line r ruleContentMap ruleTraceMap))
    ++ ["", "### Recent Changelog Snapshot"]
    ++ trim_multiline changelogText 8 900
  joinSep "\n" lines

/-- Summary lists returned by `sync_platform_files`. -/
structure PlatformSummary where
  targets : List String
  created : List String
  updated : List String
  unchanged : List String
deriving DecidableEq

/-- Loop body of `sync_platform_files` for one platform: compute digest
and block from the unchanged inputs, upsert into the current file
contents (absent file reads as `""`), and classify the outcome. -/
def syncPlatformOnce (oldContent : Option String) (platform evolveContent : String)
    (rows : List Row) (ruleContentMap : List (String × String))
    (ruleTraceMap : List (String × (List String × List String))) (today : String) :
    String × String × Bool :=
  let old := oldContent.getD ""
  let digest := build_platform_digest platform evolveContent rows ruleContentMap ruleTraceMap
  let blockContent := render_platform_sync_block platform evolveContent rows digest
    ruleContentMap ruleTraceMap today
  let newContent := upsert_platform_sync_block old platform blockContent digest today
  (newContent, digest, newContent == old)

/-- Implementation of `sync_platform_files` (audit_sync.py lines
1201-1270) over the root file map; returns the updated files and the
summary. -/
def sync_platform_files (rootFiles : List (String × String))
    (rulesDir historyDir runbooksDir : Option (List (String × String)))
    (platformTargets : Option (List (String × String)))
    (rows : List Row) (evolveContent : String)
    (noPlatformSync : Bool) (onlyPlatform : Option String) (today : String) :
    List (String × String) × PlatformSummary :=
  if noPlatformSync then
    (rootFiles, { targets := [], created := [], updated := [], unchanged := [] })
  else
    let configMap := load_platform_target_map platformTargets
    let markerMap := extract_platform_marker_map rootFiles
    let platforms := discover_sync_platforms rootFiles rows configMap markerMap onlyPlatform
    let ruleContentMap := resolve_rule_content_map rulesDir evolveContent rows
    let (ruleTraceMap, _, _) := resolve_rule_trace_map historyDir runbooksDir rows false today
    platforms.foldl (fun (st : List (String × String) × PlatformSummary) platform =>
      let (files, summary) := st
      let target := resolve_platform_file_path platform configMap markerMap
      let summary := { summary with targets := summary.targets ++ [platform ++ ":" ++ target] }
      let existed := (dictLookup files target).isSome
      let (newContent, _, unchanged) := syncPlatformOnce (dictLookup files target)
        platform evolveContent rows ruleContentMap ruleTraceMap today
      if unchanged then
        (files, { summary with unchanged := summary.unchanged ++ [target] })
      else
        (dictUpsert files target newContent,
         if existed then { summary with updated := summary.updated ++ [target] }
         else { summary with created := summary.created ++ [target] }))
      (rootFiles, { targets := [], created := [], updated := [], unchanged := [] })

/-! ## The `sync` command -/

/-- Project state touched by the sync commands: the audit table, the
root-level files (including `EVOLVE.md` and the per-platform documents),
the three `evolve/` subdirectories (absent until `mkdir`), and the
optional parsed platform-target configuration. -/
structure SyncState where
  audit : List RawRow
  rootFiles : List (String × String)
  rulesDir : Option (List (String × String))
  historyDir : Option (List (String × String))
  runbooksDir : Option (List (String × String))
  platformTargets : Option (List (String × String))
deriving DecidableEq

/-- Command-line arguments consumed by `cmd_sync` (flag parsing itself is
out of the modelled core). -/
structure SyncArgs where
  evolvePlatform : Option String
  noPlatformSync : Bool
  onlyPlatform : Option String
deriving DecidableEq

/-- Outputs reported by `cmd_sync`. -/
structure SyncReport where
  detailSummary : DetailSummary
  platformSummary : PlatformSummary
  reviewItems : List String
  lowValueItems : List String
deriving DecidableEq

/-- Empty report of the early-return paths. -/
def emptySyncReport : SyncReport := {
  detailSummary := { targets := [], created := [], updated := [], existing := [] }
  platformSummary := { targets := [], created := [], updated := [], unchanged := [] }
  reviewItems := []
  lowValueItems := [] }

/-- Implementation of `cmd_sync` (audit_sync.py lines 1651-1714) as a
state transformer: reconcile the canonical document (inline tags, TL;DR,
selection block), apply the status transitions, rewrite the audit table
and the rule-detail files, then run the platform-file sync. -/
def cmd_sync (args : SyncArgs) (today : String) (state : SyncState) : SyncState × SyncReport :=
  let rows := read_audit state.audit
  if rows.isEmpty then (state, emptySyncReport)
  else
    let content0 := (dictLookup state.rootFiles "EVOLVE.md").getD ""
    if content0 = "" then (state, emptySyncReport)
    else
      let evolveRows := filter_rows_for_evolve_sync rows args.evolvePlatform
      let content1 := update_rules_inline_tags content0 evolveRows
      let content2 := update_tldr_section content1 evolveRows
      let updatedRows := rows.map (fun r => (sync_status_row r).1)
      let reviewItems := rows.filterMap (fun r => (sync_status_row r).2.1)
      let lowValueItems := (rows.filter (fun r => (sync_status_row r).2.2)).map (fun r => r.rule_id)
      let (detailSummary, rulesDir', historyDir', runbooksDir') :=
        sync_rule_detail_files state.rulesDir state.historyDir state.runbooksDir
          updatedRows content2 today
      let selectedRows := filter_rows_for_evolve_sync updatedRows args.evolvePlatform
      let selectedBlock := render_selected_rules_block (some rulesDir') historyDir' runbooksDir'
        selectedRows today
      let content3 := upsert_selected_rules_block content2 selectedBlock
      let rootFiles1 := dictUpsert state.rootFiles "EVOLVE.md" content3
      let audit' := write_audit updatedRows
      let (rootFiles2, platformSummary) := sync_platform_files rootFiles1 (some rulesDir')
        historyDir' runbooksDir' state.platformTargets updatedRows content3
        args.noPlatformSync args.onlyPlatform today
      ({ audit := audit', rootFiles := rootFiles2, rulesDir := some rulesDir',
         historyDir := historyDir', runbooksDir := runbooksDir',
         platformTargets := state.platformTargets },
       { detailSummary := detailSummary, platformSummary := platformSummary,
         reviewItems := reviewItems, lowValueItems := lowValueItems })

/-! ## Evolve suggestions and the `select` command -/

/-- Candidate record of `build_evolve_suggestions`. -/
structure Suggestion where
  rule_id : String
  scope : String
  title : String
  content : String
  hit : Int
  vio : Int
  err : Int
  status : String
  evolve_slot : Int
  score : ℚ
  reasons : List String
  trace : List String × List String
deriving DecidableEq

/-- Placeholder suggestion backing checked list indexing. -/
def dummySuggestion : Suggestion := {
  rule_id := "", scope := "", title := "", content := "", hit := 0, vio := 0,
  err := 0, status := "", evolve_slot := 0, score := 0, reasons := [], trace := ([], []) }

/-- Descending candidate order `key=(score, err, vio, hit, rule_id)`,
`reverse=True`. -/
def suggestionGe (a b : Suggestion) : Bool :=
  ((if a.score < b.score then Ordering.lt else if b.score < a.score then Ordering.gt else Ordering.eq).then
    ((cmpInt a.err b.err).then ((cmpInt a.vio b.vio).then
      ((cmpInt a.hit b.hit).then (cmpStr a.rule_id b.rule_id)))))
    ≠ Ordering.lt

/-- Implementation of `build_evolve_suggestions`. -/
def build_evolve_suggestions (rulesDir historyDir runbooksDir : Option (List (String × String)))
    (rows : List Row) (limit : Nat) (today : String) : List Suggestion :=
  let ruleContentMap := resolve_rule_content_map rulesDir "" rows
  let (ruleTraceMap, _, _) := resolve_rule_trace_map historyDir runbooksDir rows false today
  let candidates := rows.filterMap (fun r =>
    if r.status == "archived" then none
    else
      let rid := r.rule_id
      let content0 := pyStrip ((dictLookup ruleContentMap rid).getD "")
      let content := if content0 ≠ "" then content0 else pyStrip r.title
      if content = "" then none
      else
        let cr := compliance_rate r
        let dr := danger_rate r
        let reasons :=
          (if decide (2 ≤ r.err) && (match dr with | some d => decide ((1:ℚ)/2 ≤ d) | none => false)
            then ["high-risk"] else [])
          ++ (if decide (3 ≤ r.vio) && (match cr with | some c => decide (c < (1:ℚ)/2) | none => false)
            then ["frequent-violation"] else [])
          ++ (if r.status = "review" then ["pending-review"] else [])
          ++ (if 3 ≤ r.hit ∧ r.vio = 0 ∧ r.err = 0 then ["stable-good-practice"] else [])
        let reasons := if reasons.isEmpty then ["general-signal"] else reasons
        some { rule_id := rid, scope := r.scope, title := r.title, content := content,
               hit := r.hit, vio := r.vio, err := r.err, status := r.status,
               evolve_slot := r.evolve_slot, score := recommendation_score r,
               reasons := reasons, trace := (dictLookup ruleTraceMap rid).getD ([], []) })
  (msort suggestionGe candidates).take limit

/-- Row-update core of `cmd_select` (audit_sync.py lines 1843-1920):
`some rows'` when the command writes the table, `none` on every
early-return path (empty table, no suggestions, empty or unparsable
selection, out-of-range numbers). -/
def cmd_select_rows (rulesDir historyDir runbooksDir : Option (List (String × String)))
    (rows : List Row) (clear : Bool) (rawSelection : String) (today : String) : Option (List Row) :=
  if rows.isEmpty then none
  else if clear then some (rows.map (fun r => { r with evolve_slot := 0 }))
  else
    let suggestions := build_evolve_suggestions rulesDir historyDir runbooksDir rows 200 today
    if suggestions.isEmpty then none
    else if rawSelection = "" then none
    else
      let numbers := parse_selection_numbers rawSelection
      if numbers.isEmpty then none
      else if numbers.any (fun n => suggestions.length < n) then none
      else
        let slotMap := (numberFrom 1 numbers).foldl (fun m pr =>
          dictUpsert m (suggestions.getD (pr.2 - 1) dummySuggestion).rule_id pr.1) []
        some (rows.map (fun r =>
          { r with evolve_slot := ((dictLookup slotMap r.rule_id).getD 0 : Int) }))

/-- Specification-side description of the slot a rule receives from a
selection, per the claim's wording: if some position `i` of the number
list picks the suggestion carrying this rule id, the slot is `i + 1`
(the order the number was given in); otherwise the slot is cleared to
zero. -/
def selection_slot_spec (sg : List Suggestion) (ns : List Nat) (rid : String) : Int :=
  match (List.range ns.length).find?
      (fun i => (sg.getD (ns.getD i 0 - 1) dummySuggestion).rule_id == rid) with
  | some i => ((1 + i : Nat) : Int)
  | none => 0

/-! ## Health checker (`health_check.py`) -/

/-- Numeric coercion of the health checker's `read_audit`: the five
counter columns go through a bare `int()`, so a non-numeric value raises
(`none`); an absent column is read as `int(0) = 0`. -/
def healthInt (v : Option String) : Option Int :=
  match v with
  | none => some 0
  | some s => pyInt s

/-- Implementation of `read_audit` of health_check.py: `none` models the
uncaught `ValueError` on a malformed counter.  `evolve_slot` is never
parsed nor read by any check and is pinned to `0` in the normalized
record. -/
def health_read_audit_row (r : RawRow) : Option Row := do
  let hit ← healthInt r.hit
  let vio ← healthInt r.vio
  let err ← healthInt r.err
  let skipV ← healthInt r.skip
  let autoSkip ← healthInt r.auto_skip
  let base : Row := {
    rule_id := r.rule_id.getD ""
    platform := canonical_platform (r.platform.getD "")
    scope := r.scope.getD ""
    title := r.title.getD ""
    origin := r.origin.getD "error"
    hit := hit, vio := vio, err := err, skip := skipV, auto_skip := autoSkip
    last_reviewed := r.last_reviewed.getD ""
    status := r.status.getD ""
    evolve_slot := 0 }
  pure (legacy_fix base)

/-- Table-level health reader: the first malformed row aborts the whole
read, as the uncaught `ValueError` does. -/
def health_read_audit : List RawRow → Option (List Row)
  | [] => some []
  | r :: t =>
    match health_read_audit_row r, health_read_audit t with
    | some row, some rest => some (row :: rest)
    | _, _ => none

/-- Constant `VALID_ORIGINS`. -/
def VALID_ORIGINS : List String := ["error", "preventive", "imported"]

/-- Constant `VALID_STATUSES`. -/
def VALID_STATUSES : List String := ["active", "protected", "review", "archived"]

/-- Constant `REQUIRED_FIELDS` of health_check.py (note: no
`evolve_slot`). -/
def REQUIRED_FIELDS : List String :=
  ["rule_id", "platform", "scope", "title", "origin", "hit", "vio", "err",
   "skip", "auto_skip", "last_reviewed", "status"]

/-- Single check result (name, level, message, details). -/
structure CheckResult where
  name : String
  level : String
  message : String
  details : List String
deriving DecidableEq

/-- Helper formatting `rid(err:e > vio:v)` of check 1.6. -/
def errVioDetail (r : Row) : String :=
  r.rule_id ++ "(err:" ++ intToStr r.err ++ " > vio:" ++ intToStr r.vio ++ ")"

/-- Helper formatting `rid(err:e vio:v)` of check 6.3. -/
def corruptionDetail (r : Row) : String :=
  r.rule_id ++ "(err:" ++ intToStr r.err ++ " vio:" ++ intToStr r.vio ++ ")"

/-- Construction helper for one check result. -/
def mkCheck (name level message : String) (details : List String) : CheckResult :=
  { name := name, level := level, message := message, details := details }

/-- Implementation of `check_data_integrity` (health_check.py lines
404-503) as the ordered list of its check results; `csvExists` and
`headers` stand for the file-existence test and `read_csv_headers`.  The
duplicate list of check 1.2 is modelled in first-occurrence order (Python
iterates an unordered `set` there). -/
def check_data_integrity (csvExists : Bool) (headers : List String) (rows : List Row) :
    List CheckResult :=
  if ¬ csvExists then
    [mkCheck "File Presence" "FAIL" "audit.csv is missing" []]
  else
    let head := [mkCheck "File Presence" "PASS"
      ("audit.csv exists (" ++ natToStr rows.length ++ " rows)") []]
    let missingHeaders := msort strLe (REQUIRED_FIELDS.filter (fun f => ¬ headers.contains f))
    let headerCheck :=
      if ¬ missingHeaders.isEmpty then
        [mkCheck "CSV Header Completeness" "WARN"
          ("Missing fields: " ++ joinSep ", " missingHeaders
            ++ " (run audit_sync.py to auto-fill)") []]
      else [mkCheck "CSV Header Completeness" "PASS" "CSV header is complete" []]
    if rows.isEmpty then
      head ++ headerCheck
        ++ [mkCheck "Non-Empty Data" "WARN" "audit.csv is empty; no rules recorded yet" []]
    else
      let ids := rows.map (fun r => r.rule_id)
      let duplicates := ids.eraseDups.filter (fun rid => 1 < ids.count rid)
      let uniqueCheck :=
        if ¬ duplicates.isEmpty then
          [mkCheck "Unique rule_id" "FAIL"
            ("Duplicate rule_id found: " ++ joinSep ", " duplicates)
            (duplicates.map (fun rid =>
              rid ++ " appears " ++ natToStr (ids.count rid) ++ " times"))]
        else
          [mkCheck "Unique rule_id" "PASS"
            ("All " ++ natToStr ids.length ++ " rule_id values are unique") []]
      let badOrigins := (rows.filter (fun r => ¬ VALID_ORIGINS.contains r.origin)).map
        (fun r => r.rule_id)
      let originCheck :=
        if ¬ badOrigins.isEmpty then
          [mkCheck "Valid origin" "FAIL"
            (natToStr badOrigins.length ++ " rules have invalid origin values")
            ((badOrigins.take 10).map (fun rid =>
              rid ++ " -> " ++ (((rows.find? (fun r => r.rule_id = rid)).map
                (fun r => r.origin)).getD "?")))]
        else [mkCheck "Valid origin" "PASS" "All origin values are valid" []]
      let badStatus := (rows.filter (fun r => ¬ VALID_STATUSES.contains r.status)).map
        (fun r => r.rule_id)
      let statusCheck :=
        if ¬ badStatus.isEmpty then
          [mkCheck "Valid status" "FAIL"
            (natToStr badStatus.length ++ " rules have invalid status values")
            (badStatus.take 10)]
        else [mkCheck "Valid status" "PASS" "All status values are valid" []]
      let negative := rows.foldr (fun r acc =>
        (if r.hit < 0 then [r.rule_id ++ ".hit=" ++ intToStr r.hit] else [])
        ++ (if r.vio < 0 then [r.rule_id ++ ".vio=" ++ intToStr r.vio] else [])
        ++ (if r.err < 0 then [r.rule_id ++ ".err=" ++ intToStr r.err] else [])
        ++ (if r.skip < 0 then [r.rule_id ++ ".skip=" ++ intToStr r.skip] else [])
        ++ (if r.auto_skip < 0 then [r.rule_id ++ ".auto_skip=" ++ intToStr r.auto_skip] else [])
        ++ acc) []
      let negativeCheck :=
        if ¬ negative.isEmpty then
          [mkCheck "Non-Negative Counters" "FAIL" "Negative values found" (negative.take 10)]
        else
          [mkCheck "Non-Negative Counters" "PASS" "All counter fields are non-negative" []]
      let errGtVio := (rows.filter (fun r => decide (r.vio < r.err))).map errVioDetail
      let errVioCheck :=
        if ¬ errGtVio.isEmpty then
          [mkCheck "err <= vio" "FAIL" "err is a subset of vio and must not exceed vio"
            (errGtVio.take 10)]
        else [mkCheck "err <= vio" "PASS" "All rows satisfy err <= vio" []]
      let errorNoVio := (rows.filter (fun r =>
        r.origin == "error" && decide (r.vio = 0) && decide (r.err = 0)
          && !(r.status == "archived"))).map (fun r => r.rule_id)
      let baselineCheck :=
        if ¬ errorNoVio.isEmpty then
          [mkCheck "error Baseline" "WARN"
            (natToStr errorNoVio.length
              ++ " origin=error rules still have vio=0 and err=0 (baseline may be incorrect)")
            (errorNoVio.take 10)]
        else
          [mkCheck "error Baseline" "PASS"
            "All origin=error rules have non-zero initial vio/err history" []]
      let weakPlatform := (rows.filter (fun r =>
        is_platform_rule r && (canonical_platform r.platform == PLATFORM_ALL))).map
          (fun r => r.rule_id)
      let platformCheck :=
        if ¬ weakPlatform.isEmpty then
          [mkCheck "Platform Tag Completeness" "WARN"
            (natToStr weakPlatform.length
              ++ " platform lessons still use platform=all; specify claude/gemini/codex/cursor")
            (weakPlatform.take 10)]
        else
          [mkCheck "Platform Tag Completeness" "PASS"
            "All platform lessons have explicit platform tags" []]
      head ++ headerCheck ++ uniqueCheck ++ originCheck ++ statusCheck ++ negativeCheck
        ++ errVioCheck ++ baselineCheck ++ platformCheck

/-- Implementation of `check_anti_corruption` (health_check.py lines
918-978). -/
def check_anti_corruption (rows : List Row) (evolveContent : String) : List CheckResult :=
  let activeRows := rows.filter (fun r => r.status == "active" || r.status == "protected")
  let zeroRules := (activeRows.filter (fun r =>
    decide (r.hit = 0) && decide (r.vio = 0) && decide (r.err = 0)
      && decide (r.skip = 0) && decide (r.auto_skip = 0))).map (fun r => r.rule_id)
  let zeroCheck :=
    if ¬ zeroRules.isEmpty then
      [mkCheck "Zero-Touch Rules" "WARN"
        (natToStr zeroRules.length ++ " rules were never touched (hit/vio/err/skip all zero)")
        (zeroRules.take 10)]
    else
      [mkCheck "Zero-Touch Rules" "PASS"
        "No zero-touch rules; all rules have audit activity" []]
  let orphanCheck :=
    if evolveContent ≠ "" then
      let orphans := (activeRows.filter (fun r =>
        !(strContains evolveContent ("[" ++ r.rule_id ++ "]")))).map (fun r => r.rule_id)
      if ¬ orphans.isEmpty then
        [mkCheck "Orphan Rules" "WARN"
          (natToStr orphans.length
            ++ " active rules are missing in EVOLVE.md (possibly manually removed)")
          (orphans.take 10)]
      else [mkCheck "Orphan Rules" "PASS" "No orphan rules" []]
    else [mkCheck "Orphan Rules" "WARN" "EVOLVE.md is missing; orphan check skipped" []]
  let corrupted := (rows.filter (fun r => decide (r.vio < r.err))).map corruptionDetail
  let corruptionCheck :=
    if ¬ corrupted.isEmpty then
      [mkCheck "Data Corruption" "FAIL"
        (natToStr corrupted.length ++ " rows have err > vio (logical inconsistency)")
        (corrupted.take 10)]
    else [mkCheck "Data Corruption" "PASS" "No logical inconsistency found" []]
  let emptyScope := (activeRows.filter (fun r => pyStrip r.scope = "")).map (fun r => r.rule_id)
  let scopeCheck :=
    if ¬ emptyScope.isEmpty then
      [mkCheck "Empty Scope" "WARN"
        (natToStr emptyScope.length ++ " rules are missing scope tags") (emptyScope.take 10)]
    else [mkCheck "Empty Scope" "PASS" "All rules have scope tags" []]
  let emptyTitle := (activeRows.filter (fun r => pyStrip r.title = "")).map (fun r => r.rule_id)
  let titleCheck :=
    if ¬ emptyTitle.isEmpty then
      [mkCheck "Empty Title" "WARN"
        (natToStr emptyTitle.length ++ " rules are missing title") (emptyTitle.take 10)]
    else [mkCheck "Empty Title" "PASS" "All rules have title" []]
  zeroCheck ++ orphanCheck ++ corruptionCheck ++ scopeCheck ++ titleCheck

/-- Example project state for the double-sync experiment: one archived
platform lesson for `claude`, and an `EVOLVE.md` whose TL;DR body
contains a literal AUTO_SYNC end marker. -/
def c2ExampleState : SyncState :=
  { audit := [⟨some "S-001", some "claude", some "a", some "t", some "error",
      some "0", some "0", some "0", some "0", some "0", some "2025-01-01",
      some "archived", some "0"⟩]
    rootFiles := [("EVOLVE.md", "## TL;DR\n<!-- EVOLVE_SKILL:AUTO_SYNC:END -->\n")]
    rulesDir := none
    historyDir := none
    runbooksDir := none
    platformTargets := none }

/-- Plain `sync` invocation (no flags). -/
def c2ExampleArgs : SyncArgs :=
  { evolvePlatform := none, noPlatformSync := false, onlyPlatform := none }

/-- Example table with eleven `err > vio` offenders, used to exercise
the ten-entry truncation of the health checks' detail lists. -/
def c6Rows : List Row :=
  (List.range 11).map (fun i =>
    { rule_id := "R-0" ++ (if i + 1 < 10 then "0" else "") ++ natToStr (i + 1)
      platform := "all", scope := "a", title := "t", origin := "error"
      hit := 0, vio := 0, err := 1, skip := 0, auto_skip := 0
      last_reviewed := "2025-01-01", status := "active", evolve_slot := 0 })

/-! # Theorems

General lemmas about the embedded primitives, followed by one theorem per
claim of the specification audit. -/

/-- Unfolding `Char.ofNat` on valid code points below the surrogate
range. -/
theorem char_toNat_ofNat_lt {n : Nat} (h : n < 55296) : (Char.ofNat n).toNat = n := by
  unfold Char.ofNat
  rw [dif_pos (Or.inl h)]
  rfl

/-- Whitespace characters sit at or below code point 32. -/
theorem isWs_le32 {c : Char} (h : isWs c = true) : c.toNat ≤ 32 := by
  simp only [isWs, Bool.or_eq_true, decide_eq_true_eq] at h
  rcases h with ((((h | h) | h) | h) | h) | h <;> subst h <;> decide

/-- Characters above code point 32 are not whitespace. -/
theorem isWs_false_of_32lt {c : Char} (h : 32 < c.toNat) : isWs c = false := by
  cases hw : isWs c with
  | true => exact absurd (isWs_le32 hw) (by omega)
  | false => rfl

/-- Lowercasing preserves whitespace-ness. -/
theorem isWs_lowerChar (c : Char) : isWs (lowerChar c) = isWs c := by
  unfold lowerChar
  split
  · rename_i h
    have h1 : (Char.ofNat (c.toNat + 32)).toNat = c.toNat + 32 :=
      char_toNat_ofNat_lt (by omega)
    rw [isWs_false_of_32lt (by omega), isWs_false_of_32lt (by omega : 32 < c.toNat)]
  · rfl

/-- Lowercasing is idempotent. -/
theorem lowerChar_lowerChar (c : Char) : lowerChar (lowerChar c) = lowerChar c := by
  unfold lowerChar
  split
  · rename_i h
    have h1 : (Char.ofNat (c.toNat + 32)).toNat = c.toNat + 32 :=
      char_toNat_ofNat_lt (by omega)
    rw [if_neg (by omega)]
  · rfl

/-- Repeated `dropWhile` is a no-op. -/
theorem dropWhile_dropWhile (p : Char → Bool) (l : List Char) :
    (l.dropWhile p).dropWhile p = l.dropWhile p := by
  induction l with
  | nil => simp
  | cons a t ih =>
    by_cases h : p a
    · simp [List.dropWhile_cons, h, ih]
    · simp [List.dropWhile_cons, h]

/-- A list splits into a dropped run and its `dropWhile`. -/
theorem exists_append_dropWhile (p : Char → Bool) (l : List Char) :
    ∃ r, l = r ++ l.dropWhile p := by
  induction l with
  | nil => exact ⟨[], rfl⟩
  | cons a t ih =>
    by_cases h : p a
    · obtain ⟨r, hr⟩ := ih
      exact ⟨a :: r, by simp only [List.dropWhile_cons, h, if_true]; exact congrArg (a :: ·) hr⟩
    · exact ⟨[], by simp [List.dropWhile_cons, h]⟩

/-- Any decomposition prefix of a `dropWhile`-stable list is itself
stable. -/
theorem dropWhile_stable_of_append (p : Char → Bool) {l pre r : List Char}
    (hl : l.dropWhile p = l) (h : l = pre ++ r) : pre.dropWhile p = pre := by
  cases pre with
  | nil => simp
  | cons a t =>
    have ha : ¬ (p a = true) := by
      intro hp
      have hlen := congrArg List.length hl
      have hsub := (List.dropWhile_sublist (l := t ++ r) p).length_le
      subst h
      simp only [List.cons_append, List.dropWhile_cons, hp, if_true] at hl hlen
      have := congrArg List.length hl
      simp only [List.length_append, List.length_cons] at this hsub
      omega
    simp [List.dropWhile_cons, ha]

/-- `trimWsEnd` is idempotent. -/
theorem trimWsEnd_trimWsEnd (l : List Char) : trimWsEnd (trimWsEnd l) = trimWsEnd l := by
  unfold trimWsEnd
  rw [List.reverse_reverse, dropWhile_dropWhile]

/-- A list splits into its `trimWsEnd` and a trailing rest. -/
theorem exists_trimWsEnd_append (l : List Char) : ∃ r, l = trimWsEnd l ++ r := by
  obtain ⟨r, hr⟩ := exists_append_dropWhile isWs l.reverse
  refine ⟨r.reverse, ?_⟩
  have := congrArg List.reverse hr
  simpa [trimWsEnd] using this

/-- `trimWsEnd` preserves `dropWhile isWs` stability. -/
theorem dropWhile_trimWsEnd_stable {l : List Char} (h : l.dropWhile isWs = l) :
    (trimWsEnd l).dropWhile isWs = trimWsEnd l := by
  obtain ⟨r, hr⟩ := exists_trimWsEnd_append l
  exact dropWhile_stable_of_append isWs h hr

/-- `pyStrip` is idempotent. -/
theorem pyStrip_pyStrip (s : String) : pyStrip (pyStrip s) = pyStrip s := by
  apply String.ext
  show trimWsEnd (List.dropWhile isWs (trimWsEnd (List.dropWhile isWs s.data)))
    = trimWsEnd (List.dropWhile isWs s.data)
  rw [dropWhile_trimWsEnd_stable (dropWhile_dropWhile isWs s.data), trimWsEnd_trimWsEnd]

/-- `pyLower` is idempotent. -/
theorem pyLower_pyLower (s : String) : pyLower (pyLower s) = pyLower s := by
  apply String.ext
  show (s.data.map lowerChar).map lowerChar = s.data.map lowerChar
  rw [List.map_map]
  exact List.map_congr_left (fun c _ => lowerChar_lowerChar c)

/-- `dropWhile isWs` commutes with lowercasing. -/
theorem dropWhile_isWs_map_lower (l : List Char) :
    (l.map lowerChar).dropWhile isWs = (l.dropWhile isWs).map lowerChar := by
  have h : (isWs ∘ lowerChar) = isWs := funext fun c => by
    simp [Function.comp, isWs_lowerChar]
  rw [List.dropWhile_map, h]

/-- `trimWsEnd` commutes with lowercasing. -/
theorem trimWsEnd_map_lower (l : List Char) :
    trimWsEnd (l.map lowerChar) = (trimWsEnd l).map lowerChar := by
  unfold trimWsEnd
  rw [← List.map_reverse, dropWhile_isWs_map_lower, List.map_reverse]

/-- `pyStrip` commutes with `pyLower`. -/
theorem pyStrip_pyLower (s : String) : pyStrip (pyLower s) = pyLower (pyStrip s) := by
  apply String.ext
  show trimWsEnd ((s.data.map lowerChar).dropWhile isWs)
    = (trimWsEnd (s.data.dropWhile isWs)).map lowerChar
  rw [dropWhile_isWs_map_lower, trimWsEnd_map_lower]

/-- Values of an association lookup come from the stored pairs. -/
theorem assocLookup_mem {m : List (String × String)} {k v : String}
    (h : assocLookup m k = some v) : v ∈ m.map Prod.snd := by
  induction m with
  | nil => simp [assocLookup] at h
  | cons p rest ih =>
    by_cases hk : p.1 = k
    · unfold assocLookup at h
      rw [if_pos hk] at h
      cases h
      simp
    · unfold assocLookup at h
      rw [if_neg hk] at h
      simpa using Or.inr (ih h)

/-- Every alias value is a fixed point of canonicalization. -/
theorem alias_value_fix : ∀ v ∈ PLATFORM_ALIASES.map Prod.snd, canonical_platform v = v := by
  decide

/-- Every known platform value is a fixed point of canonicalization. -/
theorem known_value_fix : ∀ v ∈ KNOWN_PLATFORM_VALUES, canonical_platform v = v := by
  decide

/-- The `all` sentinel is a fixed point of canonicalization. -/
theorem canonical_all_fix : canonical_platform PLATFORM_ALL = PLATFORM_ALL := by decide

/-- Platform canonicalization is idempotent. -/
theorem canonical_platform_idem (s : String) :
    canonical_platform (canonical_platform s) = canonical_platform s := by
  by_cases h0 : pyLower (pyStrip s) = ""
  · have h1 : canonical_platform s = PLATFORM_ALL := by
      unfold canonical_platform
      rw [if_pos h0]
    rw [h1, canonical_all_fix]
  · cases hl : assocLookup PLATFORM_ALIASES (pyLower (pyStrip s)) with
    | some v =>
      have h1 : canonical_platform s = v := by
        unfold canonical_platform
        rw [if_neg h0, hl]
      rw [h1]
      exact alias_value_fix v (assocLookup_mem hl)
    | none =>
      have h1 : canonical_platform s = pyLower (pyStrip s) := by
        unfold canonical_platform
        rw [if_neg h0, hl]
      rw [h1]
      have hfix : pyLower (pyStrip (pyLower (pyStrip s))) = pyLower (pyStrip s) := by
        rw [pyStrip_pyLower, pyStrip_pyStrip, pyLower_pyLower]
      unfold canonical_platform
      rw [hfix, if_neg h0, hl]

/-- The legacy inference returns `all` or a known platform. -/
theorem infer_mem (r : Row) :
    infer_legacy_platform r = PLATFORM_ALL ∨ infer_legacy_platform r ∈ KNOWN_PLATFORM_VALUES := by
  unfold infer_legacy_platform
  split
  · cases hl : assocLookup PLATFORM_ALIASES (pyLower (pyStrip (scopeTop r.scope))) with
    | none => left; rfl
    | some v =>
      by_cases hk : KNOWN_PLATFORM_VALUES.contains v = true
      · right
        show (if KNOWN_PLATFORM_VALUES.contains v = true then v else PLATFORM_ALL)
          ∈ KNOWN_PLATFORM_VALUES
        rw [if_pos hk]
        simpa using hk
      · left
        show (if KNOWN_PLATFORM_VALUES.contains v = true then v else PLATFORM_ALL)
          = PLATFORM_ALL
        rw [if_neg hk]
  · left; rfl

/-- The legacy inference result is a fixed point of canonicalization. -/
theorem canonical_infer_fix (r : Row) :
    canonical_platform (infer_legacy_platform r) = infer_legacy_platform r := by
  rcases infer_mem r with h | h
  · rw [h, canonical_all_fix]
  · exact known_value_fix _ h

/-- Code point of a digit character. -/
theorem digitCh_toNat {d : Nat} (h : d < 10) : (digitCh d).toNat = 48 + d :=
  char_toNat_ofNat_lt (by omega)

/-- Digit characters pass the digit test. -/
theorem isDigitCh_digitCh {d : Nat} (h : d < 10) : isDigitCh (digitCh d) = true := by
  simp only [isDigitCh, digitCh_toNat h, decide_eq_true_eq]
  omega

/-- Value of a digit character. -/
theorem digitVal_digitCh {d : Nat} (h : d < 10) : digitVal (digitCh d) = d := by
  simp [digitVal, digitCh_toNat h]

/-- The digit worker ignores any fuel beyond the value of the input. -/
theorem natDigitsF_stable : ∀ f g n, n ≤ f → n ≤ g → natDigitsF f n = natDigitsF g n := by
  intro f
  induction f with
  | zero =>
    intro g n h1 h2
    interval_cases n
    cases g <;> simp [natDigitsF]
  | succ f ih =>
    intro g n h1 h2
    cases g with
    | zero =>
      interval_cases n
      simp [natDigitsF]
    | succ g =>
      show natDigitsF (f + 1) n = natDigitsF (g + 1) n
      simp only [natDigitsF]
      by_cases h : n < 10
      · rw [if_pos h, if_pos h]
      · rw [if_neg h, if_neg h, ih g (n / 10) (by omega) (by omega)]

/-- Recursive unfolding of the decimal expansion. -/
theorem natDigits_eq (n : Nat) :
    natDigits n = if n < 10 then [digitCh n] else natDigits (n / 10) ++ [digitCh (n % 10)] := by
  by_cases h : n < 10
  · rw [if_pos h]
    cases n with
    | zero => rfl
    | succ m =>
      show natDigitsF (m + 1) (m + 1) = _
      simp only [natDigitsF]
      rw [if_pos h]
  · rw [if_neg h]
    cases n with
    | zero => omega
    | succ m =>
      show natDigitsF (m + 1) (m + 1)
        = natDigitsF ((m + 1) / 10) ((m + 1) / 10) ++ [digitCh ((m + 1) % 10)]
      simp only [natDigitsF]
      rw [if_neg h, natDigitsF_stable m ((m + 1) / 10) ((m + 1) / 10) (by omega) le_rfl]

/-- Every character of a decimal expansion is a digit. -/
theorem natDigits_digits (n : Nat) : ∀ c ∈ natDigits n, isDigitCh c = true := by
  induction n using Nat.strong_induction_on with
  | _ n ih =>
    rw [natDigits_eq]
    split
    · rename_i h
      intro c hc
      simp only [List.mem_singleton] at hc
      subst hc
      exact isDigitCh_digitCh h
    · rename_i h
      intro c hc
      rcases List.mem_append.mp hc with hm | hm
      · exact ih (n / 10) (Nat.div_lt_self (by omega) (by omega)) c hm
      · simp only [List.mem_singleton] at hm
        subst hm
        exact isDigitCh_digitCh (Nat.mod_lt _ (by omega))

/-- The decimal expansion is never empty. -/
theorem natDigits_ne_nil (n : Nat) : natDigits n ≠ [] := by
  rw [natDigits_eq]
  split
  · simp
  · simp

/-- Folding the digit characters recovers the number. -/
theorem foldl_natDigits (n : Nat) : ∀ acc,
    (natDigits n).foldl (fun a c => a * 10 + digitVal c) acc
      = acc * 10 ^ (natDigits n).length + n := by
  induction n using Nat.strong_induction_on with
  | _ n ih =>
    intro acc
    rw [natDigits_eq]
    split
    · rename_i h
      simp [List.foldl_cons, digitVal_digitCh h]
    · rename_i h
      rw [List.foldl_append, ih (n / 10) (Nat.div_lt_self (by omega) (by omega)) acc]
      simp only [List.foldl_cons, List.foldl_nil, List.length_append, List.length_singleton]
      rw [digitVal_digitCh (Nat.mod_lt _ (by omega))]
      have hmod := Nat.div_add_mod n 10
      rw [pow_succ]
      ring_nf
      omega

/-- The plain-digit parser is exact on digit runs. -/
theorem parseDigitsCore_digits {l : List Char} (h : ∀ c ∈ l, isDigitCh c = true) :
    ∀ acc, parseDigitsCore l acc = some (l.foldl (fun a c => a * 10 + digitVal c) acc) := by
  induction l with
  | nil => intro acc; rfl
  | cons c t ih =>
    intro acc
    have hc : isDigitCh c = true := h c (List.mem_cons_self c t)
    have hnu : ¬ (c = '_') := by
      intro he
      subst he
      simp [isDigitCh] at hc
    unfold parseDigitsCore
    rw [if_neg hnu, if_pos hc, List.foldl_cons]
    exact ih (fun d hd => h d (List.mem_cons_of_mem c hd)) (acc * 10 + digitVal c)

/-- Unsigned parsing inverts the decimal expansion. -/
theorem parseUDigits_natDigits (n : Nat) : parseUDigits (natDigits n) = some n := by
  have hd := natDigits_digits n
  obtain ⟨c, cs, hc⟩ : ∃ c cs, natDigits n = c :: cs := by
    cases he : natDigits n with
    | nil => exact absurd he (natDigits_ne_nil n)
    | cons c cs => exact ⟨c, cs, rfl⟩
  rw [hc]
  show (if isDigitCh c = true then parseDigitsCore cs (digitVal c) else none) = some n
  rw [if_pos (hd c (by rw [hc]; exact List.mem_cons_self c cs))]
  rw [parseDigitsCore_digits (fun d hdm => hd d (by rw [hc]; exact List.mem_cons_of_mem c hdm))]
  have hf := foldl_natDigits n 0
  rw [hc] at hf
  simp only [List.foldl_cons, Nat.zero_mul, Nat.zero_add] at hf
  rw [hf]

/-- Digit characters are not whitespace. -/
theorem isWs_false_of_digit {c : Char} (h : isDigitCh c = true) : isWs c = false := by
  simp only [isDigitCh, decide_eq_true_eq] at h
  exact isWs_false_of_32lt (by omega)

/-- `dropWhile` is the identity on runs of non-matching characters. -/
theorem dropWhile_eq_self_of_forall {p : Char → Bool} {l : List Char}
    (h : ∀ c ∈ l, p c = false) : l.dropWhile p = l := by
  cases l with
  | nil => rfl
  | cons c t =>
    have := h c (List.mem_cons_self c t)
    simp [List.dropWhile_cons, this]

/-- `pyStrip` is the identity on whitespace-free strings. -/
theorem pyStrip_eq_self_of_forall {s : String} (h : ∀ c ∈ s.data, isWs c = false) :
    pyStrip s = s := by
  apply String.ext
  show trimWsEnd (s.data.dropWhile isWs) = s.data
  rw [dropWhile_eq_self_of_forall h]
  unfold trimWsEnd
  rw [dropWhile_eq_self_of_forall (fun c hc => h c (List.mem_reverse.mp hc)),
    List.reverse_reverse]

/-- Integer parsing inverts decimal rendering (`int(str(i)) == i`). -/
theorem pyInt_intToStr (i : Int) : pyInt (intToStr i) = some i := by
  by_cases hneg : i < 0
  · have hstr : intToStr i = ⟨'-' :: natDigits (-i).toNat⟩ := by
      unfold intToStr
      rw [if_pos hneg]
    have hns : ∀ c ∈ ('-' :: natDigits (-i).toNat), isWs c = false := by
      intro c hc
      rcases List.mem_cons.mp hc with hc | hc
      · subst hc; decide
      · exact isWs_false_of_digit (natDigits_digits _ c hc)
    unfold pyInt
    rw [hstr, pyStrip_eq_self_of_forall hns]
    show (if ('-' : Char) = '+' then (parseUDigits (natDigits (-i).toNat)).map Int.ofNat
      else if ('-' : Char) = '-' then
        (parseUDigits (natDigits (-i).toNat)).map (fun n => -(Int.ofNat n))
      else (parseUDigits ('-' :: natDigits (-i).toNat)).map Int.ofNat) = some i
    rw [if_neg (by decide), if_pos rfl, parseUDigits_natDigits]
    show some (-(Int.ofNat (-i).toNat)) = some i
    rw [show Int.ofNat (-i).toNat = ((-i).toNat : Int) from rfl,
      Int.toNat_of_nonneg (by omega), neg_neg]
  · have hstr : intToStr i = ⟨natDigits i.toNat⟩ := by
      unfold intToStr
      rw [if_neg hneg]
      rfl
    have hns : ∀ c ∈ natDigits i.toNat, isWs c = false :=
      fun c hc => isWs_false_of_digit (natDigits_digits _ c hc)
    obtain ⟨c, cs, hc⟩ : ∃ c cs, natDigits i.toNat = c :: cs := by
      cases he : natDigits i.toNat with
      | nil => exact absurd he (natDigits_ne_nil _)
      | cons c cs => exact ⟨c, cs, rfl⟩
    have hcd : isDigitCh c = true := natDigits_digits _ c (by rw [hc]; exact List.mem_cons_self c cs)
    have hcp : ¬ (c = '+') := by
      intro he
      subst he
      simp [isDigitCh] at hcd
    have hcm : ¬ (c = '-') := by
      intro he
      subst he
      simp [isDigitCh] at hcd
    unfold pyInt
    rw [hstr, @pyStrip_eq_self_of_forall ⟨natDigits i.toNat⟩ hns]
    show (match (natDigits i.toNat : List Char) with
      | [] => none
      | c :: rest =>
        if c = '+' then (parseUDigits rest).map Int.ofNat
        else if c = '-' then (parseUDigits rest).map (fun n => -(Int.ofNat n))
        else (parseUDigits (c :: rest)).map Int.ofNat) = some i
    rw [hc]
    show (if c = '+' then (parseUDigits cs).map Int.ofNat
      else if c = '-' then (parseUDigits cs).map (fun n => -(Int.ofNat n))
      else (parseUDigits (c :: cs)).map Int.ofNat) = some i
    rw [if_neg hcp, if_neg hcm, ← hc, parseUDigits_natDigits]
    show some (Int.ofNat i.toNat) = some i
    rw [show Int.ofNat i.toNat = (i.toNat : Int) from rfl,
      Int.toNat_of_nonneg (by omega)]

/-- The reader's coercion inverts the writer's rendering. -/
theorem intOr0_intToStr (i : Int) : intOr0 (some (intToStr i)) = i := by
  simp [intOr0, pyInt_intToStr]

/-- Reading back serialized fields reproduces the record up to platform
re-canonicalization. -/
theorem read_row_base_write (n : Row) :
    read_row_base (write_audit_row n) = { n with platform := canonical_platform n.platform } := by
  simp only [read_row_base, write_audit_row, Option.getD_some, intOr0_intToStr]

/-- The legacy fix commutes with itself. -/
theorem legacy_fix_legacy_fix (b : Row) : legacy_fix (legacy_fix b) = legacy_fix b := by
  unfold legacy_fix
  by_cases h : ((b.platform == PLATFORM_ALL) && is_platform_rule b) = true
  · rw [if_pos h]
    by_cases h2 : ((({ b with platform := infer_legacy_platform b } : Row).platform == PLATFORM_ALL)
        && is_platform_rule { b with platform := infer_legacy_platform b }) = true
    · rw [if_pos h2]
      rfl
    · rw [if_neg h2]
  · rw [if_neg h, if_neg h]

/-- The platform of a base-normalized row is canonical. -/
theorem read_row_base_platform_canonical (r : RawRow) :
    canonical_platform (read_row_base r).platform = (read_row_base r).platform :=
  canonical_platform_idem _

/-- The legacy fix preserves platform canonicity. -/
theorem legacy_fix_platform_canonical {b : Row}
    (hb : canonical_platform b.platform = b.platform) :
    canonical_platform (legacy_fix b).platform = (legacy_fix b).platform := by
  unfold legacy_fix
  split
  · exact canonical_infer_fix b
  · exact hb

/-- Reading back a written normalized record reproduces it. -/
theorem read_write_read_row (r : RawRow) :
    read_audit_row (write_audit_row (read_audit_row r)) = read_audit_row r := by
  have h2 : canonical_platform (read_audit_row r).platform = (read_audit_row r).platform :=
    legacy_fix_platform_canonical (read_row_base_platform_canonical r)
  have h3 : read_row_base (write_audit_row (read_audit_row r)) = read_audit_row r := by
    rw [read_row_base_write, h2]
  show legacy_fix (read_row_base (write_audit_row (read_audit_row r))) = read_audit_row r
  rw [h3]
  exact legacy_fix_legacy_fix (read_row_base r)

/-- Claim C1 — For every rule table previously written by the store's
serializer, reading it and writing it back reproduces the table
field-for-field: for every raw table `x`, the previously-written table
`write_audit (read_audit x)` satisfies
`write_audit (read_audit t) = t`, so counters, platform, status,
`last_reviewed` and `evolve_slot` of every row survive a read/write
cycle. -/
theorem c1_round_trip (x : List RawRow) :
    write_audit (read_audit (write_audit (read_audit x))) = write_audit (read_audit x) := by
  unfold write_audit read_audit
  simp only [List.map_map, List.map_inj_left, Function.comp]
  intro r hr
  rw [read_write_read_row r]

/-- Claim C4 — During a sync pass, status transitions are evaluated only
for rows currently active: a non-active row (in particular `protected` or
`archived`) is returned untouched; an active row with `skip ≥ 5` or
`auto_skip ≥ 8` transitions to `review` with the reason tagged `skip`
whenever the manual threshold is met (hence when both are); an active row
below both thresholds with `hit ≥ 8`, `vio = 0`, `err = 0` and
`origin ≠ error` is reported as a low-value candidate with its status
left unchanged. -/
theorem c4_status_transitions (r : Row) :
    (r.status ≠ "active" → sync_status_row r = (r, none, false))
    ∧ (r.status = "active" → (5 ≤ r.skip ∨ 8 ≤ r.auto_skip) →
        (sync_status_row r).1 = { r with status := "review" }
          ∧ (5 ≤ r.skip → (sync_status_row r).2.1 = some (r.rule_id ++ "(skip)")))
    ∧ (r.status = "active" → ¬ (5 ≤ r.skip ∨ 8 ≤ r.auto_skip) →
        8 ≤ r.hit → r.vio = 0 → r.err = 0 → r.origin ≠ "error" →
        (sync_status_row r).1 = r ∧ (sync_status_row r).2.2 = true) := by
  refine ⟨fun hs => ?_, fun hs hth => ?_, fun hs hth hh hv he ho => ?_⟩
  · unfold sync_status_row
    rw [if_neg hs]
  · have hth' : r.skip ≥ MANUAL_SKIP_THRESHOLD ∨ r.auto_skip ≥ AUTO_SKIP_THRESHOLD := hth
    constructor
    · unfold sync_status_row
      rw [if_pos hs, if_pos hth']
    · intro hsk
      unfold sync_status_row
      rw [if_pos hs, if_pos hth']
      show some (r.rule_id ++ "(" ++ (if r.skip ≥ MANUAL_SKIP_THRESHOLD then "skip" else "auto_skip") ++ ")")
        = some (r.rule_id ++ "(skip)")
      rw [if_pos (show r.skip ≥ MANUAL_SKIP_THRESHOLD from hsk)]
      apply congrArg some
      apply String.ext
      simp only [String.data_append, List.append_assoc]
      rfl
  · have hth' : ¬ (r.skip ≥ MANUAL_SKIP_THRESHOLD ∨ r.auto_skip ≥ AUTO_SKIP_THRESHOLD) := hth
    have hlow : (8 ≤ r.hit ∧ r.vio = 0 ∧ r.err = 0 ∧ r.origin ≠ "error") := ⟨hh, hv, he, ho⟩
    unfold sync_status_row
    rw [if_pos hs, if_neg hth', if_pos (show r.hit ≥ 8 ∧ r.vio = 0 ∧ r.err = 0 ∧ r.origin ≠ "error" from hlow)]
    exact ⟨rfl, rfl⟩

/-- Witness for C4 at a concrete row meeting both skip thresholds. -/
theorem c4_status_transitions_witness :
    (sync_status_row ⟨"R-009", "all", "s", "t", "error", 0, 0, 0, 5, 8, "d", "active", 0⟩).1
      = { (⟨"R-009", "all", "s", "t", "error", 0, 0, 0, 5, 8, "d", "active", 0⟩ : Row) with
          status := "review" }
    ∧ (sync_status_row ⟨"R-009", "all", "s", "t", "error", 0, 0, 0, 5, 8, "d", "active", 0⟩).2.1
      = some "R-009(skip)" := by
  have h := (c4_status_transitions
    ⟨"R-009", "all", "s", "t", "error", 0, 0, 0, 5, 8, "d", "active", 0⟩).2.1
    rfl (Or.inl (by decide))
  exact ⟨h.1, (h.2 (by decide)).trans (by decide)⟩

/-- Counterexample to C7 as stated — the unknown platform string `Foo`
is not passed through verbatim: canonicalization lowercases it. -/
theorem c7_verbatim_counterexample :
    assocLookup PLATFORM_ALIASES (pyLower (pyStrip "Foo")) = none
    ∧ canonical_platform "Foo" = "foo"
    ∧ canonical_platform "Foo" ≠ "Foo" := by
  refine ⟨by decide, by decide, by decide⟩

/-- Claim C7 (amended) — Platform canonicalization maps any
case/whitespace variant of an alias to its canonical value (`"Agent"` to
`codex`, `"通用"` to `all`, the empty string to `all`; canonicalization
only depends on the stripped lowercased form), and passes every unknown
string through stripped and lowercased rather than verbatim. -/
theorem c7_canonicalization :
    canonical_platform "Agent" = "codex"
    ∧ canonical_platform "通用" = "all"
    ∧ canonical_platform "" = "all"
    ∧ (∀ s : String, canonical_platform (pyLower (pyStrip s)) = canonical_platform s)
    ∧ (∀ s : String, pyLower (pyStrip s) ≠ "" →
        assocLookup PLATFORM_ALIASES (pyLower (pyStrip s)) = none →
        canonical_platform s = pyLower (pyStrip s)) := by
  refine ⟨by decide, by decide, by decide, fun s => ?_, fun s h0 hl => ?_⟩
  · have hfix : pyLower (pyStrip (pyLower (pyStrip s))) = pyLower (pyStrip s) := by
      rw [pyStrip_pyLower, pyStrip_pyStrip, pyLower_pyLower]
    unfold canonical_platform
    rw [hfix]
  · unfold canonical_platform
    rw [if_neg h0, hl]

/-- Witness for C7 at the concrete unknown input `Foo`. -/
theorem c7_canonicalization_witness :
    canonical_platform "Foo" = pyLower (pyStrip "Foo") := by
  exact c7_canonicalization.2.2.2.2 "Foo" (by decide) (by decide)

/-- Folding the scored actions adds one per occurrence to each counter
and touches nothing else. -/
theorem foldl_score_action_step (actions : List String) (r : Row) :
    actions.foldl score_action_step r
      = { r with hit := r.hit + (actions.count "hit" : Int),
                 vio := r.vio + (actions.count "vio" : Int),
                 err := r.err + (actions.count "err" : Int),
                 skip := r.skip + (actions.count "skip" : Int) } := by
  induction actions generalizing r with
  | nil => simp
  | cons a t ih =>
    rw [List.foldl_cons, ih]
    by_cases h1 : a = "hit"
    · subst h1
      ext <;> simp [score_action_step, List.count_cons] <;> omega
    · by_cases h2 : a = "vio"
      · subst h2
        ext <;> simp [score_action_step, List.count_cons] <;> omega
      · by_cases h3 : a = "err"
        · subst h3
          ext <;> simp [score_action_step, List.count_cons] <;> omega
        · by_cases h4 : a = "skip"
          · subst h4
            ext <;> simp [score_action_step, List.count_cons] <;> omega
          · ext <;>
              simp [score_action_step, h1, h2, h3, h4, List.count_cons,
                bne_iff_ne, Ne.symm] <;> omega

/-- Field-level description of `scoreActionsApply`. -/
theorem scoreActionsApply_spec (r : Row) (actions : List String) (today : String) :
    scoreActionsApply r actions today
      = { r with hit := r.hit + (actions.count "hit" : Int),
                 vio := r.vio + (actions.count "vio" : Int),
                 err := r.err + (actions.count "err" : Int),
                 skip := r.skip + (actions.count "skip" : Int),
                 last_reviewed := today,
                 auto_skip := 0 } := by
  unfold scoreActionsApply
  rw [foldl_score_action_step]

/-- With unique rule ids, membership in the `matched_ids` set coincides
with the row-level filter predicate. -/
theorem matchedIds_iff {rows : List Row} {r : Row}
    (hnodup : (rows.map Row.rule_id).Nodup) (hr : r ∈ rows)
    (sk : List String) (pf : Option String) :
    ((rows.filter (scoreFilterHit sk pf)).map (fun r => r.rule_id)).contains r.rule_id
      = scoreFilterHit sk pf r := by
  have hiff : ((rows.filter (scoreFilterHit sk pf)).map
      (fun r => r.rule_id)).contains r.rule_id = true
      ↔ r.rule_id ∈ (rows.filter (scoreFilterHit sk pf)).map (fun r => r.rule_id) :=
    List.elem_iff
  by_cases h : scoreFilterHit sk pf r = true
  · rw [h]
    have hrf : r ∈ rows.filter (scoreFilterHit sk pf) := List.mem_filter.mpr ⟨hr, h⟩
    exact hiff.mpr (List.mem_map_of_mem _ hrf)
  · rw [Bool.not_eq_true] at h
    rw [h]
    rw [Bool.eq_false_iff]
    intro hc
    obtain ⟨x, hxf, hxid⟩ := List.mem_map.mp (hiff.mp hc)
    obtain ⟨hxrows, hxhit⟩ := List.mem_filter.mp hxf
    have hxr : x = r := List.inj_on_of_nodup_map hnodup hxrows hr hxid
    rw [hxr] at hxhit
    rw [hxhit] at h
    exact Bool.true_eq_false.mp h

/-- Claim C5 — In a score invocation over a table with unique rule ids:
each row whose rule id appears in the parsed scoring string has every
listed action counter incremented by one per occurrence, its
`last_reviewed` set to today and its `auto_skip` reset to zero (other
fields untouched); each row matched by the active scope/platform filter
but not explicitly scored gets `auto_skip` incremented by one exactly
when its status is `active`; every other row is unchanged. -/
theorem c5_score_effects (scores : List (String × List String)) (sk : List String)
    (pf : Option String) (today : String) (rows : List Row)
    (hnodup : (rows.map Row.rule_id).Nodup) :
    (cmd_score_rows scores sk pf today rows).length = rows.length
    ∧ ∀ i (hi : i < rows.length),
        (∀ actions, dictLookup scores (rows[i]).rule_id = some actions →
          (cmd_score_rows scores sk pf today rows).get ⟨i, by
              simpa [cmd_score_rows] using hi⟩
            = { rows[i] with
                hit := (rows[i]).hit + (actions.count "hit" : Int),
                vio := (rows[i]).vio + (actions.count "vio" : Int),
                err := (rows[i]).err + (actions.count "err" : Int),
                skip := (rows[i]).skip + (actions.count "skip" : Int),
                last_reviewed := today,
                auto_skip := 0 })
        ∧ (dictLookup scores (rows[i]).rule_id = none →
            (((sk ≠ [] ∨ pf ≠ none) ∧ scoreFilterHit sk pf (rows[i]) = true) →
              ((rows[i]).status = "active" →
                (cmd_score_rows scores sk pf today rows).get ⟨i, by
                    simpa [cmd_score_rows] using hi⟩
                  = { rows[i] with auto_skip := (rows[i]).auto_skip + 1,
                                   last_reviewed := today })
              ∧ ((rows[i]).status ≠ "active" →
                (cmd_score_rows scores sk pf today rows).get ⟨i, by
                    simpa [cmd_score_rows] using hi⟩
                  = rows[i]))
            ∧ (¬ ((sk ≠ [] ∨ pf ≠ none) ∧ scoreFilterHit sk pf (rows[i]) = true) →
              (cmd_score_rows scores sk pf today rows).get ⟨i, by
                  simpa [cmd_score_rows] using hi⟩
                = rows[i])) := by
  have hlen : (cmd_score_rows scores sk pf today rows).length = rows.length := by
    simp [cmd_score_rows]
  refine ⟨hlen, fun i hi => ?_⟩
  have hmem : rows[i] ∈ rows := List.getElem_mem hi
  have hget : (cmd_score_rows scores sk pf today rows).get ⟨i, by simpa [cmd_score_rows] using hi⟩
      = (fun r =>
        match dictLookup scores r.rule_id with
        | some actions => scoreActionsApply r actions today
        | none =>
          if (sk ≠ [] ∨ pf ≠ none) ∧
              ((if sk ≠ [] ∨ pf ≠ none then
                  (rows.filter (scoreFilterHit sk pf)).map (fun r => r.rule_id)
                else []).contains r.rule_id) then
            if r.status = "active" then
              { r with auto_skip := r.auto_skip + 1, last_reviewed := today }
            else r
          else r) (rows[i]) := by
    simp [cmd_score_rows]
  rw [hget]
  refine ⟨fun actions hact => ?_, fun hnone => ⟨fun hmatch => ?_, fun hnmatch => ?_⟩⟩
  · simp only [hact]
    exact scoreActionsApply_spec _ _ _
  · obtain ⟨hactive, hhit⟩ := hmatch
    have hcontains := matchedIds_iff hnodup hmem sk pf
    constructor
    · intro hstat
      simp only [hnone]
      rw [if_pos ⟨hactive, by rw [if_pos hactive, hcontains]; exact hhit⟩, if_pos hstat]
    · intro hstat
      simp only [hnone]
      rw [if_pos ⟨hactive, by rw [if_pos hactive, hcontains]; exact hhit⟩, if_neg hstat]
  · simp only [hnone]
    rw [if_neg ?_]
    intro ⟨hactive, hc⟩
    rw [if_pos hactive, matchedIds_iff hnodup hmem sk pf] at hc
    exact hnmatch ⟨hactive, hc⟩

/-- Witness for C5: the scenario scoring string
`R-001:+hit R-002:+vio+err` increments `hit` on R-001, `vio` and `err` on
R-002, stamps both and resets their `auto_skip`. -/
theorem c5_score_effects_witness :
    (cmd_score_rows (parse_score_string "R-001:+hit R-002:+vio+err") [] none "2026-02-03"
        [⟨"R-001", "all", "a", "", "error", 1, 2, 0, 0, 3, "d", "active", 0⟩,
         ⟨"R-002", "all", "b", "", "error", 0, 1, 1, 0, 4, "d", "active", 0⟩])
      = [⟨"R-001", "all", "a", "", "error", 2, 2, 0, 0, 0, "2026-02-03", "active", 0⟩,
         ⟨"R-002", "all", "b", "", "error", 0, 2, 2, 0, 0, "2026-02-03", "active", 0⟩] := by
  have h := c5_score_effects (parse_score_string "R-001:+hit R-002:+vio+err") [] none "2026-02-03"
    [⟨"R-001", "all", "a", "", "error", 1, 2, 0, 0, 3, "d", "active", 0⟩,
     ⟨"R-002", "all", "b", "", "error", 0, 1, 1, 0, 4, "d", "active", 0⟩]
    (by decide)
  have h0 := ((h.2 0 (by decide)).1 ["hit"] (by decide))
  have h1 := ((h.2 1 (by decide)).1 ["vio", "err"] (by decide))
  have hlen := h.1
  apply List.ext_getElem
  · simpa using hlen
  · intro i hi1 hi2
    have hi : i < 2 := by simpa using hi2
    interval_cases i
    · exact h0.trans rfl
    · exact h1.trans rfl

/-- The legacy-platform fix only rewrites the platform field. -/
theorem legacy_fix_counters (b : Row) :
    (legacy_fix b).hit = b.hit ∧ (legacy_fix b).vio = b.vio
    ∧ (legacy_fix b).err = b.err ∧ (legacy_fix b).skip = b.skip
    ∧ (legacy_fix b).auto_skip = b.auto_skip ∧ (legacy_fix b).evolve_slot = b.evolve_slot := by
  unfold legacy_fix
  split <;> simp

/-- The table-level health read fails exactly when one row fails. -/
theorem health_read_audit_eq_none_iff (l : List RawRow) :
    health_read_audit l = none ↔ ∃ r ∈ l, health_read_audit_row r = none := by
  induction l with
  | nil => simp [health_read_audit]
  | cons a t ih =>
    show (match health_read_audit_row a, health_read_audit t with
      | some row, some rest => some (row :: rest)
      | _, _ => none) = none ↔ _
    cases hf : health_read_audit_row a with
    | none => simp [hf]
    | some v =>
      cases hm : health_read_audit t with
      | none => simp [hf, hm, ← ih]
      | some vs => simp [hf, hm, ← ih]

/-- The health checker's row reader fails exactly when one of its five
counter columns fails the bare `int()` conversion. -/
theorem health_read_audit_row_none (r : RawRow) :
    health_read_audit_row r = none
      ↔ (healthInt r.hit = none ∨ healthInt r.vio = none ∨ healthInt r.err = none
          ∨ healthInt r.skip = none ∨ healthInt r.auto_skip = none) := by
  unfold health_read_audit_row
  rcases hh : healthInt r.hit with _ | a
  · simp [hh, Option.bind]
  · rcases hv : healthInt r.vio with _ | b
    · simp [hh, hv, Option.bind]
    · rcases he : healthInt r.err with _ | c
      · simp [hh, hv, he, Option.bind]
      · rcases hs : healthInt r.skip with _ | d
        · simp [hh, hv, he, hs, Option.bind]
        · rcases ha : healthInt r.auto_skip with _ | e
          · simp [hh, hv, he, hs, ha, Option.bind]
          · simp [hh, hv, he, hs, ha, Option.bind, pure]

/-- Counterexample to C9 as stated: on a table whose `hit` column holds
the non-numeric string `x`, the sync tool's reader coerces the counter
to `0`, but the health checker's reader — a bare `int()` with no
`try/except` — fails on the same table instead of coercing, so not every
component that reads the table coerces malformed counters to zero. -/
theorem c9_health_reader_counterexample :
    read_audit [⟨some "R-001", some "all", some "a", some "t", some "error",
        some "x", some "0", some "0", some "0", some "0", some "2025-01-01",
        some "active", some "0"⟩]
      = [⟨"R-001", "all", "a", "t", "error", 0, 0, 0, 0, 0, "2025-01-01", "active", 0⟩]
    ∧ health_read_audit [⟨some "R-001", some "all", some "a", some "t", some "error",
        some "x", some "0", some "0", some "0", some "0", some "2025-01-01",
        some "active", some "0"⟩] = none := by
  constructor <;> decide

/-- Claim C9 (amended) — the sync tool's reader never fails: it returns
one record per input row and coerces any counter column rejected by
`int()` to `0` (including `evolve_slot`); the health checker's reader
instead fails precisely when one of its five counter columns (`hit`,
`vio`, `err`, `skip`, `auto_skip` — not `evolve_slot`) is present and
unparsable. -/
theorem c9_numeric_coercion (x : List RawRow) :
    ((read_audit x).length = x.length
      ∧ ∀ r ∈ x, ∀ s : String, pyInt s = none →
          (r.hit = some s → (read_audit_row r).hit = 0)
          ∧ (r.vio = some s → (read_audit_row r).vio = 0)
          ∧ (r.err = some s → (read_audit_row r).err = 0)
          ∧ (r.skip = some s → (read_audit_row r).skip = 0)
          ∧ (r.auto_skip = some s → (read_audit_row r).auto_skip = 0)
          ∧ (r.evolve_slot = some s → (read_audit_row r).evolve_slot = 0))
    ∧ (health_read_audit x = none ↔ ∃ r ∈ x,
        healthInt r.hit = none ∨ healthInt r.vio = none ∨ healthInt r.err = none
          ∨ healthInt r.skip = none ∨ healthInt r.auto_skip = none) := by
  refine ⟨⟨by simp [read_audit], fun r hr s hs => ?_⟩, ?_⟩
  · have hc := legacy_fix_counters (read_row_base r)
    refine ⟨fun he => ?_, fun he => ?_, fun he => ?_, fun he => ?_, fun he => ?_, fun he => ?_⟩
    · rw [read_audit_row, hc.1]
      show intOr0 r.hit = 0
      rw [he]
      show (pyInt s).getD 0 = 0
      rw [hs]
      rfl
    · rw [read_audit_row, hc.2.1]
      show intOr0 r.vio = 0
      rw [he]
      show (pyInt s).getD 0 = 0
      rw [hs]
      rfl
    · rw [read_audit_row, hc.2.2.1]
      show intOr0 r.err = 0
      rw [he]
      show (pyInt s).getD 0 = 0
      rw [hs]
      rfl
    · rw [read_audit_row, hc.2.2.2.1]
      show intOr0 r.skip = 0
      rw [he]
      show (pyInt s).getD 0 = 0
      rw [hs]
      rfl
    · rw [read_audit_row, hc.2.2.2.2.1]
      show intOr0 r.auto_skip = 0
      rw [he]
      show (pyInt s).getD 0 = 0
      rw [hs]
      rfl
    · rw [read_audit_row, hc.2.2.2.2.2]
      show intOr0 r.evolve_slot = 0
      rw [he]
      show (pyInt s).getD 0 = 0
      rw [hs]
      rfl
  · rw [health_read_audit_eq_none_iff]
    constructor
    · rintro ⟨r, hr, hnone⟩
      exact ⟨r, hr, (health_read_audit_row_none r).mp hnone⟩
    · rintro ⟨r, hr, hor⟩
      exact ⟨r, hr, (health_read_audit_row_none r).mpr hor⟩

/-- Witness for the amended C9: on the row whose `hit` column holds
`x`, the sync reader yields counter `0`, and the health reader fails. -/
theorem c9_numeric_coercion_witness :
    (read_audit_row ⟨some "R-001", some "all", some "a", some "t", some "error",
        some "x", some "0", some "0", some "0", some "0", some "2025-01-01",
        some "active", some "0"⟩).hit = 0
    ∧ health_read_audit [⟨some "R-001", some "all", some "a", some "t", some "error",
        some "x", some "0", some "0", some "0", some "0", some "2025-01-01",
        some "active", some "0"⟩] = none := by
  have h := c9_numeric_coercion [⟨some "R-001", some "all", some "a", some "t", some "error",
    some "x", some "0", some "0", some "0", some "0", some "2025-01-01",
    some "active", some "0"⟩]
  refine ⟨(h.1.2 _ (List.mem_singleton.mpr rfl) "x" (by decide)).1 rfl, ?_⟩
  exact h.2.mpr ⟨_, List.mem_singleton.mpr rfl, Or.inl (by decide)⟩

/-- Counterexample to C6 as stated: with eleven `err > vio` rows, both
FAIL findings are reported but their detail lists are cut to the first
ten offenders, so the eleventh offending row `R-011` is not listed by
either check (no detail line mentions it at all). -/
theorem c6_truncation_counterexample :
    (∃ chk ∈ check_data_integrity true REQUIRED_FIELDS c6Rows,
        chk.name = "err <= vio" ∧ chk.level = "FAIL")
    ∧ (∃ chk ∈ check_anti_corruption c6Rows "",
        chk.name = "Data Corruption" ∧ chk.level = "FAIL")
    ∧ (∃ r ∈ c6Rows, r.rule_id = "R-011" ∧ r.vio < r.err)
    ∧ (∀ chk ∈ check_data_integrity true REQUIRED_FIELDS c6Rows,
        ∀ d ∈ chk.details, strContains d "R-011" = false)
    ∧ (∀ chk ∈ check_anti_corruption c6Rows "",
        ∀ d ∈ chk.details, strContains d "R-011" = false) := by
  decide

/-- Claim C6 (amended) — for every table containing a row with
`err > vio`, the data-integrity dimension reports an `err <= vio` FAIL
and the anti-corruption dimension reports a `Data Corruption` FAIL; the
detail list of each finding holds the formatted entries of the first ten
offending rows only, so the offending row itself is guaranteed to be
listed only when the table has at most ten offenders. -/
theorem c6_err_gt_vio_fail (headers : List String) (evolveContent : String)
    (rows : List Row) (r : Row) (hr : r ∈ rows) (hbad : r.vio < r.err) :
    (mkCheck "err <= vio" "FAIL" "err is a subset of vio and must not exceed vio"
        (((rows.filter (fun q => decide (q.vio < q.err))).map errVioDetail).take 10)
      ∈ check_data_integrity true headers rows)
    ∧ (mkCheck "Data Corruption" "FAIL"
        (natToStr ((rows.filter (fun q => decide (q.vio < q.err))).map corruptionDetail).length
          ++ " rows have err > vio (logical inconsistency)")
        (((rows.filter (fun q => decide (q.vio < q.err))).map corruptionDetail).take 10)
      ∈ check_anti_corruption rows evolveContent)
    ∧ ((rows.filter (fun q => decide (q.vio < q.err))).length ≤ 10 →
        errVioDetail r
            ∈ ((rows.filter (fun q => decide (q.vio < q.err))).map errVioDetail).take 10
        ∧ corruptionDetail r
            ∈ ((rows.filter (fun q => decide (q.vio < q.err))).map corruptionDetail).take 10) := by
  have hq : (fun q => decide (q.vio < q.err)) r = true := by simpa using hbad
  have hmem : r ∈ rows.filter (fun q => decide (q.vio < q.err)) :=
    List.mem_filter.mpr ⟨hr, hq⟩
  have hneE : ¬ ((rows.filter (fun q => decide (q.vio < q.err))).map errVioDetail).isEmpty = true := by
    rw [List.isEmpty_iff]
    intro he
    have hin := List.mem_map_of_mem errVioDetail hmem
    rw [he] at hin
    exact absurd hin (List.not_mem_nil _)
  have hneC : ¬ ((rows.filter (fun q => decide (q.vio < q.err))).map corruptionDetail).isEmpty = true := by
    rw [List.isEmpty_iff]
    intro he
    have hin := List.mem_map_of_mem corruptionDetail hmem
    rw [he] at hin
    exact absurd hin (List.not_mem_nil _)
  have hrows : ¬ rows.isEmpty = true := by
    cases rows with
    | nil => cases hr
    | cons a t => simp
  refine ⟨?_, ?_, fun hlen => ?_⟩
  · unfold check_data_integrity
    rw [if_neg (by decide), if_neg hrows]
    simp only [List.mem_append, List.mem_singleton]
    refine Or.inl (Or.inl (Or.inr ?_))
    rw [if_pos hneE]
    exact List.mem_singleton.mpr rfl
  · unfold check_anti_corruption
    simp only [List.mem_append, List.mem_singleton]
    refine Or.inl (Or.inl (Or.inr ?_))
    rw [if_pos hneC]
    exact List.mem_singleton.mpr rfl
  · constructor
    · rw [List.take_of_length_le (by simpa using hlen)]
      exact List.mem_map_of_mem errVioDetail hmem
    · rw [List.take_of_length_le (by simpa using hlen)]
      exact List.mem_map_of_mem corruptionDetail hmem

/-- Witness for the amended C6: a single-row table with `err = 2 > vio
= 1` produces both FAIL findings listing that row. -/
theorem c6_err_gt_vio_fail_witness :
    (mkCheck "err <= vio" "FAIL" "err is a subset of vio and must not exceed vio"
        ["R-001(err:2 > vio:1)"]
      ∈ check_data_integrity true REQUIRED_FIELDS
        [⟨"R-001", "all", "a", "t", "error", 0, 1, 2, 0, 0, "2025-01-01", "active", 0⟩])
    ∧ (mkCheck "Data Corruption" "FAIL" "1 rows have err > vio (logical inconsistency)"
        ["R-001(err:2 vio:1)"]
      ∈ check_anti_corruption
        [⟨"R-001", "all", "a", "t", "error", 0, 1, 2, 0, 0, "2025-01-01", "active", 0⟩] "")
    ∧ "R-001(err:2 > vio:1)" ∈ ["R-001(err:2 > vio:1)"]
    ∧ "R-001(err:2 vio:1)" ∈ ["R-001(err:2 vio:1)"] := by
  have h := c6_err_gt_vio_fail REQUIRED_FIELDS ""
    [⟨"R-001", "all", "a", "t", "error", 0, 1, 2, 0, 0, "2025-01-01", "active", 0⟩]
    ⟨"R-001", "all", "a", "t", "error", 0, 1, 2, 0, 0, "2025-01-01", "active", 0⟩
    (List.mem_singleton.mpr rfl) (by decide)
  exact ⟨h.1, h.2.1, (h.2.2 (by decide)).1, (h.2.2 (by decide)).2⟩

/-- A list is a prefix of itself followed by anything. -/
theorem startsWithSeq_append_self (m y : List Char) : startsWithSeq m (m ++ y) = true := by
  induction m with
  | nil => rfl
  | cons a t ih => simp [startsWithSeq, ih]

/-- The substring scan finds an embedded occurrence. -/
theorem containsSeq_append_self (x m y : List Char) : containsSeq m (x ++ m ++ y) = true := by
  induction x with
  | nil =>
    show containsSeq m (m ++ y) = true
    unfold containsSeq
    rw [startsWithSeq_append_self]
    simp
  | cons a t ih =>
    show containsSeq m (a :: (t ++ m ++ y)) = true
    unfold containsSeq
    show (startsWithSeq m (a :: (t ++ m ++ y)) || containsSeq m (t ++ m ++ y)) = true
    rw [ih]
    simp

/-- Counterexample to C8 as stated: the row `hit = 3, vio = 5, err = 3`
qualifies for all three predicate sets and is not referenced in the
TL;DR section, yet the update prepends only the frequent-violation line —
the high-risk and hard-to-follow loops see the marker inserted by the
first loop and add nothing, so the rule receives one line, not three. -/
theorem c8_three_predicates_counterexample :
    tldrEmphQualifies ⟨"R-001", "all", "a", "t", "error", 3, 5, 3, 0, 0,
        "2025-01-01", "active", 0⟩ = true
    ∧ tldrCriticalQualifies ⟨"R-001", "all", "a", "t", "error", 3, 5, 3, 0, 0,
        "2025-01-01", "active", 0⟩ = true
    ∧ tldrHardQualifies ⟨"R-001", "all", "a", "t", "error", 3, 5, 3, 0, 0,
        "2025-01-01", "active", 0⟩ = true
    ∧ strContains "## TL;DR\nx\n" "[R-001]" = false
    ∧ strContains (update_tldr_section "## TL;DR\nx\n"
        [⟨"R-001", "all", "a", "t", "error", 3, 5, 3, 0, 0,
          "2025-01-01", "active", 0⟩]) "高频违反" = true
    ∧ strContains (update_tldr_section "## TL;DR\nx\n"
        [⟨"R-001", "all", "a", "t", "error", 3, 5, 3, 0, 0,
          "2025-01-01", "active", 0⟩]) "高危" = false
    ∧ strContains (update_tldr_section "## TL;DR\nx\n"
        [⟨"R-001", "all", "a", "t", "error", 3, 5, 3, 0, 0,
          "2025-01-01", "active", 0⟩]) "需重写" = false := by
  decide

/-- Claim C8 (amended) — the TL;DR update evaluates the three predicate
sets over active/protected rows, but the `[rule_id]` presence test runs
against the section text as already mutated by the earlier loops: for a
row qualifying under all three predicates whose id is absent from the
section, exactly the frequent-violation line is prepended (the high-risk
and hard-to-follow loops are blocked by the marker just inserted), with
the rest of the document preserved. -/
theorem c8_tldr_single_line (content : String) (r : Row) (s e : Nat)
    (hb : sectionBounds "## TL;DR" "TL;DR" content = some (s, e))
    (hstatus : r.status = "active")
    (hq1 : tldrEmphQualifies r = true) (hq2 : tldrCriticalQualifies r = true)
    (hq3 : tldrHardQualifies r = true)
    (hmark : containsSeq (tldrMarker r).data
        ((content.data.drop s).take (e - s)) = false) :
    update_tldr_section content [r]
      = ⟨content.data.take s ++ (tldrEmphLine r).data
          ++ (content.data.drop s).take (e - s) ++ content.data.drop e⟩ := by
  have hemph : (tldrEmphLine r).data
      = ("- ⚠️ **高频违反** ").data
        ++ ((tldrMarker r).data
          ++ (" [" ++ r.scope ++ "]：遵守率 "
              ++ formatPct0 ((compliance_rate r).getD 0) ++ "，请重点关注\n").data) := by
    simp [tldrEmphLine, String.data_append, List.append_assoc]
  have hcontains : ∀ tl : List Char,
      containsSeq (tldrMarker r).data ((tldrEmphLine r).data ++ tl) = true := by
    intro tl
    rw [hemph, List.append_assoc]
    rw [show ((tldrMarker r).data
        ++ (" [" ++ r.scope ++ "]：遵守率 "
            ++ formatPct0 ((compliance_rate r).getD 0) ++ "，请重点关注\n").data) ++ tl
      = (tldrMarker r).data
        ++ ((" [" ++ r.scope ++ "]：遵守率 "
            ++ formatPct0 ((compliance_rate r).getD 0) ++ "，请重点关注\n").data ++ tl)
      from List.append_assoc _ _ _]
    rw [← List.append_assoc]
    exact containsSeq_append_self _ _ _
  unfold update_tldr_section
  rw [hb]
  show (let tldr0 := (content.data.drop s).take (e - s)
    let eligible := [r].filter (fun q => q.status == "active" || q.status == "protected")
    let emphasize := eligible.filter tldrEmphQualifies
    let critical := eligible.filter tldrCriticalQualifies
    let hard := eligible.filter tldrHardQualifies
    let st1 := emphasize.foldl (tldrPrependStep tldrEmphLine) (tldr0, false)
    let st2 := critical.foldl (tldrPrependStep tldrCriticalLine) st1
    let st3 := hard.foldl (tldrPrependStep tldrHardLine) st2
    if st3.2 then (⟨content.data.take s ++ st3.1 ++ content.data.drop e⟩ : String)
    else content) = _
  have hstat : (r.status == "active" || r.status == "protected") = true := by
    rw [hstatus]
    rfl
  simp only [List.filter, hstat, hq1, hq2, hq3, List.foldl]
  rw [show tldrPrependStep tldrEmphLine ((content.data.drop s).take (e - s), false) r
      = ((tldrEmphLine r).data ++ (content.data.drop s).take (e - s), true) by
    unfold tldrPrependStep
    rw [if_neg (by rw [hmark]; exact Bool.false_ne_true)]]
  rw [show tldrPrependStep tldrCriticalLine
        ((tldrEmphLine r).data ++ (content.data.drop s).take (e - s), true) r
      = ((tldrEmphLine r).data ++ (content.data.drop s).take (e - s), true) by
    unfold tldrPrependStep
    rw [if_pos (hcontains _)]]
  rw [show tldrPrependStep tldrHardLine
        ((tldrEmphLine r).data ++ (content.data.drop s).take (e - s), true) r
      = ((tldrEmphLine r).data ++ (content.data.drop s).take (e - s), true) by
    unfold tldrPrependStep
    rw [if_pos (hcontains _)]]
  show (if true then (⟨content.data.take s
      ++ ((tldrEmphLine r).data ++ (content.data.drop s).take (e - s))
      ++ content.data.drop e⟩ : String) else content) = _
  rw [if_pos rfl]
  apply congrArg
  simp [List.append_assoc]

/-- Witness for the amended C8: the all-three-predicates row over the
minimal TL;DR document gains exactly the frequent-violation line. -/
theorem c8_tldr_single_line_witness :
    update_tldr_section "## TL;DR\nx\n"
        [⟨"R-001", "all", "a", "t", "error", 3, 5, 3, 0, 0,
          "2025-01-01", "active", 0⟩]
      = "## TL;DR\n- ⚠️ **高频违反** [R-001] [a]：遵守率 38%，请重点关注\nx\n" := by
  have h := c8_tldr_single_line "## TL;DR\nx\n"
    ⟨"R-001", "all", "a", "t", "error", 3, 5, 3, 0, 0, "2025-01-01", "active", 0⟩
    9 11 (by decide) rfl (by decide) (by decide) (by decide) (by decide)
  exact h.trans (by decide)

/-- Lookup through the in-place key replacement of `dictUpsert`. -/
theorem dictLookup_map_replace {α : Type} (k k' : String) (v : α) (m : List (String × α)) :
    dictLookup (m.map (fun p => if p.1 == k then (k, v) else p)) k'
      = if k' = k then (if m.any (fun p => p.1 == k) then some v else none)
        else dictLookup m k' := by
  induction m with
  | nil =>
    show (none : Option α) = if k' = k then (if false = true then some v else none) else none
    by_cases h : k' = k
    · rw [if_pos h, if_neg (by decide)]
    · rw [if_neg h]
  | cons p rest ih =>
    obtain ⟨a, b⟩ := p
    by_cases hak : a = k
    · subst hak
      show dictLookup ((if (a == a) = true then (a, v) else (a, b)) :: rest.map _) k' = _
      rw [if_pos (by simp)]
      show (if a = k' then some v else dictLookup (rest.map _) k') = _
      by_cases hk : k' = a
      · rw [if_pos hk.symm, if_pos hk, if_pos (by simp [List.any_cons])]
      · rw [if_neg (fun h => hk h.symm), ih, if_neg hk, if_neg hk]
        show dictLookup rest k' = (if a = k' then some b else dictLookup rest k')
        rw [if_neg (fun h => hk h.symm)]
    · show dictLookup ((if (a == k) = true then (k, v) else (a, b)) :: rest.map _) k' = _
      rw [if_neg (by simpa using hak)]
      show (if a = k' then some b else dictLookup (rest.map _) k') = _
      by_cases hk : k' = k
      · have hak' : ¬ a = k' := fun h => hak (h.trans hk)
        rw [if_neg hak', ih, if_pos hk, if_pos hk]
        show (if rest.any _ = true then some v else none) = _
        rw [show ((a, b) :: rest).any (fun p => p.1 == k) = rest.any (fun p => p.1 == k) by
          simp [List.any_cons, hak]]
      · by_cases hak' : a = k'
        · rw [if_pos hak', if_neg hk]
          have hd : dictLookup ((a, b) :: rest) k' = some b := by
            show (if a = k' then some b else dictLookup rest k') = some b
            rw [if_pos hak']
          rw [hd]
        · rw [if_neg hak', ih, if_neg hk, if_neg hk]
          have hd : dictLookup ((a, b) :: rest) k' = dictLookup rest k' := by
            show (if a = k' then some b else dictLookup rest k') = dictLookup rest k'
            rw [if_neg hak']
          rw [hd]

/-- Lookup distributes over list append, first list first. -/
theorem dictLookup_append {α : Type} (k : String) (m l2 : List (String × α)) :
    dictLookup (m ++ l2) k
      = match dictLookup m k with
        | some v => some v
        | none => dictLookup l2 k := by
  induction m with
  | nil => rfl
  | cons p rest ih =>
    obtain ⟨a, b⟩ := p
    show (if a = k then some b else dictLookup (rest ++ l2) k) = _
    by_cases hak : a = k
    · rw [if_pos hak]
      have hd : dictLookup ((a, b) :: rest) k = some b := by
        show (if a = k then some b else dictLookup rest k) = some b
        rw [if_pos hak]
      rw [hd]
    · rw [if_neg hak, ih]
      have hd : dictLookup ((a, b) :: rest) k = dictLookup rest k := by
        show (if a = k then some b else dictLookup rest k) = dictLookup rest k
        rw [if_neg hak]
      rw [hd]

/-- A key not present in a map looks up to `none`. -/
theorem dictLookup_eq_none_of_not_any {α : Type} {k : String} {m : List (String × α)}
    (h : m.any (fun p => p.1 == k) = false) : dictLookup m k = none := by
  induction m with
  | nil => rfl
  | cons p rest ih =>
    obtain ⟨a, b⟩ := p
    rw [List.any_cons] at h
    have ⟨h1, h2⟩ := Bool.or_eq_false_iff.mp h
    show (if a = k then some b else dictLookup rest k) = none
    rw [if_neg (by simpa using h1)]
    exact ih h2

/-- Python `dict` assignment then lookup: the assigned key reads the new
value, every other key is untouched. -/
theorem dictLookup_dictUpsert {α : Type} (m : List (String × α)) (k k' : String) (v : α) :
    dictLookup (dictUpsert m k v) k' = if k' = k then some v else dictLookup m k' := by
  unfold dictUpsert
  by_cases hany : m.any (fun p => p.1 == k) = true
  · rw [if_pos hany, dictLookup_map_replace, hany]
    by_cases hk : k' = k
    · rw [if_pos hk, if_pos hk]
      show (if true = true then some v else none) = some v
      rw [if_pos rfl]
    · rw [if_neg hk, if_neg hk]
  · rw [if_neg hany, dictLookup_append]
    rw [Bool.not_eq_true] at hany
    by_cases hk : k' = k
    · subst hk
      rw [dictLookup_eq_none_of_not_any hany]
      show dictLookup [(k', v)] k' = if k' = k' then some v else none
      rw [if_pos rfl]
      show (if k' = k' then some v else none) = some v
      rw [if_pos rfl]
    · rw [if_neg hk]
      cases hm : dictLookup m k' with
      | some w => rfl
      | none =>
        show dictLookup [(k, v)] k' = none
        show (if k = k' then some v else none) = none
        rw [if_neg (fun h => hk h.symm)]

/-- Slot map built by `cmd_select`: under unique picked rule ids, a rule
id reads back the one-based position of the number that picked it. -/
theorem slotMap_lookup (sg : List Suggestion) (rid : String) :
    ∀ (ns : List Nat) (start : Nat) (m0 : List (String × Nat)),
      (ns.map (fun n => (sg.getD (n - 1) dummySuggestion).rule_id)).Nodup →
      dictLookup ((numberFrom start ns).foldl (fun m pr =>
          dictUpsert m (sg.getD (pr.2 - 1) dummySuggestion).rule_id pr.1) m0) rid
        = match (List.range ns.length).find?
            (fun i => (sg.getD (ns.getD i 0 - 1) dummySuggestion).rule_id == rid) with
          | some i => some (start + i)
          | none => dictLookup m0 rid := by
  intro ns
  induction ns with
  | nil => intro start m0 hnd; rfl
  | cons n rest ih =>
    intro start m0 hnd
    rw [List.map_cons, List.nodup_cons] at hnd
    obtain ⟨hnotin, hnd'⟩ := hnd
    show dictLookup ((numberFrom (start + 1) rest).foldl _
        (dictUpsert m0 (sg.getD (n - 1) dummySuggestion).rule_id start)) rid = _
    rw [ih (start + 1) _ hnd']
    rw [List.length_cons]
    rw [show List.range (rest.length + 1) = 0 :: (List.range rest.length).map Nat.succ from
      List.range_succ_eq_map rest.length]
    by_cases hp : ((sg.getD (n - 1) dummySuggestion).rule_id == rid) = true
    · have hrid : (sg.getD (n - 1) dummySuggestion).rule_id = rid := by simpa using hp
      have hnone : (List.range rest.length).find?
          (fun i => (sg.getD (rest.getD i 0 - 1) dummySuggestion).rule_id == rid) = none := by
        rw [List.find?_eq_none]
        intro i hi
        rw [List.mem_range] at hi
        have hmem : rest.getD i 0 ∈ rest := by
          rw [List.getD_eq_getElem?_getD]
          rw [List.getElem?_eq_getElem hi]
          exact List.getElem_mem hi
        intro hcon
        apply hnotin
        rw [← hrid] at hcon
        have : (sg.getD (rest.getD i 0 - 1) dummySuggestion).rule_id
            = (sg.getD (n - 1) dummySuggestion).rule_id := by simpa using hcon
        rw [← this]
        exact List.mem_map_of_mem _ hmem
      rw [@List.find?_cons_of_pos ℕ
        (fun i => (sg.getD ((n :: rest).getD i 0 - 1) dummySuggestion).rule_id == rid) 0
        ((List.range rest.length).map Nat.succ) hp]
      rw [hnone, dictLookup_dictUpsert, if_pos hrid.symm]
      show some start = some (start + 0)
      rw [Nat.add_zero]
    · rw [@List.find?_cons_of_neg ℕ
        (fun i => (sg.getD ((n :: rest).getD i 0 - 1) dummySuggestion).rule_id == rid) 0
        ((List.range rest.length).map Nat.succ) (by simpa using hp)]
      rw [List.find?_map]
      cases hf : (List.range rest.length).find?
          ((fun i => (sg.getD ((n :: rest).getD i 0 - 1) dummySuggestion).rule_id == rid)
            ∘ Nat.succ) with
      | some i =>
        have hf' : (List.range rest.length).find?
            (fun i => (sg.getD (rest.getD i 0 - 1) dummySuggestion).rule_id == rid) = some i := hf
        rw [hf']
        show some (start + 1 + i) = some (start + (i + 1))
        exact congrArg some (by omega)
      | none =>
        have hf' : (List.range rest.length).find?
            (fun i => (sg.getD (rest.getD i 0 - 1) dummySuggestion).rule_id == rid) = none := hf
        rw [hf']
        show dictLookup (dictUpsert m0 (sg.getD (n - 1) dummySuggestion).rule_id start) rid
          = dictLookup m0 rid
        have hne2 : rid ≠ (sg.getD (n - 1) dummySuggestion).rule_id := by
          intro h
          apply hp
          rw [h]
          simp
        rw [dictLookup_dictUpsert, if_neg hne2]

/-- Claim C10 — a select invocation fully replaces the previous
selection and touches nothing else: with `--clear` every row's
`evolve_slot` becomes `0` and no other field changes; with a parsed list
of in-range suggestion numbers (picking pairwise distinct rule ids) each
picked rule receives the one-based position of its number and every
other row's slot becomes `0`, no other field changing; with any number
out of range the table is not written at all. -/
theorem c10_select_replacement
    (rulesDir historyDir runbooksDir : Option (List (String × String)))
    (rows : List Row) (rawSelection today : String) (hne : rows ≠ []) :
    (cmd_select_rows rulesDir historyDir runbooksDir rows true rawSelection today
        = some (rows.map (fun r => { r with evolve_slot := 0 })))
    ∧ (build_evolve_suggestions rulesDir historyDir runbooksDir rows 200 today ≠ [] →
       rawSelection ≠ "" →
       (((parse_selection_numbers rawSelection).map (fun n =>
            ((build_evolve_suggestions rulesDir historyDir runbooksDir rows 200 today).getD
              (n - 1) dummySuggestion).rule_id)).Nodup →
        parse_selection_numbers rawSelection ≠ [] →
        (∀ n ∈ parse_selection_numbers rawSelection,
            n ≤ (build_evolve_suggestions rulesDir historyDir runbooksDir rows 200 today).length) →
        cmd_select_rows rulesDir historyDir runbooksDir rows false rawSelection today
          = some (rows.map (fun r =>
              { r with evolve_slot := (selection_slot_spec
                  (build_evolve_suggestions rulesDir historyDir runbooksDir rows 200 today)
                  (parse_selection_numbers rawSelection) r.rule_id) })))
       ∧ ((∃ n ∈ parse_selection_numbers rawSelection,
            (build_evolve_suggestions rulesDir historyDir runbooksDir rows 200 today).length < n) →
          cmd_select_rows rulesDir historyDir runbooksDir rows false rawSelection today
            = none)) := by
  have hemp : ¬ rows.isEmpty = true := by
    cases rows with
    | nil => exact absurd rfl hne
    | cons a t => simp
  refine ⟨?_, fun hsug hraw => ⟨fun hnodup hns hbound => ?_, fun hex => ?_⟩⟩
  · unfold cmd_select_rows
    rw [if_neg hemp, if_pos rfl]
  · have hsugemp : ¬ (build_evolve_suggestions rulesDir historyDir runbooksDir
        rows 200 today).isEmpty = true := by
      rw [List.isEmpty_iff]
      exact hsug
    have hnsemp : ¬ (parse_selection_numbers rawSelection).isEmpty = true := by
      rw [List.isEmpty_iff]
      exact hns
    have hany : (parse_selection_numbers rawSelection).any (fun n =>
        decide ((build_evolve_suggestions rulesDir historyDir runbooksDir
          rows 200 today).length < n)) = false := by
      rw [List.any_eq_false]
      intro n hn
      simpa using hbound n hn
    unfold cmd_select_rows
    rw [if_neg hemp, if_neg (by decide), if_neg hsugemp, if_neg hraw, if_neg hnsemp,
      if_neg (by rw [hany]; exact Bool.false_ne_true)]
    apply congrArg some
    apply List.map_congr_left
    intro r hr
    have hl := slotMap_lookup (build_evolve_suggestions rulesDir historyDir runbooksDir
      rows 200 today) r.rule_id (parse_selection_numbers rawSelection) 1 [] hnodup
    rw [hl]
    unfold selection_slot_spec
    cases hf : (List.range (parse_selection_numbers rawSelection).length).find?
        (fun i => ((build_evolve_suggestions rulesDir historyDir runbooksDir
          rows 200 today).getD ((parse_selection_numbers rawSelection).getD i 0 - 1)
            dummySuggestion).rule_id == r.rule_id) with
    | some i =>
      show ({ r with evolve_slot := ((1 + i : Nat) : Int) } : Row) = _
      rfl
    | none =>
      show ({ r with evolve_slot := ((0 : Nat) : Int) } : Row) = _
      rfl
  · obtain ⟨n, hn, hlt⟩ := hex
    have hsugemp : ¬ (build_evolve_suggestions rulesDir historyDir runbooksDir
        rows 200 today).isEmpty = true := by
      rw [List.isEmpty_iff]
      exact hsug
    have hnsemp : ¬ (parse_selection_numbers rawSelection).isEmpty = true := by
      rw [List.isEmpty_iff]
      intro he
      rw [he] at hn
      exact absurd hn (List.not_mem_nil n)
    have hany : (parse_selection_numbers rawSelection).any (fun n =>
        decide ((build_evolve_suggestions rulesDir historyDir runbooksDir
          rows 200 today).length < n)) = true :=
      List.any_eq_true.mpr ⟨n, hn, by simpa using hlt⟩
    unfold cmd_select_rows
    rw [if_neg hemp, if_neg (by decide), if_neg hsugemp, if_neg hraw, if_neg hnsemp,
      if_pos hany]

/-- Witness for C10: numbers `2,1` over a two-row store whose
suggestion list ranks R-002 first give slot 1 to R-001 (picked first)
and slot 2 to R-002, clearing nothing else; `--clear` zeroes both slots. -/
theorem c10_select_replacement_witness :
    cmd_select_rows none none none
        [⟨"R-001", "all", "a", "t1", "error", 5, 0, 0, 0, 0, "2025-01-01", "active", 7⟩,
         ⟨"R-002", "all", "b", "t2", "error", 1, 3, 2, 0, 0, "2025-01-01", "active", 0⟩]
        false "2,1" "2026-02-03"
      = some
        [⟨"R-001", "all", "a", "t1", "error", 5, 0, 0, 0, 0, "2025-01-01", "active", 1⟩,
         ⟨"R-002", "all", "b", "t2", "error", 1, 3, 2, 0, 0, "2025-01-01", "active", 2⟩]
    ∧ cmd_select_rows none none none
        [⟨"R-001", "all", "a", "t1", "error", 5, 0, 0, 0, 0, "2025-01-01", "active", 7⟩,
         ⟨"R-002", "all", "b", "t2", "error", 1, 3, 2, 0, 0, "2025-01-01", "active", 0⟩]
        true "2,1" "2026-02-03"
      = some
        [⟨"R-001", "all", "a", "t1", "error", 5, 0, 0, 0, 0, "2025-01-01", "active", 0⟩,
         ⟨"R-002", "all", "b", "t2", "error", 1, 3, 2, 0, 0, "2025-01-01", "active", 0⟩] := by
  have h := c10_select_replacement none none none
    [⟨"R-001", "all", "a", "t1", "error", 5, 0, 0, 0, 0, "2025-01-01", "active", 7⟩,
     ⟨"R-002", "all", "b", "t2", "error", 1, 3, 2, 0, 0, "2025-01-01", "active", 0⟩]
    "2,1" "2026-02-03" (by decide)
  refine ⟨?_, ?_⟩
  · exact (((h.2 (by decide) (by decide)).1 (by decide) (by decide)
      (by decide)).trans (by decide))
  · exact h.1.trans (by decide)

/-- Counterexample to C3 as stated: on the document `q7 \n` no
AUTO_SYNC region matches, so every byte lies outside a matched region
and the claim requires them all to be preserved verbatim; the append
path of `upsert_platform_sync_block` instead right-strips the document,
so its trailing ` \n` bytes are absent from the output (the original
document does not occur in the output at all). -/
theorem c3_rstrip_counterexample :
    scanRegion ("EVOLVE_SKILL:AUTO_SYNC:BEGIN").data ("platform=" ++ "claude").data
        ("EVOLVE_SKILL:AUTO_SYNC:END").data ("q7 \n").data = none
    ∧ strContains (upsert_platform_sync_block "q7 \n" "claude" "body" "digest" "2026-02-03")
        "q7 \n" = false
    ∧ strContains (upsert_platform_sync_block "q7 \n" "claude" "body" "digest" "2026-02-03")
        "q7" = true := by
  refine ⟨by decide, by decide, by decide⟩

/-- Claim C3 (amended) — for the section updates (inline tags, TL;DR,
selection block) every byte outside the matched section is preserved
verbatim: the output is exactly prefix ++ new section text ++ suffix of
the input (or the input unchanged).  For the platform-block upsert the
same holds when a managed region matches; on the append path (no region)
the document is first right-stripped, so bytes are preserved only up to
the removal of trailing whitespace. -/
theorem c3_frame_preservation (content : String) (rows : List Row)
    (platform blockContent digest today : String) (block : String) :
    (match sectionBounds "## Rules" "Rules" content with
     | none => update_rules_inline_tags content rows = content
     | some (s, e) => ∃ mid, (update_rules_inline_tags content rows).data
         = content.data.take s ++ mid ++ content.data.drop e)
    ∧ (match sectionBounds "## TL;DR" "TL;DR" content with
       | none => update_tldr_section content rows = content
       | some (s, e) => update_tldr_section content rows = content
           ∨ ∃ mid, (update_tldr_section content rows).data
               = content.data.take s ++ mid ++ content.data.drop e)
    ∧ (match sectionBounds "## Rules" "Rules" content with
       | none => upsert_selected_rules_block content block = content
       | some (s, e) => ∃ mid, (upsert_selected_rules_block content block).data
           = content.data.take s ++ mid ++ content.data.drop e)
    ∧ (match scanRegion ("EVOLVE_SKILL:AUTO_SYNC:BEGIN").data ("platform=" ++ platform).data
          ("EVOLVE_SKILL:AUTO_SYNC:END").data content.data with
       | some (s, e) => ∃ mid,
           (upsert_platform_sync_block content platform blockContent digest today).data
             = content.data.take s ++ mid ++ content.data.drop e
       | none => ∃ suffix,
           (upsert_platform_sync_block content platform blockContent digest today).data
             = trimWsEnd content.data ++ suffix) := by
  refine ⟨?_, ?_, ?_, ?_⟩
  · unfold update_rules_inline_tags
    cases hb : sectionBounds "## Rules" "Rules" content with
    | none => rfl
    | some pr =>
      obtain ⟨s, e⟩ := pr
      exact ⟨_, rfl⟩
  · unfold update_tldr_section
    cases hb : sectionBounds "## TL;DR" "TL;DR" content with
    | none => rfl
    | some pr =>
      obtain ⟨s, e⟩ := pr
      have hgen : ∀ (b : Bool) (mid0 : List Char),
          ((if b = true
              then (⟨content.data.take s ++ mid0 ++ content.data.drop e⟩ : String)
              else content) = content)
          ∨ ∃ mid, (if b = true
              then (⟨content.data.take s ++ mid0 ++ content.data.drop e⟩ : String)
              else content).data = content.data.take s ++ mid ++ content.data.drop e := by
        intro b mid0
        cases b
        · exact Or.inl (by rw [if_neg (by decide)])
        · exact Or.inr ⟨mid0, by rw [if_pos rfl]⟩
      exact hgen _ _
  · unfold upsert_selected_rules_block
    cases hb : sectionBounds "## Rules" "Rules" content with
    | none => rfl
    | some pr =>
      obtain ⟨s, e⟩ := pr
      exact ⟨_, rfl⟩
  · unfold upsert_platform_sync_block
    cases hb : scanRegion ("EVOLVE_SKILL:AUTO_SYNC:BEGIN").data ("platform=" ++ platform).data
        ("EVOLVE_SKILL:AUTO_SYNC:END").data content.data with
    | some pr =>
      obtain ⟨s, e⟩ := pr
      exact ⟨_, rfl⟩
    | none =>
      by_cases hbase : pyRstrip content = ""
      · refine ⟨(autoSyncBlock platform blockContent digest today ++ "\n").data, ?_⟩
        show (if pyRstrip content = ""
            then autoSyncBlock platform blockContent digest today ++ "\n"
            else pyRstrip content ++ "\n\n"
              ++ autoSyncBlock platform blockContent digest today ++ "\n").data
          = trimWsEnd content.data
            ++ (autoSyncBlock platform blockContent digest today ++ "\n").data
        rw [if_pos hbase]
        have hdata : trimWsEnd content.data = [] := congrArg String.data hbase
        rw [hdata]
        rfl
      · refine ⟨("\n\n" ++ autoSyncBlock platform blockContent digest today ++ "\n").data, ?_⟩
        show (if pyRstrip content = ""
            then autoSyncBlock platform blockContent digest today ++ "\n"
            else pyRstrip content ++ "\n\n"
              ++ autoSyncBlock platform blockContent digest today ++ "\n").data
          = trimWsEnd content.data
            ++ ("\n\n" ++ autoSyncBlock platform blockContent digest today ++ "\n").data
        rw [if_neg hbase]
        simp only [String.data_append, List.append_assoc]
        rfl

/-- Consuming a literal at the head of itself plus a tail. -/
theorem consumeLit_append (lit rest : List Char) : consumeLit lit (lit ++ rest) = some rest := by
  unfold consumeLit
  rw [if_pos (startsWithSeq_append_self lit rest), List.drop_left]

/-- `takeWhile` passes through a segment satisfying the predicate. -/
theorem takeWhile_append_of_all {p : Char → Bool} (xs ys : List Char)
    (h : ∀ c ∈ xs, p c = true) : (xs ++ ys).takeWhile p = xs ++ ys.takeWhile p := by
  induction xs with
  | nil => rfl
  | cons c t ih =>
    rw [List.cons_append, List.takeWhile_cons, if_pos (h c (List.mem_cons_self c t)),
      ih (fun d hd => h d (List.mem_cons_of_mem c hd)), List.cons_append]

/-- A list ends with its own suffix. -/
theorem endsWithSeq_append_self (suf l : List Char) : endsWithSeq suf (l ++ suf) = true := by
  unfold endsWithSeq
  rw [List.reverse_append]
  exact startsWithSeq_append_self _ _

/-- A maximal single-space run: `\s+` consumes exactly the space. -/
theorem consumeWs1_space {c : Char} (hc : isWs c = false) (l : List Char) :
    consumeWs1 (' ' :: c :: l) = some (c :: l) := by
  have h1 : List.takeWhile isWs (' ' :: c :: l) = [' '] := by
    rw [List.takeWhile_cons, if_pos (show isWs ' ' = true by decide), List.takeWhile_cons,
      if_neg (show ¬ isWs c = true by simp [hc])]
  unfold consumeWs1
  rw [h1]
  rfl

/-- A begin-marker match needs a `<` as its first character. -/
theorem matchBeginAt_cons_none {c : Char} (hc : c ≠ '<') (bw kv : List Char) (t : List Char) :
    matchBeginAt bw kv (c :: t) = none := by
  unfold matchBeginAt
  have h4 : consumeLit ("<!--").data (c :: t) = none := by
    unfold consumeLit
    rw [if_neg ?_]
    show ¬ startsWithSeq ("<!--").data (c :: t) = true
    show ¬ (decide ('<' = c) && startsWithSeq ("!--").data t) = true
    rw [decide_eq_false (fun h => hc h.symm), Bool.false_and]
    exact Bool.false_ne_true
  rw [h4]

/-- A `<`-free prefix shifts the region scan. -/
theorem scanRegion_prefix_skip (bw kv ew : List Char) :
    ∀ (x l : List Char), (∀ c ∈ x, c ≠ '<') →
    scanRegion bw kv ew (x ++ l)
      = (scanRegion bw kv ew l).map (fun pr => (pr.1 + x.length, pr.2 + x.length)) := by
  intro x
  induction x with
  | nil =>
    intro l hx
    show scanRegion bw kv ew l
      = (scanRegion bw kv ew l).map (fun pr => (pr.1 + ([] : List Char).length, pr.2 + ([] : List Char).length))
    cases hs : scanRegion bw kv ew l with
    | none => rfl
    | some pr =>
      obtain ⟨a, b⟩ := pr
      show some (a, b) = some (a + ([] : List Char).length, b + ([] : List Char).length)
      rfl
  | cons c t ih =>
    intro l hx
    show scanRegion bw kv ew (c :: (t ++ l)) = _
    have hm : matchBeginAt bw kv (c :: (t ++ l)) = none :=
      matchBeginAt_cons_none (hx c (List.mem_cons_self c t)) bw kv (t ++ l)
    show (match matchBeginAt bw kv (c :: (t ++ l)) with
      | some j =>
        match scanEndFrom ew ((c :: (t ++ l)).drop j) with
        | some e => some (0, j + e)
        | none => (scanRegion bw kv ew (t ++ l)).map
            (fun (pr : Nat × Nat) => (pr.1 + 1, pr.2 + 1))
      | none => (scanRegion bw kv ew (t ++ l)).map
          (fun (pr : Nat × Nat) => (pr.1 + 1, pr.2 + 1))) = _
    rw [hm, ih l (fun d hd => hx d (List.mem_cons_of_mem c hd))]
    cases hs : scanRegion bw kv ew l with
    | none => rfl
    | some pr =>
      obtain ⟨a, b⟩ := pr
      show some (a + t.length + 1, b + t.length + 1)
        = some (a + (c :: t).length, b + (c :: t).length)
      rw [List.length_cons, ← Nat.add_assoc, ← Nat.add_assoc]

/-- The begin-marker pattern matches the rendered begin line exactly,
consuming it through its newline, whenever the interpolated digest and
date are newline-free. -/
theorem matchBeginAt_block (platform digest today : String) (rest : List Char)
    (hD : ∀ c ∈ digest.data, c ≠ '\n')
    (hT : ∀ c ∈ today.data, c ≠ '\n') :
    matchBeginAt ("EVOLVE_SKILL:AUTO_SYNC:BEGIN").data ("platform=" ++ platform).data
        ((autoSyncBeginLine platform digest today).data ++ '\n' :: rest)
      = some ((autoSyncBeginLine platform digest today).data.length + 1) := by
  have hL : (autoSyncBeginLine platform digest today).data ++ '\n' :: rest
      = ("<!--").data ++ ((" EVOLVE_SKILL:AUTO_SYNC:BEGIN platform=").data ++ (platform.data
        ++ ((" digest=").data ++ (digest.data ++ ((" updated=").data ++ (today.data
        ++ ((" -->").data ++ '\n' :: rest))))))) := by
    simp only [autoSyncBeginLine, AUTO_SYNC_BEGIN_MARK, String.data_append, List.append_assoc,
      List.cons_append, List.nil_append, List.append_nil]
  have e1 : consumeLit ("<!--").data
      ((autoSyncBeginLine platform digest today).data ++ '\n' :: rest)
      = some ((" EVOLVE_SKILL:AUTO_SYNC:BEGIN platform=").data ++ (platform.data
        ++ ((" digest=").data ++ (digest.data ++ ((" updated=").data ++ (today.data
        ++ ((" -->").data ++ '\n' :: rest))))))) := by
    rw [hL]
    exact consumeLit_append _ _
  have e2 : ((" EVOLVE_SKILL:AUTO_SYNC:BEGIN platform=").data ++ (platform.data
        ++ ((" digest=").data ++ (digest.data ++ ((" updated=").data ++ (today.data
        ++ ((" -->").data ++ '\n' :: rest))))))).dropWhile isWs
      = ("EVOLVE_SKILL:AUTO_SYNC:BEGIN platform=").data ++ (platform.data
        ++ ((" digest=").data ++ (digest.data ++ ((" updated=").data ++ (today.data
        ++ ((" -->").data ++ '\n' :: rest)))))) := by
    rw [show (" EVOLVE_SKILL:AUTO_SYNC:BEGIN platform=").data
        = ' ' :: ("EVOLVE_SKILL:AUTO_SYNC:BEGIN platform=").data from by decide,
      List.cons_append, List.dropWhile_cons]
    rw [if_pos (show isWs ' ' = true by decide)]
    rw [show ("EVOLVE_SKILL:AUTO_SYNC:BEGIN platform=").data
        = 'E' :: ("VOLVE_SKILL:AUTO_SYNC:BEGIN platform=").data from by decide,
      List.cons_append, List.dropWhile_cons]
    rw [if_neg (show ¬ isWs 'E' = true by decide), ← List.cons_append,
      ← show ("EVOLVE_SKILL:AUTO_SYNC:BEGIN platform=").data
        = 'E' :: ("VOLVE_SKILL:AUTO_SYNC:BEGIN platform=").data from by decide]
  have e3 : consumeLit ("EVOLVE_SKILL:AUTO_SYNC:BEGIN").data
      (("EVOLVE_SKILL:AUTO_SYNC:BEGIN platform=").data ++ (platform.data
        ++ ((" digest=").data ++ (digest.data ++ ((" updated=").data ++ (today.data
        ++ ((" -->").data ++ '\n' :: rest)))))))
      = some ((" platform=").data ++ (platform.data
        ++ ((" digest=").data ++ (digest.data ++ ((" updated=").data ++ (today.data
        ++ ((" -->").data ++ '\n' :: rest))))))) := by
    rw [show ("EVOLVE_SKILL:AUTO_SYNC:BEGIN platform=").data
        = ("EVOLVE_SKILL:AUTO_SYNC:BEGIN").data ++ (" platform=").data from by decide,
      List.append_assoc]
    exact consumeLit_append _ _
  have e4 : consumeWs1 ((" platform=").data ++ (platform.data
        ++ ((" digest=").data ++ (digest.data ++ ((" updated=").data ++ (today.data
        ++ ((" -->").data ++ '\n' :: rest)))))))
      = some (("platform=").data ++ (platform.data
        ++ ((" digest=").data ++ (digest.data ++ ((" updated=").data ++ (today.data
        ++ ((" -->").data ++ '\n' :: rest))))))) := by
    rw [show (" platform=").data = ' ' :: 'p' :: ("latform=").data from by decide,
      List.cons_append, List.cons_append,
      consumeWs1_space (show isWs 'p' = false by decide),
      ← List.cons_append,
      ← show ("platform=").data = 'p' :: ("latform=").data from by decide]
  have e5 : consumeLit ("platform=" ++ platform).data
      (("platform=").data ++ (platform.data
        ++ ((" digest=").data ++ (digest.data ++ ((" updated=").data ++ (today.data
        ++ ((" -->").data ++ '\n' :: rest)))))))
      = some ((" digest=").data ++ (digest.data ++ ((" updated=").data ++ (today.data
        ++ ((" -->").data ++ '\n' :: rest))))) := by
    rw [show ("platform=" ++ platform).data = ("platform=").data ++ platform.data from by
        simp [String.data_append],
      ← List.append_assoc]
    exact consumeLit_append _ _
  have e6 : ((" digest=").data ++ (digest.data ++ ((" updated=").data ++ (today.data
        ++ ((" -->").data ++ '\n' :: rest))))).takeWhile (fun c => c ≠ '\n')
      = (" digest=").data ++ (digest.data ++ ((" updated=").data ++ (today.data
        ++ (" -->").data))) := by
    rw [takeWhile_append_of_all _ _ (by decide),
      takeWhile_append_of_all _ _ (fun c hc => by simpa using hD c hc),
      takeWhile_append_of_all _ _ (by decide),
      takeWhile_append_of_all _ _ (fun c hc => by simpa using hT c hc),
      takeWhile_append_of_all _ _ (by decide)]
    rw [show List.takeWhile (fun c => decide (c ≠ '\n')) ('\n' :: rest) = [] from by
      rw [List.takeWhile_cons, if_neg (by simp)]]
    simp only [List.append_nil]
  have hlen := congrArg List.length hL
  simp only [List.length_append, List.length_cons] at hlen
  unfold matchBeginAt
  rw [e1]
  show (match consumeLit ("EVOLVE_SKILL:AUTO_SYNC:BEGIN").data
      (((" EVOLVE_SKILL:AUTO_SYNC:BEGIN platform=").data ++ (platform.data
        ++ ((" digest=").data ++ (digest.data ++ ((" updated=").data ++ (today.data
        ++ ((" -->").data ++ '\n' :: rest))))))).dropWhile isWs) with
    | none => none
    | some l3 =>
      match consumeWs1 l3 with
      | none => none
      | some l4 =>
        match consumeLit ("platform=" ++ platform).data l4 with
        | none => none
        | some l5 =>
          let lineRest := l5.takeWhile (fun c => c ≠ '\n')
          if l5.length = lineRest.length then none
          else if endsWithSeq ("-->").data lineRest then
            some (((autoSyncBeginLine platform digest today).data ++ '\n' :: rest).length
              - l5.length + lineRest.length + 1)
          else none) = some ((autoSyncBeginLine platform digest today).data.length + 1)
  rw [e2, e3]
  show (match consumeWs1 ((" platform=").data ++ (platform.data
      ++ ((" digest=").data ++ (digest.data ++ ((" updated=").data ++ (today.data
      ++ ((" -->").data ++ '\n' :: rest))))))) with
    | none => none
    | some l4 =>
      match consumeLit ("platform=" ++ platform).data l4 with
      | none => none
      | some l5 =>
        let lineRest := l5.takeWhile (fun c => c ≠ '\n')
        if l5.length = lineRest.length then none
        else if endsWithSeq ("-->").data lineRest then
          some (((autoSyncBeginLine platform digest today).data ++ '\n' :: rest).length
            - l5.length + lineRest.length + 1)
        else none) = some ((autoSyncBeginLine platform digest today).data.length + 1)
  rw [e4]
  show (match consumeLit ("platform=" ++ platform).data (("platform=").data ++ (platform.data
      ++ ((" digest=").data ++ (digest.data ++ ((" updated=").data ++ (today.data
      ++ ((" -->").data ++ '\n' :: rest))))))) with
    | none => none
    | some l5 =>
      let lineRest := l5.takeWhile (fun c => c ≠ '\n')
      if l5.length = lineRest.length then none
      else if endsWithSeq ("-->").data lineRest then
        some (((autoSyncBeginLine platform digest today).data ++ '\n' :: rest).length
          - l5.length + lineRest.length + 1)
      else none) = some ((autoSyncBeginLine platform digest today).data.length + 1)
  rw [e5]
  show (let lineRest := ((" digest=").data ++ (digest.data ++ ((" updated=").data ++ (today.data
      ++ ((" -->").data ++ '\n' :: rest))))).takeWhile (fun c => c ≠ '\n')
    if ((" digest=").data ++ (digest.data ++ ((" updated=").data ++ (today.data
        ++ ((" -->").data ++ '\n' :: rest))))).length = lineRest.length then none
    else if endsWithSeq ("-->").data lineRest then
      some (((autoSyncBeginLine platform digest today).data ++ '\n' :: rest).length
        - ((" digest=").data ++ (digest.data ++ ((" updated=").data ++ (today.data
          ++ ((" -->").data ++ '\n' :: rest))))).length + lineRest.length + 1)
    else none) = some ((autoSyncBeginLine platform digest today).data.length + 1)
  rw [show (((" digest=").data ++ (digest.data ++ ((" updated=").data ++ (today.data
      ++ ((" -->").data ++ '\n' :: rest))))).takeWhile (fun c => c ≠ '\n')) = _ from e6]
  have hneq : ¬ ((" digest=").data ++ (digest.data ++ ((" updated=").data ++ (today.data
        ++ ((" -->").data ++ '\n' :: rest))))).length
      = ((" digest=").data ++ (digest.data ++ ((" updated=").data ++ (today.data
        ++ (" -->").data)))).length := by
    simp only [List.length_append, List.length_cons]
    omega
  rw [if_neg hneq]
  have hends : endsWithSeq ("-->").data ((" digest=").data ++ (digest.data
      ++ ((" updated=").data ++ (today.data ++ (" -->").data)))) = true := by
    rw [show (" -->").data = [' '] ++ ("-->").data from by decide]
    rw [show (" digest=").data ++ (digest.data ++ ((" updated=").data ++ (today.data
        ++ ([' '] ++ ("-->").data))))
      = ((" digest=").data ++ (digest.data ++ ((" updated=").data ++ (today.data ++ [' ']))))
        ++ ("-->").data from by simp [List.append_assoc]]
    exact endsWithSeq_append_self _ _
  rw [if_pos hends]
  apply congrArg some
  simp only [List.length_append, List.length_cons] at hlen ⊢
  omega

/-- One-step evaluation of the region scan when both halves match. -/
theorem scanRegion_cons_found {bw kv ew : List Char} {c : Char} {t : List Char} {j e : Nat}
    (hb : matchBeginAt bw kv (c :: t) = some j)
    (he : scanEndFrom ew ((c :: t).drop j) = some e) :
    scanRegion bw kv ew (c :: t) = some (0, j + e) := by
  show (match matchBeginAt bw kv (c :: t) with
    | some j =>
      match scanEndFrom ew ((c :: t).drop j) with
      | some e => some (0, j + e)
      | none => (scanRegion bw kv ew t).map (fun (pr : Nat × Nat) => (pr.1 + 1, pr.2 + 1))
    | none => (scanRegion bw kv ew t).map
        (fun (pr : Nat × Nat) => (pr.1 + 1, pr.2 + 1))) = some (0, j + e)
  rw [hb]
  show (match scanEndFrom ew ((c :: t).drop j) with
    | some e => some (0, j + e)
    | none => (scanRegion bw kv ew t).map
        (fun (pr : Nat × Nat) => (pr.1 + 1, pr.2 + 1))) = some (0, j + e)
  rw [he]

/-- The region scan on a freshly rendered block followed by a newline
finds exactly the block, provided the rendered body reaches its own end
marker first. -/
theorem scanRegion_at_block (platform blockContent digest today : String)
    (hD : ∀ c ∈ digest.data, c ≠ '\n') (hT : ∀ c ∈ today.data, c ≠ '\n')
    (hend : scanEndFrom ("EVOLVE_SKILL:AUTO_SYNC:END").data
        (blockContent.data ++ '\n' :: (AUTO_SYNC_END_MARK.data ++ ['\n']))
      = some (blockContent.data.length + 1 + AUTO_SYNC_END_MARK.data.length)) :
    scanRegion ("EVOLVE_SKILL:AUTO_SYNC:BEGIN").data ("platform=" ++ platform).data
        ("EVOLVE_SKILL:AUTO_SYNC:END").data
        ((autoSyncBlock platform blockContent digest today).data ++ ['\n'])
      = some (0, (autoSyncBlock platform blockContent digest today).data.length) := by
  have hblock : (autoSyncBlock platform blockContent digest today).data ++ ['\n']
      = (autoSyncBeginLine platform digest today).data
        ++ '\n' :: (blockContent.data ++ '\n' :: (AUTO_SYNC_END_MARK.data ++ ['\n'])) := by
    simp only [autoSyncBlock, String.data_append, List.append_assoc, List.cons_append,
      List.nil_append, List.append_nil]
  have hlen := congrArg List.length hblock
  simp only [List.length_append, List.length_cons] at hlen
  cases hc : (autoSyncBlock platform blockContent digest today).data ++ ['\n'] with
  | nil =>
    have h0 := congrArg List.length hc
    simp only [List.length_append, List.length_cons, List.length_nil] at h0
    exact absurd h0 (by omega)
  | cons d T =>
    have hdT : d :: T
        = (autoSyncBeginLine platform digest today).data
          ++ '\n' :: (blockContent.data ++ '\n' :: (AUTO_SYNC_END_MARK.data ++ ['\n'])) := by
      rw [← hc, hblock]
    have hb : matchBeginAt ("EVOLVE_SKILL:AUTO_SYNC:BEGIN").data
        ("platform=" ++ platform).data (d :: T)
        = some ((autoSyncBeginLine platform digest today).data.length + 1) := by
      rw [hdT]
      exact matchBeginAt_block platform digest today _ hD hT
    have hdrop : (d :: T).drop ((autoSyncBeginLine platform digest today).data.length + 1)
        = blockContent.data ++ '\n' :: (AUTO_SYNC_END_MARK.data ++ ['\n']) := by
      rw [hdT]
      rw [show (autoSyncBeginLine platform digest today).data
            ++ '\n' :: (blockContent.data ++ '\n' :: (AUTO_SYNC_END_MARK.data ++ ['\n']))
          = ((autoSyncBeginLine platform digest today).data ++ ['\n'])
            ++ (blockContent.data ++ '\n' :: (AUTO_SYNC_END_MARK.data ++ ['\n'])) from by
        simp [List.append_assoc]]
      rw [show (autoSyncBeginLine platform digest today).data.length + 1
          = ((autoSyncBeginLine platform digest today).data ++ ['\n']).length from by
        simp [List.length_append]]
      exact List.drop_left _ _
    have he : scanEndFrom ("EVOLVE_SKILL:AUTO_SYNC:END").data
        ((d :: T).drop ((autoSyncBeginLine platform digest today).data.length + 1))
        = some (blockContent.data.length + 1 + AUTO_SYNC_END_MARK.data.length) := by
      rw [hdrop]
      exact hend
    rw [scanRegion_cons_found hb he]
    apply congrArg some
    have hfin : (autoSyncBeginLine platform digest today).data.length + 1
        + (blockContent.data.length + 1 + AUTO_SYNC_END_MARK.data.length)
        = (autoSyncBlock platform blockContent digest today).data.length := by
      omega
    rw [hfin]

/-- Re-applying the platform-block upsert with the same block is the
identity, whenever the original document had no managed region, its
right-stripped form is `<`-free, the digest and date are newline-free
and the rendered body reaches its own end marker first. -/
theorem upsert_platform_reapply (old platform blockContent digest today : String)
    (hold : scanRegion ("EVOLVE_SKILL:AUTO_SYNC:BEGIN").data ("platform=" ++ platform).data
        ("EVOLVE_SKILL:AUTO_SYNC:END").data old.data = none)
    (hlt : ∀ c ∈ trimWsEnd old.data, c ≠ '<')
    (hD : ∀ c ∈ digest.data, c ≠ '\n') (hT : ∀ c ∈ today.data, c ≠ '\n')
    (hend : scanEndFrom ("EVOLVE_SKILL:AUTO_SYNC:END").data
        (blockContent.data ++ '\n' :: (AUTO_SYNC_END_MARK.data ++ ['\n']))
      = some (blockContent.data.length + 1 + AUTO_SYNC_END_MARK.data.length)) :
    upsert_platform_sync_block
        (upsert_platform_sync_block old platform blockContent digest today)
        platform blockContent digest today
      = upsert_platform_sync_block old platform blockContent digest today := by
  have hfirst : upsert_platform_sync_block old platform blockContent digest today
      = if pyRstrip old = ""
        then autoSyncBlock platform blockContent digest today ++ "\n"
        else pyRstrip old ++ "\n\n" ++ autoSyncBlock platform blockContent digest today ++ "\n" := by
    unfold upsert_platform_sync_block
    rw [hold]
  by_cases hbase : pyRstrip old = ""
  · have hnew : upsert_platform_sync_block old platform blockContent digest today
        = autoSyncBlock platform blockContent digest today ++ "\n" := by
      rw [hfirst, if_pos hbase]
    rw [hnew]
    have hdata : (autoSyncBlock platform blockContent digest today ++ "\n").data
        = (autoSyncBlock platform blockContent digest today).data ++ ['\n'] := by
      simp [String.data_append]
    have hscan : scanRegion ("EVOLVE_SKILL:AUTO_SYNC:BEGIN").data
        ("platform=" ++ platform).data ("EVOLVE_SKILL:AUTO_SYNC:END").data
        (autoSyncBlock platform blockContent digest today ++ "\n").data
        = some (0, (autoSyncBlock platform blockContent digest today).data.length) := by
      rw [hdata]
      exact scanRegion_at_block platform blockContent digest today hD hT hend
    unfold upsert_platform_sync_block
    rw [hscan]
    apply String.ext
    show (autoSyncBlock platform blockContent digest today ++ "\n").data.take 0
        ++ (autoSyncBlock platform blockContent digest today).data
        ++ (autoSyncBlock platform blockContent digest today ++ "\n").data.drop
            (autoSyncBlock platform blockContent digest today).data.length
      = (autoSyncBlock platform blockContent digest today ++ "\n").data
    rw [List.take_zero, List.nil_append, hdata, List.drop_left]
  · have hnew : upsert_platform_sync_block old platform blockContent digest today
        = pyRstrip old ++ "\n\n" ++ autoSyncBlock platform blockContent digest today ++ "\n" := by
      rw [hfirst, if_neg hbase]
    rw [hnew]
    have hdata : (pyRstrip old ++ "\n\n" ++ autoSyncBlock platform blockContent digest today
          ++ "\n").data
        = (trimWsEnd old.data ++ ['\n', '\n'])
          ++ ((autoSyncBlock platform blockContent digest today).data ++ ['\n']) := by
      simp [pyRstrip, String.data_append, List.append_assoc]
    have hxfree : ∀ c ∈ trimWsEnd old.data ++ ['\n', '\n'], c ≠ '<' := by
      intro c hc
      rcases List.mem_append.mp hc with hm | hm
      · exact hlt c hm
      · simp only [List.mem_cons, List.not_mem_nil, or_false] at hm
        rcases hm with h1 | h1 <;> (rw [h1]; decide)
    have hscan : scanRegion ("EVOLVE_SKILL:AUTO_SYNC:BEGIN").data
        ("platform=" ++ platform).data ("EVOLVE_SKILL:AUTO_SYNC:END").data
        (pyRstrip old ++ "\n\n" ++ autoSyncBlock platform blockContent digest today ++ "\n").data
        = some ((trimWsEnd old.data ++ ['\n', '\n']).length,
            (autoSyncBlock platform blockContent digest today).data.length
              + (trimWsEnd old.data ++ ['\n', '\n']).length) := by
      rw [hdata]
      rw [scanRegion_prefix_skip _ _ _ _ _ hxfree]
      rw [scanRegion_at_block platform blockContent digest today hD hT hend]
      show some (0 + (trimWsEnd old.data ++ ['\n', '\n']).length,
          (autoSyncBlock platform blockContent digest today).data.length
            + (trimWsEnd old.data ++ ['\n', '\n']).length) = _
      rw [Nat.zero_add]
    unfold upsert_platform_sync_block
    rw [hscan]
    apply String.ext
    show (pyRstrip old ++ "\n\n" ++ autoSyncBlock platform blockContent digest today
          ++ "\n").data.take (trimWsEnd old.data ++ ['\n', '\n']).length
        ++ (autoSyncBlock platform blockContent digest today).data
        ++ (pyRstrip old ++ "\n\n" ++ autoSyncBlock platform blockContent digest today
          ++ "\n").data.drop
            ((autoSyncBlock platform blockContent digest today).data.length
              + (trimWsEnd old.data ++ ['\n', '\n']).length)
      = (pyRstrip old ++ "\n\n" ++ autoSyncBlock platform blockContent digest today ++ "\n").data
    rw [hdata]
    rw [List.take_left]
    have hdrop : ((trimWsEnd old.data ++ ['\n', '\n'])
          ++ ((autoSyncBlock platform blockContent digest today).data ++ ['\n'])).drop
        ((autoSyncBlock platform blockContent digest today).data.length
          + (trimWsEnd old.data ++ ['\n', '\n']).length) = ['\n'] := by
      rw [show (trimWsEnd old.data ++ ['\n', '\n'])
            ++ ((autoSyncBlock platform blockContent digest today).data ++ ['\n'])
          = ((trimWsEnd old.data ++ ['\n', '\n'])
            ++ (autoSyncBlock platform blockContent digest today).data) ++ ['\n'] from
        (List.append_assoc _ _ _).symm]
      rw [show (autoSyncBlock platform blockContent digest today).data.length
            + (trimWsEnd old.data ++ ['\n', '\n']).length
          = ((trimWsEnd old.data ++ ['\n', '\n'])
            ++ (autoSyncBlock platform blockContent digest today).data).length from by
        simp [List.length_append]
        omega]
      exact List.drop_left _ _
    rw [hdrop]
    exact List.append_assoc _ _ _

/-- Counterexample to C2 as stated: on the example state the second
`sync` run does not reproduce the first run's files byte-for-byte — the
stray end marker carried into the platform block truncates the managed
region, so `CLAUDE.md` grows again and the second run reports it updated
rather than skipped. -/
theorem c2_double_sync_counterexample :
    ((cmd_sync c2ExampleArgs "2026-02-03"
        (cmd_sync c2ExampleArgs "2026-02-03" c2ExampleState).1).1.rootFiles
      ≠ (cmd_sync c2ExampleArgs "2026-02-03" c2ExampleState).1.rootFiles)
    ∧ (cmd_sync c2ExampleArgs "2026-02-03"
        (cmd_sync c2ExampleArgs "2026-02-03" c2ExampleState).1).2.platformSummary.updated
      = ["CLAUDE.md"]
    ∧ (cmd_sync c2ExampleArgs "2026-02-03"
        (cmd_sync c2ExampleArgs "2026-02-03" c2ExampleState).1).2.platformSummary.unchanged
      = [] := by
  refine ⟨by decide, by decide, by decide⟩

/-- Claim C2 (amended) — the platform-file sync step is idempotent on a
clean target: if the target file has no managed region and no `<` in its
right-stripped text, the digest and date are newline-free, and the
rendered block body reaches its own end marker first (no stray marker
embedded in it), then re-running the platform sync over the once-written
file returns the identical bytes, recomputes the same digest, and
classifies the target as unchanged (the write is skipped). -/
theorem c2_platform_sync_idempotent (oldContent : Option String)
    (platform evolveContent : String) (rows : List Row)
    (ruleContentMap : List (String × String))
    (ruleTraceMap : List (String × (List String × List String))) (today : String)
    (hold : scanRegion ("EVOLVE_SKILL:AUTO_SYNC:BEGIN").data ("platform=" ++ platform).data
        ("EVOLVE_SKILL:AUTO_SYNC:END").data (oldContent.getD "").data = none)
    (hlt : ∀ c ∈ trimWsEnd (oldContent.getD "").data, c ≠ '<')
    (hD : ∀ c ∈ (build_platform_digest platform evolveContent rows
        ruleContentMap ruleTraceMap).data, c ≠ '\n')
    (hT : ∀ c ∈ today.data, c ≠ '\n')
    (hend : scanEndFrom ("EVOLVE_SKILL:AUTO_SYNC:END").data
        ((render_platform_sync_block platform evolveContent rows
            (build_platform_digest platform evolveContent rows ruleContentMap ruleTraceMap)
            ruleContentMap ruleTraceMap today).data
          ++ '\n' :: (AUTO_SYNC_END_MARK.data ++ ['\n']))
      = some ((render_platform_sync_block platform evolveContent rows
            (build_platform_digest platform evolveContent rows ruleContentMap ruleTraceMap)
            ruleContentMap ruleTraceMap today).data.length + 1
          + AUTO_SYNC_END_MARK.data.length)) :
    syncPlatformOnce
        (some (syncPlatformOnce oldContent platform evolveContent rows
          ruleContentMap ruleTraceMap today).1)
        platform evolveContent rows ruleContentMap ruleTraceMap today
      = ((syncPlatformOnce oldContent platform evolveContent rows
            ruleContentMap ruleTraceMap today).1,
         build_platform_digest platform evolveContent rows ruleContentMap ruleTraceMap,
         true) := by
  have hre := upsert_platform_reapply (oldContent.getD "") platform
    (render_platform_sync_block platform evolveContent rows
      (build_platform_digest platform evolveContent rows ruleContentMap ruleTraceMap)
      ruleContentMap ruleTraceMap today)
    (build_platform_digest platform evolveContent rows ruleContentMap ruleTraceMap)
    today hold hlt hD hT hend
  show (upsert_platform_sync_block
      (upsert_platform_sync_block (oldContent.getD "") platform
        (render_platform_sync_block platform evolveContent rows
          (build_platform_digest platform evolveContent rows ruleContentMap ruleTraceMap)
          ruleContentMap ruleTraceMap today)
        (build_platform_digest platform evolveContent rows ruleContentMap ruleTraceMap) today)
      platform
      (render_platform_sync_block platform evolveContent rows
        (build_platform_digest platform evolveContent rows ruleContentMap ruleTraceMap)
        ruleContentMap ruleTraceMap today)
      (build_platform_digest platform evolveContent rows ruleContentMap ruleTraceMap) today,
    build_platform_digest platform evolveContent rows ruleContentMap ruleTraceMap,
    (upsert_platform_sync_block
      (upsert_platform_sync_block (oldContent.getD "") platform
        (render_platform_sync_block platform evolveContent rows
          (build_platform_digest platform evolveContent rows ruleContentMap ruleTraceMap)
          ruleContentMap ruleTraceMap today)
        (build_platform_digest platform evolveContent rows ruleContentMap ruleTraceMap) today)
      platform
      (render_platform_sync_block platform evolveContent rows
        (build_platform_digest platform evolveContent rows ruleContentMap ruleTraceMap)
        ruleContentMap ruleTraceMap today)
      (build_platform_digest platform evolveContent rows ruleContentMap ruleTraceMap) today
      == upsert_platform_sync_block (oldContent.getD "") platform
        (render_platform_sync_block platform evolveContent rows
          (build_platform_digest platform evolveContent rows ruleContentMap ruleTraceMap)
          ruleContentMap ruleTraceMap today)
        (build_platform_digest platform evolveContent rows ruleContentMap ruleTraceMap) today))
    = ((syncPlatformOnce oldContent platform evolveContent rows
          ruleContentMap ruleTraceMap today).1,
       build_platform_digest platform evolveContent rows ruleContentMap ruleTraceMap,
       true)
  rw [hre, beq_self_eq_true]
  rfl

/-- Witness for the amended C2: syncing an absent `CLAUDE.md` for
platform `claude` once and then re-running the platform sync leaves the
file bytes identical, the digest equal, and the target skipped. -/
theorem c2_platform_sync_idempotent_witness :
    syncPlatformOnce
        (some (syncPlatformOnce none "claude" "x" [] [] [] "2026-02-03").1)
        "claude" "x" [] [] [] "2026-02-03"
      = ((syncPlatformOnce none "claude" "x" [] [] [] "2026-02-03").1,
         build_platform_digest "claude" "x" [] [] [],
         true) :=
  c2_platform_sync_idempotent none "claude" "x" [] [] [] "2026-02-03"
    (by decide) (by decide) (by decide) (by decide) (by decide)

end Evolve
